import Mathlib

/-!
# rgw_rest_log: listing, trimming and leasing of the sharded change logs

A shallow embedding of `src/rgw/rgw_rest_log.cc`.  Every `execute` of the
source becomes a function from the request arguments and the external
collaborators (the integer and date parsers, the log stores) to the state the
operation leaves behind: its `http_ret`, the entries it holds or has streamed,
and the calls it made to the store.  A `do ... while` loop of the source is a
function of a number of allowed iterations; the flag `finished` of the state
tells whether the loop has left.
-/

namespace RgwLog

/-! ## Constants and machine integers -/

/-- The macro `LOG_CLASS_LIST_MAX_ENTRIES` of the source. -/
def LOG_CLASS_LIST_MAX_ENTRIES : Nat := 1000

/-- The errno value of an invalid argument. -/
def EINVAL : Int := 22

/-- The errno value of a busy resource, the status of a lease conflict. -/
def EBUSY : Int := 16

/-- The cast `(unsigned)` of an `int`: the value modulo `2^32`. -/
def toUnsigned (v : Int) : Nat := (v % 4294967296).toNat

/-- Modelled from the spec: the type `utime_t` of the absolute timestamps of
a time range, declared outside the sources: seconds and nanoseconds. -/
structure utime_t where
  tv_sec : Nat
  tv_nsec : Nat
deriving DecidableEq, Repr

/-! ## Request arguments -/

/-- The query arguments of a request (`s->info.args`), name and value. -/
abbrev Args := List (String × String)

/-- The call `args.get(name)`: the value, or the empty string when absent. -/
def Args.get (a : Args) (name : String) : String := (a.lookup name).getD ""

/-- The call `args.exists(name)`. -/
def Args.has (a : Args) (name : String) : Bool := (a.lookup name).isSome

/-! ## External collaborators -/

/-- The two parsers the operations call and the source does not define:
`strict_strtol(str, 10, &err)` gives `none` when it leaves `err` non-empty and
the parsed `int` otherwise; `parse_date(str, &epoch)` gives `none` when it
returns a negative value and the epoch seconds otherwise. -/
structure Env where
  strict_strtol : String → Option Int
  parse_date : String → Option Nat

/-- A call to one of the two parsers, with the string it was given. -/
inductive ParserCall
  | strict_strtol (str : String)
  | parse_date (str : String)
deriving DecidableEq, Repr

/-- The function `parse_date_str` of the source: the status and the output
time, which keeps its previous value `out` on failure. -/
def parse_date_str (env : Env) (inp : String) (out : utime_t) : Int × utime_t :=
  if inp = "" then (0, ⟨0, 0⟩)
  else
    match env.parse_date inp with
    | none => (-EINVAL, out)
    | some epoch => (0, ⟨epoch, 0⟩)

/-- The calls `parse_date_str` makes to `parse_date`: one on a non-empty
string, none on the empty string. -/
def parse_date_calls (inp : String) : List ParserCall :=
  if inp = "" then [] else [ParserCall.parse_date inp]

/-! ## The listing loop of the metadata and data logs -/

/-- What one `list_entries` call of a store leaves behind: its status, the
entry list it was handed (by reference) as it now stands, the `truncated`
flag and the state of the store. -/
structure ListReply (σ E : Type) where
  ret : Int
  entries : List E
  truncated : Bool
  store : σ

/-- The variables of `RGWOp_MDLog_List::execute` and
`RGWOp_DATALog_List::execute`, with the parser calls (`parsed`) and the store
calls (`calls`) made so far. -/
structure LogListState (σ E C : Type) where
  http_ret : Int
  max_entries : Nat
  entries : List E
  truncated : Bool
  store : σ
  parsed : List ParserCall
  calls : List C
  finished : Bool

/-- One pass through the body of the `do ... while` loop (lines 82-89 and
376-384): the store call, the `break` on a negative status, the decrement of
`max_entries` by `entries.size()` when a max-entries argument was given
(`limited`), and the loop condition. -/
def list_step {σ E C : Type} (call : σ → Nat → List E → ListReply σ E)
    (note : σ → Nat → C) (limited : Bool) (s : LogListState σ E C) :
    LogListState σ E C :=
  let r := call s.store s.max_entries s.entries
  let calls := s.calls ++ [note s.store s.max_entries]
  if r.ret < 0 then
    { http_ret := r.ret, max_entries := s.max_entries, entries := r.entries,
      truncated := r.truncated, store := r.store, parsed := s.parsed, calls := calls,
      finished := true }
  else
    let m := if limited then toUnsigned ((s.max_entries : Int) - (r.entries.length : Int))
             else s.max_entries
    { http_ret := r.ret, max_entries := m, entries := r.entries,
      truncated := r.truncated, store := r.store, parsed := s.parsed, calls := calls,
      finished := !(r.truncated && decide (0 < m)) }

/-- The `do ... while` loop, run for at most `fuel` passes. -/
def list_loop {σ E C : Type} (call : σ → Nat → List E → ListReply σ E)
    (note : σ → Nat → C) (limited : Bool) :
    Nat → LogListState σ E C → LogListState σ E C
  | 0, s => s
  | n + 1, s =>
    let s' := list_step call note limited s
    if s'.finished then s' else list_loop call note limited n s'

/-- The state in which a List `execute` returns on a parameter it rejects,
after the parser calls `parsed`: `http_ret = -EINVAL`, no entries, no store
call.  The local `max_entries` is dead after the return and is shown with its
initial value. -/
def list_invalid {σ E C : Type} (store : σ) (parsed : List ParserCall) : LogListState σ E C :=
  { http_ret := -EINVAL, max_entries := LOG_CLASS_LIST_MAX_ENTRIES, entries := [],
    truncated := false, store := store, parsed := parsed, calls := [], finished := true }

/-- The state in which the loop of a List `execute` starts. -/
def list_start {σ E C : Type} (store : σ) (max_entries : Nat) (parsed : List ParserCall)
    (calls : List C) : LogListState σ E C :=
  { http_ret := 0, max_entries := max_entries, entries := [], truncated := false,
    store := store, parsed := parsed, calls := calls, finished := false }

/-- The calls `RGWOp_MDLog_List::execute` makes to the metadata log. -/
inductive MDLogCall
  | init_list_entries (shard_id : Nat) (st et : utime_t) (marker : String)
  | list_entries (max_entries : Nat)
deriving DecidableEq, Repr

/-- The listing interface of `RGWMetadataLog`; the handle that
`init_list_entries` creates is part of the store state. -/
structure RGWMetadataLog (σ E : Type) where
  init_list_entries : σ → Nat → utime_t → utime_t → String → σ
  list_entries : σ → Nat → List E → ListReply σ E

/-- The function `RGWOp_MDLog_List::execute` (lines 39-90). -/
def RGWOp_MDLog_List.execute {σ E : Type} (env : Env) (meta_log : RGWMetadataLog σ E)
    (args : Args) (store : σ) (fuel : Nat) : LogListState σ E MDLogCall :=
  let shard := args.get "id"
  let max_entries_str := args.get "max-entries"
  let st := args.get "start-time"
  let et := args.get "end-time"
  let marker := args.get "marker"
  match env.strict_strtol shard with
  | none => list_invalid store [ParserCall.strict_strtol shard]
  | some v =>
    let shard_id := toUnsigned v
    let rst := parse_date_str env st ⟨0, 0⟩
    let p1 := [ParserCall.strict_strtol shard] ++ parse_date_calls st
    if rst.1 < 0 then list_invalid store p1
    else
      let ret := parse_date_str env et ⟨0, 0⟩
      let p2 := p1 ++ parse_date_calls et
      if ret.1 < 0 then list_invalid store p2
      else if max_entries_str = "" then
        list_loop meta_log.list_entries (fun _ k => MDLogCall.list_entries k) false fuel
          (list_start (meta_log.init_list_entries store shard_id rst.2 ret.2 marker)
            LOG_CLASS_LIST_MAX_ENTRIES p2
            [MDLogCall.init_list_entries shard_id rst.2 ret.2 marker])
      else
        let p3 := p2 ++ [ParserCall.strict_strtol max_entries_str]
        match env.strict_strtol max_entries_str with
        | none => list_invalid store p3
        | some m =>
          list_loop meta_log.list_entries (fun _ k => MDLogCall.list_entries k) true fuel
            (list_start (meta_log.init_list_entries store shard_id rst.2 ret.2 marker)
              (toUnsigned m) p3
              [MDLogCall.init_list_entries shard_id rst.2 ret.2 marker])

/-- The function `RGWOp_MDLog_List::send_response` (lines 92-109): the
entries written to the client, none when `http_ret` is negative. -/
def RGWOp_MDLog_List.send_response {σ E C : Type} (s : LogListState σ E C) : List E :=
  if s.http_ret < 0 then [] else s.entries

/-- The calls `RGWOp_DATALog_List::execute` makes to the data log. -/
inductive DataLogCall
  | list_entries (shard_id : Nat) (st et : utime_t) (max_entries : Nat) (marker : String)
deriving DecidableEq, Repr

/-- What one `list_entries` call of the data log leaves behind; `marker` is
the in-out marker argument. -/
structure DataListReply (σ E : Type) where
  ret : Int
  entries : List E
  marker : String
  truncated : Bool
  store : σ

/-- The listing interface of `RGWDataChangesLog`. -/
structure RGWDataChangesLog (σ E : Type) where
  list_entries : σ → Nat → utime_t → utime_t → Nat → List E → String → DataListReply σ E

/-- The store call of the data-log loop, on the pair of the current marker
and the store state. -/
def data_list_call {σ E : Type} (data_log : RGWDataChangesLog σ E) (shard_id : Nat)
    (st et : utime_t) (ms : String × σ) (max_entries : Nat) (entries : List E) :
    ListReply (String × σ) E :=
  let r := data_log.list_entries ms.2 shard_id st et max_entries entries ms.1
  { ret := r.ret, entries := r.entries, truncated := r.truncated, store := (r.marker, r.store) }

/-- The function `RGWOp_DATALog_List::execute` (lines 337-385). -/
def RGWOp_DATALog_List.execute {σ E : Type} (env : Env) (data_log : RGWDataChangesLog σ E)
    (args : Args) (store : σ) (fuel : Nat) : LogListState (String × σ) E DataLogCall :=
  let shard := args.get "id"
  let st := args.get "start-time"
  let et := args.get "end-time"
  let max_entries_str := args.get "max-entries"
  let marker := args.get "marker"
  match env.strict_strtol shard with
  | none => list_invalid (marker, store) [ParserCall.strict_strtol shard]
  | some v =>
    let shard_id := toUnsigned v
    let rst := parse_date_str env st ⟨0, 0⟩
    let p1 := [ParserCall.strict_strtol shard] ++ parse_date_calls st
    if rst.1 < 0 then list_invalid (marker, store) p1
    else
      let ret := parse_date_str env et ⟨0, 0⟩
      let p2 := p1 ++ parse_date_calls et
      if ret.1 < 0 then list_invalid (marker, store) p2
      else if max_entries_str = "" then
        list_loop (data_list_call data_log shard_id rst.2 ret.2)
          (fun ms k => DataLogCall.list_entries shard_id rst.2 ret.2 k ms.1) false fuel
          (list_start (marker, store) LOG_CLASS_LIST_MAX_ENTRIES p2 [])
      else
        let p3 := p2 ++ [ParserCall.strict_strtol max_entries_str]
        match env.strict_strtol max_entries_str with
        | none => list_invalid (marker, store) p3
        | some m =>
          list_loop (data_list_call data_log shard_id rst.2 ret.2)
            (fun ms k => DataLogCall.list_entries shard_id rst.2 ret.2 k ms.1) true fuel
            (list_start (marker, store) (toUnsigned m) p3 [])

/-- The function `RGWOp_DATALog_List::send_response` (lines 387-404). -/
def RGWOp_DATALog_List.send_response {σ E C : Type} (s : LogListState σ E C) : List E :=
  if s.http_ret < 0 then [] else s.entries

/-! ## The listing loop of the bucket-index log -/

/-- Modelled from the spec: an entry of the bucket-index log (the type
`rgw_bi_log_entry` is declared outside the sources): the stable `id` that
`send_response` copies into the marker, and an opaque payload, which the
operations never read. -/
structure rgw_bi_log_entry where
  id : String
  body : String
deriving DecidableEq, Repr

/-- The calls `RGWOp_BILog_List::execute` makes to the store. -/
inductive BILogCall
  | get_bucket_info (bucket_name : String)
  | list_bi_log_entries (marker : String) (max : Nat)
deriving DecidableEq, Repr

/-- What `get_bucket_info` leaves behind. -/
structure BucketReply (σ B : Type) where
  ret : Int
  bucket_info : B
  store : σ

/-- What `list_bi_log_entries` leaves behind; the entry list is a fresh local
of each pass, so only the batch comes back. -/
structure BIListReply (σ : Type) where
  ret : Int
  entries : List rgw_bi_log_entry
  truncated : Bool
  store : σ

/-- The bucket-index interface of the store (`RGWRados`) used by List. -/
structure BILogStore (σ B : Type) where
  get_bucket_info : σ → String → BucketReply σ B
  list_bi_log_entries : σ → B → String → Nat → BIListReply σ

/-- The variables of `RGWOp_BILog_List::execute` and what it has written to
the client: `header` is the status sent with the header, `out` the entries
streamed so far, `closed` whether `send_response_end` has run. -/
structure BILogListState (σ : Type) where
  http_ret : Int
  sent_header : Bool
  header : Option Int
  marker : String
  count : Nat
  truncated : Bool
  out : List rgw_bi_log_entry
  closed : Bool
  store : σ
  calls : List BILogCall
  finished : Bool

/-- The function `RGWOp_BILog_List::send_response()` (lines 279-293): the
header, sent once. -/
def RGWOp_BILog_List.send_response {σ : Type} (s : BILogListState σ) : BILogListState σ :=
  if s.sent_header then s
  else { s with sent_header := true, header := some s.http_ret }

/-- The function `RGWOp_BILog_List::send_response(entries, marker)` (lines
295-304): every entry is written out and its id assigned to the marker. -/
def RGWOp_BILog_List.send_response_entries (entries : List rgw_bi_log_entry)
    (marker : String) : List rgw_bi_log_entry × String :=
  entries.foldl (fun acc entry => (acc.1 ++ [entry], entry.id)) ([], marker)

/-- One pass through the body of the `do ... while` loop of
`RGWOp_BILog_List::execute` (lines 261-274), then `send_response_end` when
the loop condition fails.  On a negative store status the function returns
at once: `http_ret` keeps its value and `send_response_end` is not called. -/
def bilog_step {σ B : Type} (S : BILogStore σ B) (bucket : B) (max_entries : Nat)
    (s : BILogListState σ) : BILogListState σ :=
  let max := toUnsigned ((max_entries : Int) - (s.count : Int))
  let r := S.list_bi_log_entries s.store bucket s.marker max
  let calls := s.calls ++ [BILogCall.list_bi_log_entries s.marker max]
  if r.ret < 0 then
    { s with truncated := r.truncated, store := r.store, calls := calls, finished := true }
  else
    let count := (s.count + r.entries.length) % 4294967296
    let sent := RGWOp_BILog_List.send_response_entries r.entries s.marker
    let again := r.truncated && decide (count < max_entries)
    { s with marker := sent.2, count := count, truncated := r.truncated,
             out := s.out ++ sent.1, closed := !again, store := r.store,
             calls := calls, finished := !again }

/-- The `do ... while` loop of `RGWOp_BILog_List::execute`, run for at most
`fuel` passes. -/
def bilog_loop {σ B : Type} (S : BILogStore σ B) (bucket : B) (max_entries : Nat) :
    Nat → BILogListState σ → BILogListState σ
  | 0, s => s
  | n + 1, s =>
    let s' := bilog_step S bucket max_entries s
    if s'.finished then s' else bilog_loop S bucket max_entries n s'

/-- The cap of `RGWOp_BILog_List::execute` (lines 256-258): the parsed
max-entries, or `LOG_CLASS_LIST_MAX_ENTRIES` when the parser reports an error. -/
def RGWOp_BILog_List.max_entries (env : Env) (max_entries_str : String) : Nat :=
  match env.strict_strtol max_entries_str with
  | none => LOG_CLASS_LIST_MAX_ENTRIES
  | some v => toUnsigned v

/-- The function `RGWOp_BILog_List::execute` (lines 233-277). -/
def RGWOp_BILog_List.execute {σ B : Type} (env : Env) (S : BILogStore σ B)
    (args : Args) (store : σ) (fuel : Nat) : BILogListState σ :=
  let bucket_name := args.get "bucket"
  let marker := args.get "marker"
  let max_entries_str := args.get "max-entries"
  let init : BILogListState σ :=
    { http_ret := 0, sent_header := false, header := none, marker := marker, count := 0,
      truncated := false, out := [], closed := false, store := store, calls := [],
      finished := false }
  if bucket_name = "" then
    { init with http_ret := -EINVAL, finished := true }
  else
    let b := S.get_bucket_info store bucket_name
    let looked := { init with http_ret := b.ret, store := b.store,
                              calls := [BILogCall.get_bucket_info bucket_name] }
    if b.ret < 0 then
      { looked with finished := true }
    else
      let max_entries := RGWOp_BILog_List.max_entries env max_entries_str
      bilog_loop S b.bucket_info max_entries fuel (RGWOp_BILog_List.send_response looked)

/-! ## Lock on a shard of the metadata and data logs -/

/-- The calls the Lock and Unlock operations make to a log. -/
inductive LeaseCall
  | lock_exclusive (shard_id : Nat) (duration : utime_t) (zone_id locker_id : String)
  | unlock (shard_id : Nat) (zone_id locker_id : String)
deriving DecidableEq, Repr

/-- The lease interface of a log (`RGWMetadataLog`, `RGWDataChangesLog`):
each call gives its status and the new state of the store. -/
structure LeaseStore (σ : Type) where
  lock_exclusive : σ → Nat → utime_t → String → String → Int × σ
  unlock : σ → Nat → String → String → Int × σ

/-- What an operation without a body leaves behind: its `http_ret`, the state
of the store and the calls it made to the store. -/
structure OpState (σ C : Type) where
  http_ret : Int
  store : σ
  calls : List C

/-- The body shared by `RGWOp_MDLog_Lock::execute` (lines 163-201) and
`RGWOp_DATALog_Lock::execute` (lines 423-460), which differ in the log object
only.  `dur` is `unsigned`, so the test `dur <= 0` is the test `dur = 0`. -/
def lock_execute {σ : Type} (env : Env) (log : LeaseStore σ) (args : Args) (store : σ) :
    OpState σ LeaseCall :=
  let shard_id_str := args.get "id"
  let duration_str := args.get "length"
  let locker_id := args.get "locker-id"
  let zone_id := args.get "zone-id"
  if shard_id_str = "" ∨ duration_str = "" ∨ locker_id = "" ∨ zone_id = "" then
    { http_ret := -EINVAL, store := store, calls := [] }
  else
    match env.strict_strtol shard_id_str with
    | none => { http_ret := -EINVAL, store := store, calls := [] }
    | some v =>
      let shard_id := toUnsigned v
      match env.strict_strtol duration_str with
      | none => { http_ret := -EINVAL, store := store, calls := [] }
      | some d =>
        let dur := toUnsigned d
        if dur ≤ 0 then { http_ret := -EINVAL, store := store, calls := [] }
        else
          let time : utime_t := ⟨dur, 0⟩
          let r := log.lock_exclusive store shard_id time zone_id locker_id
          { http_ret := r.1, store := r.2,
            calls := [LeaseCall.lock_exclusive shard_id time zone_id locker_id] }

/-- The function `RGWOp_MDLog_Lock::execute` (lines 163-201). -/
def RGWOp_MDLog_Lock.execute {σ : Type} (env : Env) (meta_log : LeaseStore σ) (args : Args)
    (store : σ) : OpState σ LeaseCall :=
  lock_execute env meta_log args store

/-- The function `RGWOp_DATALog_Lock::execute` (lines 423-460). -/
def RGWOp_DATALog_Lock.execute {σ : Type} (env : Env) (data_log : LeaseStore σ) (args : Args)
    (store : σ) : OpState σ LeaseCall :=
  lock_execute env data_log args store

/-! ## The lease manager -/

/-- The three log families. -/
inductive Family
  | metadata
  | bucket_index
  | data
deriving DecidableEq, Repr

/-- A lease: its owner and the time at which it expires. -/
structure Lease where
  ownerZoneId : String
  ownerLockerId : String
  expiresAt : Nat
deriving DecidableEq, Repr

/-- The lease table with the wall-clock time at which the next call reads it. -/
structure LeaseWorld where
  now : Nat
  table : Family × Nat → Option Lease

/-- Modelled from the spec: `acquire` of the LeaseManager (section 4.3),
which stands for `lock_exclusive` of the log stores, absent from the sources.
It fails with InvalidArgument when the duration is not positive or the zone or
locker id is empty, with Busy when the shard holds a lease that expires after
`now`, and otherwise records the caller as owner until `now + duration`. -/
def LeaseManager.acquire (family : Family) (w : LeaseWorld) (shard_id : Nat)
    (duration : utime_t) (zone_id locker_id : String) : Int × LeaseWorld :=
  if duration.tv_sec = 0 ∨ zone_id = "" ∨ locker_id = "" then (-EINVAL, w)
  else
    match w.table (family, shard_id) with
    | some lease =>
      if w.now < lease.expiresAt then (-EBUSY, w)
      else (0, { w with table := fun k => if k = (family, shard_id)
                    then some ⟨zone_id, locker_id, w.now + duration.tv_sec⟩ else w.table k })
    | none =>
      (0, { w with table := fun k => if k = (family, shard_id)
                    then some ⟨zone_id, locker_id, w.now + duration.tv_sec⟩ else w.table k })

/-- The lease interface of the log of a family, with the lease manager as
`lock_exclusive`; `unlock` is not used by Lock and left without effect. -/
def leaseLog (family : Family) : LeaseStore LeaseWorld :=
  { lock_exclusive := LeaseManager.acquire family
    unlock := fun w _ _ _ => (0, w) }

/-! ## Concrete collaborators, used to run the operations on examples -/

/-- The value of a string of decimal digits, `none` at the first other
character. -/
def parseDigits : List Char → Nat → Option Nat
  | [], acc => some acc
  | c :: cs, acc => if c.isDigit then parseDigits cs (acc * 10 + (c.toNat - 48)) else none

/-- Modelled from the spec: the strict base-10 integer parser `strict_strtol`
of `common/strtol.h`, which the sources only include.  It accepts an optional
sign followed by one or more decimal digits and nothing else, with a value
strictly between `INT_MIN` and `INT_MAX`; every other string, the empty one
included, is an error. -/
def strict_strtol (s : String) : Option Int :=
  let body : List Char → Option Nat := fun cs => if cs = [] then none else parseDigits cs 0
  let r : Option Int :=
    match s.data with
    | '-' :: cs => (body cs).map (fun n => -(n : Int))
    | '+' :: cs => (body cs).map (fun n => (n : Int))
    | cs => (body cs).map (fun n => (n : Int))
  r.filter (fun v => decide (-2147483648 < v ∧ v < 2147483647))

/-- An environment for examples: the decimal parser above, and a date parser
that reads a date given as epoch seconds. -/
def stdEnv : Env :=
  { strict_strtol := strict_strtol
    parse_date := fun s => if s.data = [] then none else parseDigits s.data 0 }

/-- A metadata log of the entries `0 .. total-1` that appends to the list it
is handed at most `page` entries per call, and never more than requested; its
state is the number of entries already served. -/
def pagedMetaLog (total page : Nat) : RGWMetadataLog Nat Nat :=
  { init_list_entries := fun _ _ _ _ _ => 0
    list_entries := fun pos k es =>
      let n := min k (min page (total - pos))
      { ret := 0, entries := es ++ List.range' pos n, truncated := decide (pos + n < total),
        store := pos + n } }

/-- A data log with the behaviour of `pagedMetaLog`. -/
def pagedDataLog (total page : Nat) : RGWDataChangesLog Nat Nat :=
  { list_entries := fun pos _ _ _ k es marker =>
      let n := min k (min page (total - pos))
      { ret := 0, entries := es ++ List.range' pos n, marker := marker,
        truncated := decide (pos + n < total), store := pos + n } }

/-- Modelled from the spec: a read of a static bucket-index log with marker
`marker`.  The empty marker is the beginning of the log; any other marker
stands for the entry with that id, and the read starts after it. -/
def entriesAfter (marker : String) (log : List rgw_bi_log_entry) : List rgw_bi_log_entry :=
  if marker = "" then log else (log.dropWhile (fun e => e.id != marker)).drop 1

/-- Modelled from the spec: a static bucket-index store holding `log`.  A
read with marker `m` and limit `k` returns the first `k` entries after the
entry with id `m`, and `truncated` exactly when more remain. -/
def staticBILog (log : List rgw_bi_log_entry) : BILogStore Unit Unit :=
  { get_bucket_info := fun _ _ => { ret := 0, bucket_info := (), store := () }
    list_bi_log_entries := fun _ _ marker max =>
      let rest := entriesAfter marker log
      { ret := 0, entries := rest.take max, truncated := decide (max < rest.length),
        store := () } }

/-- One scripted answer of a bucket-index store. -/
structure BIBatch where
  ret : Int
  entries : List rgw_bi_log_entry
  truncated : Bool
deriving DecidableEq, Repr

/-- A bucket-index store that finds every bucket and answers the successive
`list_bi_log_entries` calls with the successive batches of its state, whatever
the marker and the limit; once the script is used up the log is exhausted. -/
def scriptedBILog : BILogStore (List BIBatch) Unit :=
  { get_bucket_info := fun s _ => { ret := 0, bucket_info := (), store := s }
    list_bi_log_entries := fun s _ _ _ =>
      match s with
      | [] => { ret := 0, entries := [], truncated := false, store := [] }
      | b :: bs => { ret := b.ret, entries := b.entries, truncated := b.truncated, store := bs } }

/-- The id of the last entry of a list, or `marker` when the list is empty. -/
def lastId (entries : List rgw_bi_log_entry) (marker : String) : String :=
  match entries.getLast? with
  | none => marker
  | some e => e.id

/-- Repeated bucket-index List calls on the same request: at most `calls`
executions, each allowed `fuel` passes of its loop, the first with marker
`marker` and each later one with the id of the last entry the previous one
streamed, until an execution streams no entry.  The result is everything
streamed, or `none` when an execution did not finish within `fuel` passes or
`calls` executions did not reach the end. -/
def bilog_paginate {σ B : Type} (env : Env) (S : BILogStore σ B) (args : Args) (fuel : Nat) :
    Nat → σ → String → Option (List rgw_bi_log_entry)
  | 0, _, _ => none
  | n + 1, store, marker =>
    let s := RGWOp_BILog_List.execute env S (("marker", marker) :: args) store fuel
    if s.finished = false then none
    else if s.out = [] then some []
    else
      match bilog_paginate env S args fuel n s.store (lastId s.out marker) with
      | none => none
      | some rest => some (s.out ++ rest)

/-- What the loop keeps true when no max-entries argument was given: the
request size stays at its starting value, every call recorded is either one
of the calls made before the loop or a request of that size, and the loop has
left only on a negative status or on `truncated = false`. -/
def UnlimitedInv {σ E C : Type} (M : Nat) (ok : C → Prop) (s : LogListState σ E C) : Prop :=
  s.max_entries = M ∧ (∀ c ∈ s.calls, ok c)
    ∧ (s.finished = true → s.http_ret < 0 ∨ s.truncated = false)

/-- What the loop of `RGWOp_BILog_List::execute` keeps true on a store that
returns at most what it is asked for: `count` is the number of entries
streamed, which is at most the cap, and the marker is the id of the last
entry streamed, or the starting marker when none was. -/
def BILogInv {σ : Type} (M : Nat) (start : String) (s : BILogListState σ) : Prop :=
  s.count = s.out.length ∧ s.out.length ≤ M ∧ s.marker = lastId s.out start

/-- The state in which the loop of `RGWOp_BILog_List::execute` starts: the
bucket was found with status `b.ret` and the header has been sent. -/
def bilog_start {σ B : Type} (b : BucketReply σ B) (bucket_name marker : String) :
    BILogListState σ :=
  { http_ret := b.ret, sent_header := true, header := some b.ret, marker := marker,
    count := 0, truncated := false, out := [], closed := false, store := b.store,
    calls := [BILogCall.get_bucket_info bucket_name], finished := false }

/-- A Lock request on shard 3 for 60 seconds by zone `za`, locker `la`. -/
def lockRequestA : Args :=
  [("id", "3"), ("length", "60"), ("locker-id", "la"), ("zone-id", "za")]

/-- A Lock request on shard 3 for 60 seconds by zone `zb`, locker `lb`. -/
def lockRequestB : Args :=
  [("id", "3"), ("length", "60"), ("locker-id", "lb"), ("zone-id", "zb")]

/-- A Lock request on shard 3 whose length is `-5`. -/
def lockRequestNegative : Args :=
  [("id", "3"), ("length", "-5"), ("locker-id", "la"), ("zone-id", "za")]

/-- A lease table without leases, read at time 100. -/
def emptyLeases : LeaseWorld := { now := 100, table := fun _ => none }

/-- A List `execute` has rejected the request after the parser calls
`parsed`: it has returned with `-EINVAL`, holding no entry, without a call to
the store. -/
def RejectedAfter {σ E C : Type} (s : LogListState σ E C) (parsed : List ParserCall) : Prop :=
  s.finished = true ∧ s.http_ret = -EINVAL ∧ s.calls = [] ∧ s.entries = []
    ∧ s.parsed = parsed

/-- A List request whose shard id and start-time are both malformed. -/
def badIdAndStartRequest : Args := [("id", "x"), ("start-time", "yesterday")]

/-- The shard id a List `execute` hands to the store: the cast of the parsed
id (`strict_strtol` returns 0 with its error). -/
def list_shard_id (env : Env) (args : Args) : Nat :=
  toUnsigned ((env.strict_strtol (args.get "id")).getD 0)

/-- The start of the time range a List `execute` hands to the store. -/
def list_start_time (env : Env) (args : Args) : utime_t :=
  (parse_date_str env (args.get "start-time") ⟨0, 0⟩).2

/-- The end of the time range a List `execute` hands to the store. -/
def list_end_time (env : Env) (args : Args) : utime_t :=
  (parse_date_str env (args.get "end-time") ⟨0, 0⟩).2

/-- A metadata log whose first `good` calls each append one entry and report
`truncated`, and whose later calls fail with status `-5`; its state is the
number of calls made. -/
def failingMetaLog (good : Nat) : RGWMetadataLog Nat Nat :=
  { init_list_entries := fun _ _ _ _ _ => 0
    list_entries := fun made _ es =>
      if made < good then { ret := 0, entries := es ++ [made], truncated := true, store := made + 1 }
      else { ret := -5, entries := es, truncated := false, store := made + 1 } }

/-- A data log with the behaviour of `failingMetaLog`. -/
def failingDataLog (good : Nat) : RGWDataChangesLog Nat Nat :=
  { list_entries := fun made _ _ _ _ es marker =>
      if made < good then
        { ret := 0, entries := es ++ [made], marker := marker, truncated := true, store := made + 1 }
      else { ret := -5, entries := es, marker := marker, truncated := false, store := made + 1 } }

/-- Two successful bucket-index batches followed by a failing one. -/
def thirdBatchFails : List BIBatch :=
  [⟨0, [⟨"a", "1"⟩], true⟩, ⟨0, [⟨"b", "2"⟩], true⟩, ⟨-5, [], false⟩]

/-- A List request on shard 0 without further arguments. -/
def plainListRequest : Args := [("id", "0")]

/-- A bucket-index List request on bucket `b` without further arguments. -/
def plainBucketRequest : Args := [("bucket", "b")]

/-- A List request on shard 0 whose max-entries is not a number. -/
def badCapListRequest : Args := [("id", "0"), ("max-entries", "abc")]

/-- A List request on shard 0 with max-entries 2. -/
def cappedListRequest : Args := [("id", "0"), ("max-entries", "2")]

/-- A bucket-index log of five entries with the ids `a` to `e`. -/
def fiveEntries : List rgw_bi_log_entry :=
  [⟨"a", "1"⟩, ⟨"b", "2"⟩, ⟨"c", "3"⟩, ⟨"d", "4"⟩, ⟨"e", "5"⟩]

/-- A bucket-index List request on bucket `b` with max-entries 2. -/
def cappedBucketRequest : Args := [("bucket", "b"), ("max-entries", "2")]

/-! ## Unlock, Delete and the shard-count query -/

/-- The body shared by `RGWOp_MDLog_Unlock::execute` (lines 203-231) and
`RGWOp_DATALog_Unlock::execute` (lines 462-489), which differ in the log
object only. -/
def unlock_execute {σ : Type} (env : Env) (log : LeaseStore σ) (args : Args) (store : σ) :
    OpState σ LeaseCall :=
  let shard_id_str := args.get "id"
  let locker_id := args.get "locker-id"
  let zone_id := args.get "zone-id"
  if shard_id_str = "" ∨ locker_id = "" ∨ zone_id = "" then
    { http_ret := -EINVAL, store := store, calls := [] }
  else
    match env.strict_strtol shard_id_str with
    | none => { http_ret := -EINVAL, store := store, calls := [] }
    | some v =>
      let shard_id := toUnsigned v
      let r := log.unlock store shard_id zone_id locker_id
      { http_ret := r.1, store := r.2, calls := [LeaseCall.unlock shard_id zone_id locker_id] }

/-- The function `RGWOp_MDLog_Unlock::execute` (lines 203-231). -/
def RGWOp_MDLog_Unlock.execute {σ : Type} (env : Env) (meta_log : LeaseStore σ) (args : Args)
    (store : σ) : OpState σ LeaseCall :=
  unlock_execute env meta_log args store

/-- The function `RGWOp_DATALog_Unlock::execute` (lines 462-489). -/
def RGWOp_DATALog_Unlock.execute {σ : Type} (env : Env) (data_log : LeaseStore σ) (args : Args)
    (store : σ) : OpState σ LeaseCall :=
  unlock_execute env data_log args store

/-- The call a Delete makes to a log: `trim` of the metadata log,
`trim_entries` of the data log. -/
inductive TrimCall
  | trim (shard_id : Nat) (st et : utime_t)
deriving DecidableEq, Repr

/-- The body shared by `RGWOp_MDLog_Delete::execute` (lines 127-161) and
`RGWOp_DATALog_Delete::execute` (lines 491-524), which differ in the trim
function they call (`meta_log->trim`, `data_log->trim_entries`) only. -/
def delete_execute {σ : Type} (env : Env) (trim : σ → Nat → utime_t → utime_t → Int × σ)
    (args : Args) (store : σ) : OpState σ TrimCall :=
  let st := args.get "start-time"
  let et := args.get "end-time"
  let shard := args.get "id"
  match env.strict_strtol shard with
  | none => { http_ret := -EINVAL, store := store, calls := [] }
  | some v =>
    let shard_id := toUnsigned v
    if st = "" ∨ et = "" then { http_ret := -EINVAL, store := store, calls := [] }
    else
      let rst := parse_date_str env st ⟨0, 0⟩
      if rst.1 < 0 then { http_ret := -EINVAL, store := store, calls := [] }
      else
        let ret := parse_date_str env et ⟨0, 0⟩
        if ret.1 < 0 then { http_ret := -EINVAL, store := store, calls := [] }
        else
          let r := trim store shard_id rst.2 ret.2
          { http_ret := r.1, store := r.2, calls := [TrimCall.trim shard_id rst.2 ret.2] }

/-- The function `RGWOp_MDLog_Delete::execute` (lines 127-161); `trim` is
`RGWMetadataLog::trim`. -/
def RGWOp_MDLog_Delete.execute {σ : Type} (env : Env)
    (trim : σ → Nat → utime_t → utime_t → Int × σ) (args : Args) (store : σ) :
    OpState σ TrimCall :=
  delete_execute env trim args store

/-- The function `RGWOp_DATALog_Delete::execute` (lines 491-524);
`trim_entries` is `RGWDataChangesLog::trim_entries`. -/
def RGWOp_DATALog_Delete.execute {σ : Type} (env : Env)
    (trim_entries : σ → Nat → utime_t → utime_t → Int × σ) (args : Args) (store : σ) :
    OpState σ TrimCall :=
  delete_execute env trim_entries args store

/-- The calls `RGWOp_BILog_Delete::execute` makes to the store. -/
inductive BITrimCall (B : Type)
  | get_bucket_info (bucket_name : String)
  | trim_bi_log_entries (bucket : B) (start_marker end_marker : String)

/-- The bucket-index interface of the store (`RGWRados`) used by Delete. -/
structure BITrimStore (σ B : Type) where
  get_bucket_info : σ → String → BucketReply σ B
  trim_bi_log_entries : σ → B → String → String → Int × σ

/-- The function `RGWOp_BILog_Delete::execute` (lines 311-335). -/
def RGWOp_BILog_Delete.execute {σ B : Type} (S : BITrimStore σ B) (args : Args) (store : σ) :
    OpState σ (BITrimCall B) :=
  let bucket_name := args.get "bucket"
  let start_marker := args.get "start-marker"
  let end_marker := args.get "end-marker"
  if bucket_name = "" ∨ start_marker = "" ∨ end_marker = "" then
    { http_ret := -EINVAL, store := store, calls := [] }
  else
    let b := S.get_bucket_info store bucket_name
    if b.ret < 0 then
      { http_ret := b.ret, store := b.store, calls := [BITrimCall.get_bucket_info bucket_name] }
    else
      let r := S.trim_bi_log_entries b.store b.bucket_info start_marker end_marker
      { http_ret := r.1, store := r.2,
        calls := [BITrimCall.get_bucket_info bucket_name,
                  BITrimCall.trim_bi_log_entries b.bucket_info start_marker end_marker] }

/-- Modelled from the spec: the two shard counts of the configuration
(`s->cct->_conf`), whose declaration is not in the sources; the spec has them
as fixed non-negative configuration values. -/
structure Conf where
  rgw_md_log_max_shards : Nat
  rgw_data_log_num_shards : Nat

/-- What a shard-count query leaves behind. -/
structure ShardsInfo where
  num_objects : Nat
  http_ret : Int
deriving DecidableEq, Repr

/-- The function `RGWOp_MDLog_GetShardsInfo::execute` (lines 111-114). -/
def RGWOp_MDLog_GetShardsInfo.execute (conf : Conf) : ShardsInfo :=
  { num_objects := conf.rgw_md_log_max_shards, http_ret := 0 }

/-- The function `RGWOp_DATALog_GetShardsInfo::execute` (lines 407-410). -/
def RGWOp_DATALog_GetShardsInfo.execute (conf : Conf) : ShardsInfo :=
  { num_objects := conf.rgw_data_log_num_shards, http_ret := 0 }

/-! ## Dispatch -/

/-- The operations `RGWHandler_Log` can create; `MDLog_List` stands for the
class `RGWOp_MDLog_List`, and so on. -/
inductive RGWOp
  | MDLog_List
  | MDLog_GetShardsInfo
  | MDLog_Delete
  | MDLog_Lock
  | MDLog_Unlock
  | BILog_List
  | BILog_Delete
  | DATALog_List
  | DATALog_GetShardsInfo
  | DATALog_Delete
  | DATALog_Lock
  | DATALog_Unlock
deriving DecidableEq, Repr

/-- The function `RGWHandler_Log::op_get` (lines 526-550); `none` is `NULL`. -/
def RGWHandler_Log.op_get (args : Args) : Option RGWOp :=
  match args.lookup "type" with
  | none => none
  | some type =>
    if type = "metadata" then
      if args.has "id" then some RGWOp.MDLog_List else some RGWOp.MDLog_GetShardsInfo
    else if type = "bucket-index" then some RGWOp.BILog_List
    else if type = "data" then
      if args.has "id" then some RGWOp.DATALog_List else some RGWOp.DATALog_GetShardsInfo
    else none

/-- The function `RGWHandler_Log::op_delete` (lines 552-567). -/
def RGWHandler_Log.op_delete (args : Args) : Option RGWOp :=
  match args.lookup "type" with
  | none => none
  | some type =>
    if type = "metadata" then some RGWOp.MDLog_Delete
    else if type = "bucket-index" then some RGWOp.BILog_Delete
    else if type = "data" then some RGWOp.DATALog_Delete
    else none

/-- The function `RGWHandler_Log::op_post` (lines 569-589). -/
def RGWHandler_Log.op_post (args : Args) : Option RGWOp :=
  match args.lookup "type" with
  | none => none
  | some type =>
    if type = "metadata" then
      if args.has "lock" then some RGWOp.MDLog_Lock
      else if args.has "unlock" then some RGWOp.MDLog_Unlock
      else none
    else if type = "data" then
      if args.has "lock" then some RGWOp.DATALog_Lock
      else if args.has "unlock" then some RGWOp.DATALog_Unlock
      else none
    else none

/-- The family an operation belongs to. -/
def RGWOp.family : RGWOp → Family
  | RGWOp.MDLog_List => Family.metadata
  | RGWOp.MDLog_GetShardsInfo => Family.metadata
  | RGWOp.MDLog_Delete => Family.metadata
  | RGWOp.MDLog_Lock => Family.metadata
  | RGWOp.MDLog_Unlock => Family.metadata
  | RGWOp.BILog_List => Family.bucket_index
  | RGWOp.BILog_Delete => Family.bucket_index
  | RGWOp.DATALog_List => Family.data
  | RGWOp.DATALog_GetShardsInfo => Family.data
  | RGWOp.DATALog_Delete => Family.data
  | RGWOp.DATALog_Lock => Family.data
  | RGWOp.DATALog_Unlock => Family.data

/-- A GET request for the metadata log without shard id. -/
def metadataCountRequest : Args := [("type", "metadata")]

/-- A POST request for the data log with both a lock and an unlock argument. -/
def dataLockUnlockRequest : Args := [("type", "data"), ("unlock", ""), ("lock", "")]

/-- A POST request for the bucket-index log with a lock argument. -/
def bucketLockRequest : Args := [("type", "bucket-index"), ("lock", "")]

/-- A request whose type is not a log family. -/
def unknownTypeRequest : Args := [("type", "Metadata"), ("id", "0"), ("lock", "")]

/-- A lease store without leases that refuses every Lock with the Busy status
and accepts every Unlock; its state counts the calls. -/
def busyLeaseStore : LeaseStore Nat :=
  { lock_exclusive := fun n _ _ _ _ => (-EBUSY, n + 1)
    unlock := fun n _ _ _ => (0, n + 1) }

/-- A trim function that succeeds; its state counts the calls. -/
def countingTrim : Nat → Nat → utime_t → utime_t → Int × Nat :=
  fun n _ _ _ => (0, n + 1)

/-- A bucket-index store that finds only the bucket `b` (an unknown bucket
gives status `-2`) and whose trim succeeds; its state counts the calls. -/
def oneBucketStore : BITrimStore Nat Nat :=
  { get_bucket_info := fun n name =>
      if name = "b" then { ret := 0, bucket_info := 7, store := n + 1 }
      else { ret := -2, bucket_info := 0, store := n + 1 }
    trim_bi_log_entries := fun n _ _ _ => (0, n + 1) }

/-- A Delete request on shard 3 with both time bounds. -/
def boundedDeleteRequest : Args :=
  [("id", "3"), ("start-time", "100"), ("end-time", "200")]

/-- A Delete request on shard 3 without end-time. -/
def openDeleteRequest : Args := [("id", "3"), ("start-time", "100")]

/-- An Unlock request on shard 3 by zone `za`, locker `la`. -/
def unlockRequestA : Args := [("id", "3"), ("locker-id", "la"), ("zone-id", "za")]

/-- An Unlock request without locker id. -/
def anonymousUnlockRequest : Args := [("id", "3"), ("zone-id", "za")]

/-- A bucket-index Delete request on bucket `b` with both markers. -/
def bucketTrimRequest : Args :=
  [("bucket", "b"), ("start-marker", "m1"), ("end-marker", "m9")]

/-- A bucket-index Delete request on an unknown bucket. -/
def unknownBucketTrimRequest : Args :=
  [("bucket", "c"), ("start-marker", "m1"), ("end-marker", "m9")]

/-- A bucket-index Delete request without end-marker. -/
def openBucketTrimRequest : Args := [("bucket", "b"), ("start-marker", "m1")]

/-- An Unlock request on shard `-1`. -/
def negativeShardUnlockRequest : Args :=
  [("id", "-1"), ("locker-id", "la"), ("zone-id", "za")]

/-- A List request on shard `-1`. -/
def negativeShardListRequest : Args := [("id", "-1")]

/-- A Lock request without length. -/
def openLockRequest : Args := [("id", "3"), ("locker-id", "la"), ("zone-id", "za")]

/-- A bucket-index store that answers a request for at least one entry with
one entry and `truncated = true`, successfully for its first `good` calls and
with status `-5` afterwards, and a request for no entry with no entry and
`truncated = false`; its state is the number of calls made. -/
def failingBILog (good : Nat) : BILogStore Nat Unit :=
  { get_bucket_info := fun made _ => { ret := 0, bucket_info := (), store := made }
    list_bi_log_entries := fun made _ _ k =>
      { ret := if made < good then 0 else -5
        entries := if k = 0 then [] else [⟨"e", "x"⟩]
        truncated := !decide (k = 0)
        store := made + 1 } }

/-! # Properties of the operations -/

/-! ## Machine integers, dates and arguments -/

/-- The cast to `unsigned` is below `2^32`. -/
theorem toUnsigned_lt (v : Int) : toUnsigned v < 4294967296 := by
  unfold toUnsigned
  have h1 : 0 ≤ v % 4294967296 := Int.emod_nonneg _ (by decide)
  have h2 : v % 4294967296 < 4294967296 := Int.emod_lt_of_pos _ (by decide)
  omega

/-- The unsigned difference of two unsigned values does not wrap when the
second is at most the first. -/
theorem toUnsigned_natCast_sub (a b : Nat) (hb : b ≤ a) (ha : a < 4294967296) :
    toUnsigned ((a : Int) - (b : Int)) = a - b := by
  unfold toUnsigned
  have h : ((a : Int) - (b : Int)) = ((a - b : Nat) : Int) := by omega
  rw [h, Int.emod_eq_of_lt (by omega) (by omega)]
  simp

/-- The cast to `unsigned` of a value between 0 and `2^32` is the value. -/
theorem toUnsigned_of_int_range (d : Int) (h0 : 0 ≤ d) (h1 : d < 4294967296) :
    toUnsigned d = d.toNat := by
  unfold toUnsigned
  rw [Int.emod_eq_of_lt h0 h1]

/-- The function `parse_date_str` fails exactly on a non-empty string that
the date parser rejects. -/
theorem parse_date_str_neg (env : Env) (inp : String) (out : utime_t) :
    (parse_date_str env inp out).1 < 0 ↔ (inp ≠ "" ∧ env.parse_date inp = none) := by
  unfold parse_date_str
  by_cases h : inp = ""
  · simp [h]
  · rw [if_neg h]
    cases hp : env.parse_date inp with
    | none => simp [h, EINVAL]
    | some e => simp

/-- A marker argument put in front of a request changes no other argument. -/
theorem args_get_marker_cons (args : Args) (m name : String) (h : name ≠ "marker") :
    Args.get (("marker", m) :: args) name = Args.get args name := by
  unfold Args.get
  have : (name == "marker") = false := by simpa using h
  simp [List.lookup, this]

/-- A marker argument put in front of a request is the marker of the request. -/
theorem args_get_marker (args : Args) (m : String) :
    Args.get (("marker", m) :: args) "marker" = m := by
  simp [Args.get, List.lookup]

/-! ## The loop of the metadata and data List -/

/-- A property that holds of the starting state and is kept by every pass of
the loop holds of the state the loop reaches. -/
theorem list_loop_induct {σ E C : Type} (call : σ → Nat → List E → ListReply σ E)
    (note : σ → Nat → C) (limited : Bool) (P : LogListState σ E C → Prop)
    (hstep : ∀ s, P s → P (list_step call note limited s)) :
    ∀ (n : Nat) (s : LogListState σ E C), P s → P (list_loop call note limited n s) := by
  intro n
  induction n with
  | zero => intro s hs; exact hs
  | succ n ih =>
    intro s hs
    simp only [list_loop]
    split
    · exact hstep s hs
    · exact ih _ (hstep s hs)

/-- The first allowed pass of the loop. -/
theorem list_loop_unfold {σ E C : Type} (call : σ → Nat → List E → ListReply σ E)
    (note : σ → Nat → C) (limited : Bool) (n : Nat) (s : LogListState σ E C) :
    list_loop call note limited (n + 1) s
      = if (list_step call note limited s).finished = true then list_step call note limited s
        else list_loop call note limited n (list_step call note limited s) := rfl

/-- While the loop has not left, one more allowed pass is one more pass. -/
theorem list_loop_succ {σ E C : Type} (call : σ → Nat → List E → ListReply σ E)
    (note : σ → Nat → C) (limited : Bool) :
    ∀ (n : Nat) (s : LogListState σ E C),
      (list_loop call note limited n s).finished = false →
      list_loop call note limited (n + 1) s
        = list_step call note limited (list_loop call note limited n s) := by
  intro n
  induction n with
  | zero =>
    intro s _
    simp only [list_loop]
    split <;> rfl
  | succ n ih =>
    intro s hs
    rw [list_loop_unfold call note limited (n + 1) s]
    rw [list_loop_unfold call note limited n s] at hs ⊢
    by_cases hf : (list_step call note limited s).finished = true
    · rw [if_pos hf] at hs
      rw [hf] at hs; cases hs
    · simp only [if_neg hf] at hs ⊢
      exact ih _ hs

/-- Once the loop has left, more allowed passes change nothing. -/
theorem list_loop_stable {σ E C : Type} (call : σ → Nat → List E → ListReply σ E)
    (note : σ → Nat → C) (limited : Bool) :
    ∀ (n m : Nat) (s : LogListState σ E C),
      (list_loop call note limited (n + 1) s).finished = true →
      list_loop call note limited (n + 1 + m) s = list_loop call note limited (n + 1) s := by
  intro n
  induction n with
  | zero =>
    intro m s hs
    have h1 : list_loop call note limited 1 s = list_step call note limited s := by
      simp only [list_loop]; split <;> rfl
    rw [h1] at hs ⊢
    rw [show 0 + 1 + m = m + 1 by omega, list_loop_unfold, if_pos hs]
  | succ n ih =>
    intro m s hs
    rw [show n + 1 + 1 + m = (n + 1 + m) + 1 by omega, list_loop_unfold]
    rw [list_loop_unfold] at hs ⊢
    by_cases hf : (list_step call note limited s).finished = true
    · simp only [if_pos hf]
    · simp only [if_neg hf] at hs ⊢
      exact ih m _ hs

/-- A pass whose store call fails ends the loop with the status of the call,
and nothing is sent to the client. -/
theorem list_step_fail {σ E C : Type} (call : σ → Nat → List E → ListReply σ E)
    (note : σ → Nat → C) (limited : Bool) (s : LogListState σ E C)
    (h : (call s.store s.max_entries s.entries).ret < 0) :
    (list_step call note limited s).finished = true
    ∧ (list_step call note limited s).http_ret = (call s.store s.max_entries s.entries).ret
    ∧ (list_step call note limited s).entries = (call s.store s.max_entries s.entries).entries := by
  simp only [list_step, if_pos h, and_self]

/-- If the loop has not left after `n` passes and the next store call fails,
then the loop leaves on that call, whatever number of further passes is
allowed, with the status of the call. -/
theorem list_loop_fail {σ E C : Type} (call : σ → Nat → List E → ListReply σ E)
    (note : σ → Nat → C) (limited : Bool) (n fuel : Nat) (s0 : LogListState σ E C)
    (hrun : (list_loop call note limited n s0).finished = false)
    (hfail : (call (list_loop call note limited n s0).store
                (list_loop call note limited n s0).max_entries
                (list_loop call note limited n s0).entries).ret < 0)
    (hfuel : n + 1 ≤ fuel) :
    (list_loop call note limited fuel s0).finished = true
    ∧ (list_loop call note limited fuel s0).http_ret
        = (call (list_loop call note limited n s0).store
                (list_loop call note limited n s0).max_entries
                (list_loop call note limited n s0).entries).ret
    ∧ (list_loop call note limited fuel s0).entries
        = (call (list_loop call note limited n s0).store
                (list_loop call note limited n s0).max_entries
                (list_loop call note limited n s0).entries).entries := by
  have h1 := list_loop_succ call note limited n s0 hrun
  have h2 := list_step_fail call note limited _ hfail
  rw [← h1] at h2
  obtain ⟨m, rfl⟩ : ∃ m, fuel = n + 1 + m := ⟨fuel - (n + 1), by omega⟩
  rw [list_loop_stable call note limited n m s0 h2.1]
  exact h2

/-- The state `list_invalid` is a rejection after its parser calls. -/
theorem list_invalid_rejected {σ E C : Type} (store : σ) (parsed : List ParserCall) :
    RejectedAfter (list_invalid store parsed : LogListState σ E C) parsed :=
  ⟨rfl, rfl, rfl, rfl, rfl⟩

/-- A rejected request has returned. -/
theorem list_invalid_finished {σ E C : Type} (store : σ) (ps : List ParserCall) :
    (list_invalid store ps : LogListState σ E C).finished = true := rfl

/-- The two ways of `RGWOp_MDLog_List::execute`: a rejected request, or the
loop from a starting state. -/
theorem md_list_execute_cases {σ E : Type} (env : Env) (meta_log : RGWMetadataLog σ E)
    (args : Args) (store : σ) :
    (∃ ps, ∀ fuel, RGWOp_MDLog_List.execute env meta_log args store fuel = list_invalid store ps)
    ∨ (∃ h m ps cs, ∀ fuel, RGWOp_MDLog_List.execute env meta_log args store fuel
        = list_loop meta_log.list_entries (fun _ k => MDLogCall.list_entries k)
            (!decide (args.get "max-entries" = "")) fuel (list_start h m ps cs)) := by
  unfold RGWOp_MDLog_List.execute
  cases hv : env.strict_strtol (args.get "id") with
  | none => simp only [hv]; exact Or.inl ⟨_, fun _ => rfl⟩
  | some v =>
    simp only [hv]
    by_cases h1 : (parse_date_str env (args.get "start-time") ⟨0, 0⟩).1 < 0
    · simp only [if_pos h1]; exact Or.inl ⟨_, fun _ => rfl⟩
    · by_cases h2 : (parse_date_str env (args.get "end-time") ⟨0, 0⟩).1 < 0
      · simp only [if_neg h1, if_pos h2]; exact Or.inl ⟨_, fun _ => rfl⟩
      · by_cases h3 : args.get "max-entries" = ""
        · simp only [if_neg h1, if_neg h2, if_pos h3, h3, decide_True, Bool.not_true]
          exact Or.inr ⟨_, _, _, _, fun _ => rfl⟩
        · simp only [if_neg h1, if_neg h2, if_neg h3]
          cases hm : env.strict_strtol (args.get "max-entries") with
          | none => simp only [hm]; exact Or.inl ⟨_, fun _ => rfl⟩
          | some m =>
            simp only [hm, h3, decide_False, Bool.not_false]
            exact Or.inr ⟨_, _, _, _, fun _ => rfl⟩

/-- The two ways of `RGWOp_DATALog_List::execute`: a rejected request, or the
loop from a starting state. -/
theorem data_list_execute_cases {σ E : Type} (env : Env) (data_log : RGWDataChangesLog σ E)
    (args : Args) (store : σ) :
    (∃ ps, ∀ fuel, RGWOp_DATALog_List.execute env data_log args store fuel
        = list_invalid (args.get "marker", store) ps)
    ∨ (∃ m ps, ∀ fuel, RGWOp_DATALog_List.execute env data_log args store fuel
        = list_loop
            (data_list_call data_log (list_shard_id env args) (list_start_time env args)
              (list_end_time env args))
            (fun ms k => DataLogCall.list_entries (list_shard_id env args)
              (list_start_time env args) (list_end_time env args) k ms.1)
            (!decide (args.get "max-entries" = "")) fuel
            (list_start (args.get "marker", store) m ps [])) := by
  unfold RGWOp_DATALog_List.execute
  cases hv : env.strict_strtol (args.get "id") with
  | none => simp only [hv]; exact Or.inl ⟨_, fun _ => rfl⟩
  | some v =>
    have hs : list_shard_id env args = toUnsigned v := by simp [list_shard_id, hv]
    rw [hs]
    simp only [hv]
    by_cases h1 : (parse_date_str env (args.get "start-time") ⟨0, 0⟩).1 < 0
    · simp only [if_pos h1]; exact Or.inl ⟨_, fun _ => rfl⟩
    · by_cases h2 : (parse_date_str env (args.get "end-time") ⟨0, 0⟩).1 < 0
      · simp only [if_neg h1, if_pos h2]; exact Or.inl ⟨_, fun _ => rfl⟩
      · by_cases h3 : args.get "max-entries" = ""
        · simp only [if_neg h1, if_neg h2, if_pos h3, h3, decide_True, Bool.not_true]
          exact Or.inr ⟨_, _, fun _ => rfl⟩
        · simp only [if_neg h1, if_neg h2, if_neg h3]
          cases hm : env.strict_strtol (args.get "max-entries") with
          | none => simp only [hm]; exact Or.inl ⟨_, fun _ => rfl⟩
          | some m =>
            simp only [hm, h3, decide_False, Bool.not_false]
            exact Or.inr ⟨_, _, fun _ => rfl⟩

/-- A pass of the loop without max-entries argument keeps `UnlimitedInv`. -/
theorem unlimited_step {σ E C : Type} (call : σ → Nat → List E → ListReply σ E)
    (note : σ → Nat → C) (M : Nat) (hM : 0 < M) (ok : C → Prop)
    (hnote : ∀ st, ok (note st M)) (s : LogListState σ E C)
    (hs : UnlimitedInv M ok s) : UnlimitedInv M ok (list_step call note false s) := by
  obtain ⟨h1, h2, _⟩ := hs
  unfold list_step
  by_cases hr : (call s.store s.max_entries s.entries).ret < 0
  · simp only [hr, if_true]
    refine ⟨h1, ?_, fun _ => Or.inl hr⟩
    intro c hc
    rcases List.mem_append.mp hc with h | h
    · exact h2 c h
    · simp only [List.mem_singleton] at h
      rw [h, h1]; exact hnote _
  · simp only [hr, if_false]
    refine ⟨h1, ?_, ?_⟩
    · intro c hc
      rcases List.mem_append.mp hc with h | h
      · exact h2 c h
      · simp only [List.mem_singleton] at h
        rw [h, h1]; exact hnote _
    · intro hf
      right
      simpa [h1, hM] using hf

/-- Every state of `RGWOp_MDLog_List::execute` on a request without
max-entries argument satisfies `UnlimitedInv` with request size 1000. -/
theorem md_list_unlimited {σ E : Type} (env : Env) (meta_log : RGWMetadataLog σ E)
    (args : Args) (store : σ) (fuel : Nat) (habsent : args.get "max-entries" = "") :
    UnlimitedInv 1000 (fun c => ∀ k, c = MDLogCall.list_entries k → k = 1000)
      (RGWOp_MDLog_List.execute env meta_log args store fuel) := by
  have hinv : ∀ (st : σ) (ps : List ParserCall),
      UnlimitedInv 1000 (fun c => ∀ k, c = MDLogCall.list_entries k → k = 1000)
        (list_invalid st ps : LogListState σ E MDLogCall) := by
    intro st ps
    refine ⟨rfl, ?_, fun _ => Or.inl (by simp [list_invalid, EINVAL])⟩
    intro c hc; simp [list_invalid] at hc
  unfold RGWOp_MDLog_List.execute
  simp only [habsent]
  split
  · exact hinv _ _
  · split
    · exact hinv _ _
    · split
      · exact hinv _ _
      · simp only [if_true, LOG_CLASS_LIST_MAX_ENTRIES]
        apply list_loop_induct _ _ _ _ (unlimited_step _ _ 1000 (by decide) _ _)
        · refine ⟨rfl, ?_, fun h => by simp [list_start] at h⟩
          intro c hc k hk
          simp only [list_start, List.mem_singleton] at hc
          rw [hc] at hk; cases hk
        · intro st k hk; cases hk; rfl

/-- Every state of `RGWOp_DATALog_List::execute` on a request without
max-entries argument satisfies `UnlimitedInv` with request size 1000. -/
theorem data_list_unlimited {σ E : Type} (env : Env) (data_log : RGWDataChangesLog σ E)
    (args : Args) (store : σ) (fuel : Nat) (habsent : args.get "max-entries" = "") :
    UnlimitedInv 1000
      (fun c => ∀ shard_id st et k marker,
        c = DataLogCall.list_entries shard_id st et k marker → k = 1000)
      (RGWOp_DATALog_List.execute env data_log args store fuel) := by
  have hinv : ∀ (st : String × σ) (ps : List ParserCall),
      UnlimitedInv 1000
        (fun c => ∀ shard_id st et k marker,
          c = DataLogCall.list_entries shard_id st et k marker → k = 1000)
        (list_invalid st ps : LogListState (String × σ) E DataLogCall) := by
    intro st ps
    refine ⟨rfl, ?_, fun _ => Or.inl (by simp [list_invalid, EINVAL])⟩
    intro c hc; simp [list_invalid] at hc
  unfold RGWOp_DATALog_List.execute
  simp only [habsent]
  split
  · exact hinv _ _
  · split
    · exact hinv _ _
    · split
      · exact hinv _ _
      · simp only [if_true, LOG_CLASS_LIST_MAX_ENTRIES]
        apply list_loop_induct _ _ _ _ (unlimited_step _ _ 1000 (by decide) _ _)
        · refine ⟨rfl, ?_, fun h => by simp [list_start] at h⟩
          intro c hc
          simp [list_start] at hc
        · intro st a b c d e hk; cases hk; rfl

/-- The store `pagedMetaLog` appends at most the requested number of entries. -/
theorem pagedMetaLog_appends (total page pos k : Nat) (es : List Nat) :
    ∃ batch, ((pagedMetaLog total page).list_entries pos k es).entries = es ++ batch
      ∧ batch.length ≤ k :=
  ⟨List.range' pos (min k (min page (total - pos))), rfl, by simp⟩

/-- The store `pagedDataLog` appends at most the requested number of entries. -/
theorem pagedDataLog_appends (total page pos shard k : Nat) (st et : utime_t) (es : List Nat)
    (marker : String) :
    ∃ batch, ((pagedDataLog total page).list_entries pos shard st et k es marker).entries
        = es ++ batch ∧ batch.length ≤ k :=
  ⟨List.range' pos (min k (min page (total - pos))), rfl, by simp⟩

/-! ## The loop of the bucket-index List -/

/-- The cap of a bucket-index List is an `unsigned` value. -/
theorem bilog_max_entries_lt (env : Env) (str : String) :
    RGWOp_BILog_List.max_entries env str < 4294967296 := by
  unfold RGWOp_BILog_List.max_entries
  split
  · decide
  · exact toUnsigned_lt _

/-- The marker is unchanged by an empty batch. -/
theorem lastId_nil (m : String) : lastId [] m = m := rfl

/-- The marker after a batch is the id of its last entry. -/
theorem lastId_concat (es : List rgw_bi_log_entry) (e : rgw_bi_log_entry) (m : String) :
    lastId (es ++ [e]) m = e.id := by
  simp [lastId]

/-- The last id of a list that ends with a non-empty batch is the last id
of the batch. -/
theorem lastId_append (pre es : List rgw_bi_log_entry) (m m' : String) (h : es ≠ []) :
    lastId (pre ++ es) m = lastId es m' := by
  rcases List.eq_nil_or_concat es with h0 | ⟨l, e, rfl⟩
  · exact absurd h0 h
  · rw [List.concat_eq_append, ← List.append_assoc, lastId_concat, lastId_concat]

/-- The marker after two runs of entries is the marker after the second run
started from the marker after the first. -/
theorem lastId_append_self (pre es : List rgw_bi_log_entry) (m : String) :
    lastId (pre ++ es) m = lastId es (lastId pre m) := by
  by_cases h : es = []
  · subst h; simp [lastId_nil]
  · exact lastId_append pre es m _ h

/-- The loop of `send_response(entries, marker)` from any point: the entries
are written in order and the marker ends as the last id. -/
theorem send_response_entries_fold (es pre : List rgw_bi_log_entry) (m : String) :
    es.foldl (fun acc entry => (acc.1 ++ [entry], entry.id)) (pre, m)
      = (pre ++ es, lastId es m) := by
  induction es generalizing pre m with
  | nil => simp [lastId]
  | cons e es ih =>
    rw [List.foldl_cons, ih]
    have : lastId (e :: es) m = lastId es e.id := by
      rcases List.eq_nil_or_concat es with h0 | ⟨l, x, rfl⟩
      · subst h0; simp [lastId]
      · rw [List.concat_eq_append, ← List.cons_append, lastId_concat, lastId_concat]
    simp [this]

/-- The function `send_response(entries, marker)` writes the batch as it is and
leaves the last id in the marker. -/
theorem send_response_entries_eq (es : List rgw_bi_log_entry) (m : String) :
    RGWOp_BILog_List.send_response_entries es m = (es, lastId es m) := by
  unfold RGWOp_BILog_List.send_response_entries
  rw [send_response_entries_fold]; simp

/-- Once the bucket is found, `RGWOp_BILog_List::execute` is its loop. -/
theorem bilog_execute_eq {σ B : Type} (env : Env) (S : BILogStore σ B) (args : Args)
    (store : σ) (fuel : Nat) (hbucket : args.get "bucket" ≠ "")
    (hinfo : ¬ (S.get_bucket_info store (args.get "bucket")).ret < 0) :
    RGWOp_BILog_List.execute env S args store fuel
      = bilog_loop S (S.get_bucket_info store (args.get "bucket")).bucket_info
          (RGWOp_BILog_List.max_entries env (args.get "max-entries")) fuel
          (bilog_start (S.get_bucket_info store (args.get "bucket")) (args.get "bucket")
            (args.get "marker")) := by
  unfold RGWOp_BILog_List.execute
  simp only [if_neg hbucket, if_neg hinfo, RGWOp_BILog_List.send_response]
  rfl

/-- A pass of the bucket-index loop whose store call succeeds. -/
theorem bilog_step_ok {σ B : Type} (S : BILogStore σ B) (bucket : B) (M : Nat)
    (s : BILogListState σ)
    (h : ¬ (S.list_bi_log_entries s.store bucket s.marker
              (toUnsigned ((M : Int) - (s.count : Int)))).ret < 0) :
    bilog_step S bucket M s =
      { s with
        marker := lastId (S.list_bi_log_entries s.store bucket s.marker
              (toUnsigned ((M : Int) - (s.count : Int)))).entries s.marker
        count := (s.count + (S.list_bi_log_entries s.store bucket s.marker
              (toUnsigned ((M : Int) - (s.count : Int)))).entries.length) % 4294967296
        truncated := (S.list_bi_log_entries s.store bucket s.marker
              (toUnsigned ((M : Int) - (s.count : Int)))).truncated
        out := s.out ++ (S.list_bi_log_entries s.store bucket s.marker
              (toUnsigned ((M : Int) - (s.count : Int)))).entries
        closed := !((S.list_bi_log_entries s.store bucket s.marker
              (toUnsigned ((M : Int) - (s.count : Int)))).truncated
            && decide ((s.count + (S.list_bi_log_entries s.store bucket s.marker
              (toUnsigned ((M : Int) - (s.count : Int)))).entries.length) % 4294967296 < M))
        store := (S.list_bi_log_entries s.store bucket s.marker
              (toUnsigned ((M : Int) - (s.count : Int)))).store
        calls := s.calls ++ [BILogCall.list_bi_log_entries s.marker
              (toUnsigned ((M : Int) - (s.count : Int)))]
        finished := !((S.list_bi_log_entries s.store bucket s.marker
              (toUnsigned ((M : Int) - (s.count : Int)))).truncated
            && decide ((s.count + (S.list_bi_log_entries s.store bucket s.marker
              (toUnsigned ((M : Int) - (s.count : Int)))).entries.length) % 4294967296 < M)) } := by
  simp only [bilog_step, if_neg h, send_response_entries_eq]

/-- A pass of the bucket-index loop whose store call fails. -/
theorem bilog_step_fail {σ B : Type} (S : BILogStore σ B) (bucket : B) (M : Nat)
    (s : BILogListState σ)
    (h : (S.list_bi_log_entries s.store bucket s.marker
              (toUnsigned ((M : Int) - (s.count : Int)))).ret < 0) :
    bilog_step S bucket M s =
      { s with
        truncated := (S.list_bi_log_entries s.store bucket s.marker
              (toUnsigned ((M : Int) - (s.count : Int)))).truncated
        store := (S.list_bi_log_entries s.store bucket s.marker
              (toUnsigned ((M : Int) - (s.count : Int)))).store
        calls := s.calls ++ [BILogCall.list_bi_log_entries s.marker
              (toUnsigned ((M : Int) - (s.count : Int)))]
        finished := true } := by
  simp only [bilog_step, if_pos h]

/-- The calls recorded by a pass: the call of the pass is added. -/
theorem bilog_step_calls {σ B : Type} (S : BILogStore σ B) (bucket : B) (M : Nat)
    (s : BILogListState σ) :
    (bilog_step S bucket M s).calls
      = s.calls ++ [BILogCall.list_bi_log_entries s.marker
          (toUnsigned ((M : Int) - (s.count : Int)))] := by
  by_cases h : (S.list_bi_log_entries s.store bucket s.marker
              (toUnsigned ((M : Int) - (s.count : Int)))).ret < 0
  · rw [bilog_step_fail _ _ _ _ h]
  · rw [bilog_step_ok _ _ _ _ h]

/-- The first allowed pass of the bucket-index loop. -/
theorem bilog_loop_unfold {σ B : Type} (S : BILogStore σ B) (bucket : B) (M n : Nat)
    (s : BILogListState σ) :
    bilog_loop S bucket M (n + 1) s
      = if (bilog_step S bucket M s).finished = true then bilog_step S bucket M s
        else bilog_loop S bucket M n (bilog_step S bucket M s) := rfl

/-- One allowed pass of the bucket-index loop is one pass. -/
theorem bilog_loop_one {σ B : Type} (S : BILogStore σ B) (bucket : B) (M : Nat)
    (s : BILogListState σ) :
    bilog_loop S bucket M 1 s = bilog_step S bucket M s := by
  simp only [bilog_loop]; split <;> rfl

/-- A property that every pass of the bucket-index loop from a state in which
the loop has not left keeps, holds of the state the loop reaches. -/
theorem bilog_loop_induct {σ B : Type} (S : BILogStore σ B) (bucket : B) (M : Nat)
    (P : BILogListState σ → Prop)
    (hstep : ∀ s, P s → s.finished = false → P (bilog_step S bucket M s)) :
    ∀ (n : Nat) (s : BILogListState σ), P s → s.finished = false →
      P (bilog_loop S bucket M n s) := by
  intro n
  induction n with
  | zero => intro s hs _; exact hs
  | succ n ih =>
    intro s hs hrun
    simp only [bilog_loop]
    by_cases hf : (bilog_step S bucket M s).finished = true
    · rw [if_pos hf]; exact hstep s hs hrun
    · rw [if_neg hf]
      exact ih _ (hstep s hs hrun) (by simpa using hf)

/-- After at least one pass, the state the loop reaches is the result of a
pass from a state with the property in which the loop had not left. -/
theorem bilog_loop_last {σ B : Type} (S : BILogStore σ B) (bucket : B) (M : Nat)
    (P : BILogListState σ → Prop)
    (hstep : ∀ s, P s → s.finished = false → P (bilog_step S bucket M s)) :
    ∀ (n : Nat) (s : BILogListState σ), P s → s.finished = false →
      ∃ s', P s' ∧ s'.finished = false
        ∧ bilog_loop S bucket M (n + 1) s = bilog_step S bucket M s' := by
  intro n
  induction n with
  | zero =>
    intro s hs hrun
    refine ⟨s, hs, hrun, ?_⟩
    simp only [bilog_loop]
    split <;> rfl
  | succ n ih =>
    intro s hs hrun
    rw [bilog_loop]
    by_cases hf : (bilog_step S bucket M s).finished = true
    · exact ⟨s, hs, hrun, by simp only [hf, if_true]⟩
    · simp only [hf]
      exact ih _ (hstep s hs hrun) (by simpa using hf)

/-- While the loop has not left, one more allowed pass is one more pass. -/
theorem bilog_loop_succ {σ B : Type} (S : BILogStore σ B) (bucket : B) (M : Nat) :
    ∀ (n : Nat) (s : BILogListState σ),
      (bilog_loop S bucket M n s).finished = false →
      bilog_loop S bucket M (n + 1) s = bilog_step S bucket M (bilog_loop S bucket M n s) := by
  intro n
  induction n with
  | zero =>
    intro s _
    simp only [bilog_loop]
    split <;> rfl
  | succ n ih =>
    intro s hs
    rw [bilog_loop_unfold S bucket M (n + 1) s]
    rw [bilog_loop_unfold S bucket M n s] at hs ⊢
    by_cases hf : (bilog_step S bucket M s).finished = true
    · rw [if_pos hf] at hs
      rw [hf] at hs; cases hs
    · simp only [if_neg hf] at hs ⊢
      exact ih _ hs

/-- A pass of the bucket-index loop keeps `BILogInv` on a store that returns
at most what it is asked for. -/
theorem bilog_inv_step {σ B : Type} (S : BILogStore σ B) (bucket : B) (M : Nat)
    (start : String) (hM : M < 4294967296)
    (hstore : ∀ st b m k, (S.list_bi_log_entries st b m k).entries.length ≤ k)
    (s : BILogListState σ) (hs : BILogInv M start s) :
    BILogInv M start (bilog_step S bucket M s) := by
  obtain ⟨h1, h2, h3⟩ := hs
  have hreq : toUnsigned ((M : Int) - (s.count : Int)) = M - s.out.length := by
    rw [h1]; exact toUnsigned_natCast_sub M _ h2 hM
  by_cases h : (S.list_bi_log_entries s.store bucket s.marker
              (toUnsigned ((M : Int) - (s.count : Int)))).ret < 0
  · rw [bilog_step_fail _ _ _ _ h]
    exact ⟨h1, h2, h3⟩
  · rw [bilog_step_ok _ _ _ _ h]
    have hlen := le_of_le_of_eq
      (hstore s.store bucket s.marker (toUnsigned ((M : Int) - (s.count : Int)))) hreq
    generalize S.list_bi_log_entries s.store bucket s.marker
      (toUnsigned ((M : Int) - (s.count : Int))) = r at h hlen ⊢
    refine ⟨?_, ?_, ?_⟩
    · simp only [List.length_append, h1]
      rw [Nat.mod_eq_of_lt]; omega
    · simp only [List.length_append]; omega
    · simp only [h3]
      rw [lastId_append_self]

/-- No pass of the bucket-index loop assigns `http_ret`: once the bucket is
found, `http_ret` is the status of the bucket lookup after any number of
passes, whatever the store calls return. -/
theorem bilog_http_ret_unchanged {σ B : Type} (env : Env) (S : BILogStore σ B) (args : Args)
    (store : σ) (fuel : Nat) (hbucket : args.get "bucket" ≠ "")
    (hinfo : 0 ≤ (S.get_bucket_info store (args.get "bucket")).ret) :
    (RGWOp_BILog_List.execute env S args store fuel).http_ret
      = (S.get_bucket_info store (args.get "bucket")).ret := by
  rw [bilog_execute_eq env S args store fuel hbucket (by omega)]
  apply bilog_loop_induct S _ _
    (fun s => s.http_ret = (S.get_bucket_info store (args.get "bucket")).ret)
  · intro s hs _
    by_cases h : (S.list_bi_log_entries s.store
        (S.get_bucket_info store (args.get "bucket")).bucket_info s.marker
        (toUnsigned ((RGWOp_BILog_List.max_entries env (args.get "max-entries") : Int)
          - (s.count : Int)))).ret < 0
    · rw [bilog_step_fail _ _ _ _ h]; exact hs
    · rw [bilog_step_ok _ _ _ _ h]; exact hs
  · rfl
  · rfl

/-- A static store read after the last entry of a prefix returns the rest. -/
theorem entriesAfter_lastId (pre rest : List rgw_bi_log_entry)
    (hnodup : ((pre ++ rest).map (fun e => e.id)).Nodup)
    (hids : ∀ e ∈ pre ++ rest, e.id ≠ "") :
    entriesAfter (lastId pre "") (pre ++ rest) = rest := by
  rcases List.eq_nil_or_concat pre with h0 | ⟨l, x, rfl⟩
  · subst h0; simp [entriesAfter, lastId]
  · simp only [List.concat_eq_append] at hnodup hids ⊢
    rw [lastId_concat]
    have hx : x.id ≠ "" := hids x (by simp)
    unfold entriesAfter
    rw [if_neg hx]
    have hl : ∀ e ∈ l, (e.id != x.id) = true := by
      intro e he
      simp only [bne_iff_ne, ne_eq]
      intro heq
      rw [List.append_assoc, List.map_append] at hnodup
      have hd := (List.nodup_append.mp hnodup).2.2
      exact hd (List.mem_map_of_mem _ he) (by simp [heq])
    rw [List.append_assoc, List.dropWhile_append_of_pos hl]
    simp [List.dropWhile]

/-- On a static store a pass that starts with nothing counted is the last. -/
theorem bilog_step_static (log : List rgw_bi_log_entry) (M : Nat) (hM : M < 4294967296)
    (s : BILogListState Unit) (hcount : s.count = 0) :
    (bilog_step (staticBILog log) () M s).finished = true
    ∧ (bilog_step (staticBILog log) () M s).out
        = s.out ++ (entriesAfter s.marker log).take M := by
  have hu : toUnsigned ((M : Int) - ((0 : Nat) : Int)) = M := by
    have := toUnsigned_natCast_sub M 0 (Nat.zero_le _) hM
    simpa using this
  have hok : ¬ ((staticBILog log).list_bi_log_entries s.store () s.marker
              (toUnsigned ((M : Int) - (s.count : Int)))).ret < 0 := by
    simp [staticBILog]
  rw [bilog_step_ok _ _ _ _ hok, hcount, hu]
  simp only [staticBILog, List.length_take, Nat.zero_add]
  refine ⟨?_, trivial⟩
  by_cases h : M < (entriesAfter s.marker log).length
  · have : min M (entriesAfter s.marker log).length = M := Nat.min_eq_left (Nat.le_of_lt h)
    simp [this, Nat.mod_eq_of_lt hM]
  · simp [h]

/-- One bucket-index List on a static store finishes in one pass of its loop
and streams the first `max_entries` entries after the marker. -/
theorem bilog_execute_static (env : Env) (args : Args) (log : List rgw_bi_log_entry)
    (marker : String) (fuel : Nat) (hbucket : args.get "bucket" ≠ "") (hfuel : 1 ≤ fuel) :
    (RGWOp_BILog_List.execute env (staticBILog log) (("marker", marker) :: args) () fuel).finished
        = true
    ∧ (RGWOp_BILog_List.execute env (staticBILog log) (("marker", marker) :: args) () fuel).out
        = (entriesAfter marker log).take
            (RGWOp_BILog_List.max_entries env (args.get "max-entries")) := by
  obtain ⟨n, rfl⟩ : ∃ n, fuel = n + 1 := ⟨fuel - 1, by omega⟩
  have hM := bilog_max_entries_lt env (args.get "max-entries")
  have hb : Args.get (("marker", marker) :: args) "bucket" ≠ "" := by
    rw [args_get_marker_cons args marker "bucket" (by decide)]; exact hbucket
  rw [bilog_execute_eq env _ _ _ _ hb (by simp [staticBILog])]
  simp only [args_get_marker, args_get_marker_cons args marker "max-entries" (by decide)]
  generalize RGWOp_BILog_List.max_entries env (args.get "max-entries") = M at hM ⊢
  simp only [bilog_loop]
  have hstep := bilog_step_static log M hM
    (bilog_start ((staticBILog log).get_bucket_info ()
      (Args.get (("marker", marker) :: args) "bucket"))
      (Args.get (("marker", marker) :: args) "bucket") marker) rfl
  rw [if_pos hstep.1]
  simpa [bilog_start] using hstep

/-- Repeated List calls on a static store `pre ++ rest`, resumed after `pre`,
stream exactly `rest`. -/
theorem bilog_paginate_static (env : Env) (args : Args) (fuel : Nat)
    (hbucket : args.get "bucket" ≠ "")
    (hcap : 1 ≤ RGWOp_BILog_List.max_entries env (args.get "max-entries"))
    (hfuel : 1 ≤ fuel) :
    ∀ (calls : Nat) (pre rest : List rgw_bi_log_entry),
      ((pre ++ rest).map (fun e => e.id)).Nodup → (∀ e ∈ pre ++ rest, e.id ≠ "") →
      rest.length + 1 ≤ calls →
      bilog_paginate env (staticBILog (pre ++ rest)) args fuel calls () (lastId pre "")
        = some rest := by
  intro calls
  induction calls with
  | zero => intro pre rest _ _ h; omega
  | succ n ih =>
    intro pre rest hnodup hids hlen
    have hex := bilog_execute_static env args (pre ++ rest) (lastId pre "") fuel hbucket hfuel
    rw [entriesAfter_lastId pre rest hnodup hids] at hex
    simp only [bilog_paginate, hex.1, hex.2]
    generalize RGWOp_BILog_List.max_entries env (args.get "max-entries") = M at hcap ⊢
    by_cases hrest : rest = []
    · subst hrest; simp
    · have htake : rest.take M ≠ [] := by
        cases rest with
        | nil => exact absurd rfl hrest
        | cons x xs =>
          obtain ⟨m, rfl⟩ : ∃ m, M = m + 1 := ⟨M - 1, by omega⟩
          simp
      simp only [Bool.true_eq_false, if_false, if_neg htake]
      have hsplit : pre ++ rest = (pre ++ rest.take M) ++ rest.drop M := by
        rw [List.append_assoc, List.take_append_drop]
      have hmark : lastId (rest.take M) (lastId pre "") = lastId (pre ++ rest.take M) "" :=
        (lastId_append pre (rest.take M) "" (lastId pre "") htake).symm
      have hdrop : (rest.drop M).length + 1 ≤ n := by
        have : 0 < rest.length := List.length_pos.mpr hrest
        simp only [List.length_drop]
        omega
      have hrec := ih (pre ++ rest.take M) (rest.drop M) (by rw [← hsplit]; exact hnodup)
        (by rw [← hsplit]; exact hids) hdrop
      rw [← hsplit] at hrec
      rw [hmark, hrec]
      simp [List.take_append_drop]

/-- A static store returns at most what it is asked for. -/
theorem staticBILog_at_most (log : List rgw_bi_log_entry) (st : Unit) (b : Unit) (m : String)
    (k : Nat) : ((staticBILog log).list_bi_log_entries st b m k).entries.length ≤ k := by
  simp [staticBILog, List.length_take]

/-- On a scripted store whose next batches `pre` all succeed with
`truncated` and stay under the cap, and whose batch after them fails, the
loop leaves on the failing batch having streamed exactly the entries of `pre`. -/
theorem bilog_scripted_fail (M : Nat) (hM : M < 4294967296) (fail : BIBatch)
    (rest : List BIBatch) (hfail : fail.ret < 0) :
    ∀ (pre : List BIBatch) (m : Nat) (s : BILogListState (List BIBatch)),
      s.store = pre ++ fail :: rest →
      s.count + (pre.map (fun b => b.entries.length)).sum < M →
      (∀ b ∈ pre, 0 ≤ b.ret ∧ b.truncated = true) →
      (bilog_loop scriptedBILog () M (pre.length + 1 + m) s).finished = true
      ∧ (bilog_loop scriptedBILog () M (pre.length + 1 + m) s).out
          = s.out ++ (pre.map (fun b => b.entries)).flatten
      ∧ (bilog_loop scriptedBILog () M (pre.length + 1 + m) s).http_ret = s.http_ret := by
  intro pre
  induction pre with
  | nil =>
    intro m s hstore _ _
    have hr : (scriptedBILog.list_bi_log_entries s.store () s.marker
        (toUnsigned ((M : Int) - (s.count : Int)))).ret < 0 := by
      rw [hstore]; exact hfail
    have hstep := bilog_step_fail scriptedBILog () M s hr
    rw [show ([] : List BIBatch).length + 1 + m = m + 1 by simp; omega, bilog_loop_unfold]
    rw [hstep]
    simp
  | cons b pre ih =>
    intro m s hstore hsum hpre
    have hb := hpre b (List.mem_cons_self _ _)
    have hreply : ∀ k, scriptedBILog.list_bi_log_entries s.store () s.marker k
        = { ret := b.ret, entries := b.entries, truncated := b.truncated,
            store := pre ++ fail :: rest } := by
      intro k; rw [hstore]; rfl
    have hr : ¬ (scriptedBILog.list_bi_log_entries s.store () s.marker
        (toUnsigned ((M : Int) - (s.count : Int)))).ret < 0 := by
      rw [hreply]; simp only; omega
    have hstep := bilog_step_ok scriptedBILog () M s hr
    simp only [List.map_cons, List.sum_cons] at hsum
    have hcount : (s.count + b.entries.length) % 4294967296 = s.count + b.entries.length :=
      Nat.mod_eq_of_lt (by omega)
    have hlt : s.count + b.entries.length < M := by omega
    simp only [hreply, hcount, hb.2, Bool.true_and, decide_eq_true hlt, Bool.not_true]
      at hstep
    have hfin : (bilog_step scriptedBILog () M s).finished = false := by rw [hstep]
    have hst : (bilog_step scriptedBILog () M s).store = pre ++ fail :: rest := by rw [hstep]
    have hcnt : (bilog_step scriptedBILog () M s).count = s.count + b.entries.length := by
      rw [hstep]
    have hout : (bilog_step scriptedBILog () M s).out = s.out ++ b.entries := by rw [hstep]
    have hret : (bilog_step scriptedBILog () M s).http_ret = s.http_ret := by rw [hstep]
    rw [show (b :: pre).length + 1 + m = (pre.length + 1 + m) + 1 by simp; omega,
      bilog_loop_unfold, hfin]
    simp only [Bool.false_eq_true, if_false]
    have := ih m (bilog_step scriptedBILog () M s) hst (by rw [hcnt]; omega)
      (fun x hx => hpre x (List.mem_cons_of_mem _ hx))
    rw [hout, hret] at this
    simpa [List.append_assoc] using this

/-! ## Lock and the lease manager -/

/-- A Lock whose parameters all validate is one `lock_exclusive` call. -/
theorem lock_execute_valid {σ : Type} (env : Env) (log : LeaseStore σ) (args : Args) (store : σ)
    (v d : Int)
    (hid : args.get "id" ≠ "") (hlen : args.get "length" ≠ "")
    (hlocker : args.get "locker-id" ≠ "") (hzone : args.get "zone-id" ≠ "")
    (hv : env.strict_strtol (args.get "id") = some v)
    (hd : env.strict_strtol (args.get "length") = some d)
    (hdur : 0 < toUnsigned d) :
    lock_execute env log args store
      = { http_ret := (log.lock_exclusive store (toUnsigned v) ⟨toUnsigned d, 0⟩
                        (args.get "zone-id") (args.get "locker-id")).1
          store := (log.lock_exclusive store (toUnsigned v) ⟨toUnsigned d, 0⟩
                        (args.get "zone-id") (args.get "locker-id")).2
          calls := [LeaseCall.lock_exclusive (toUnsigned v) ⟨toUnsigned d, 0⟩
                        (args.get "zone-id") (args.get "locker-id")] } := by
  unfold lock_execute
  have h1 : ¬ (args.get "id" = "" ∨ args.get "length" = "" ∨ args.get "locker-id" = ""
      ∨ args.get "zone-id" = "") := by
    simp [hid, hlen, hlocker, hzone]
  have h2 : ¬ toUnsigned d ≤ 0 := by omega
  simp only [if_neg h1, hv, hd, if_neg h2]

/-- A Lock that ends with status 0 has passed every validation. -/
theorem lock_execute_zero {σ : Type} (env : Env) (log : LeaseStore σ) (args : Args) (store : σ)
    (h : (lock_execute env log args store).http_ret = 0) :
    ∃ v d, args.get "id" ≠ "" ∧ args.get "length" ≠ "" ∧ args.get "locker-id" ≠ ""
      ∧ args.get "zone-id" ≠ "" ∧ env.strict_strtol (args.get "id") = some v
      ∧ env.strict_strtol (args.get "length") = some d ∧ 0 < toUnsigned d := by
  unfold lock_execute at h
  by_cases h1 : args.get "id" = "" ∨ args.get "length" = "" ∨ args.get "locker-id" = ""
      ∨ args.get "zone-id" = ""
  · rw [if_pos h1] at h; simp [EINVAL] at h
  · rw [if_neg h1] at h
    simp only [not_or] at h1
    cases hv : env.strict_strtol (args.get "id") with
    | none => rw [hv] at h; simp [EINVAL] at h
    | some v =>
      cases hd : env.strict_strtol (args.get "length") with
      | none => rw [hv, hd] at h; simp [EINVAL] at h
      | some d =>
        rw [hv, hd] at h
        simp only at h
        by_cases h2 : toUnsigned d ≤ 0
        · rw [if_pos h2] at h; simp [EINVAL] at h
        · exact ⟨v, d, h1.1, h1.2.1, h1.2.2.1, h1.2.2.2, rfl, rfl, by omega⟩

/-- The outcome of `acquire` on a table that holds a lease for the shard. -/
theorem acquire_held (family : Family) (w : LeaseWorld) (shard_id : Nat) (duration : utime_t)
    (zone_id locker_id : String) (lease : Lease)
    (hdur : duration.tv_sec ≠ 0) (hzone : zone_id ≠ "") (hlocker : locker_id ≠ "")
    (hheld : w.table (family, shard_id) = some lease) :
    (w.now < lease.expiresAt →
      LeaseManager.acquire family w shard_id duration zone_id locker_id = (-EBUSY, w))
    ∧ (lease.expiresAt ≤ w.now →
      (LeaseManager.acquire family w shard_id duration zone_id locker_id).1 = 0) := by
  unfold LeaseManager.acquire
  have h : ¬ (duration.tv_sec = 0 ∨ zone_id = "" ∨ locker_id = "") := by
    simp [hdur, hzone, hlocker]
  simp only [if_neg h, hheld]
  constructor
  · intro hlt; rw [if_pos hlt]
  · intro hle; rw [if_neg (by omega)]

/-- A successful `acquire` leaves the caller's lease, expiring after the
duration, in the table, and the clock untouched. -/
theorem acquire_success (family : Family) (w : LeaseWorld) (shard_id : Nat) (duration : utime_t)
    (zone_id locker_id : String)
    (hok : (LeaseManager.acquire family w shard_id duration zone_id locker_id).1 = 0) :
    (LeaseManager.acquire family w shard_id duration zone_id locker_id).2.table (family, shard_id)
      = some ⟨zone_id, locker_id, w.now + duration.tv_sec⟩
    ∧ (LeaseManager.acquire family w shard_id duration zone_id locker_id).2.now = w.now := by
  unfold LeaseManager.acquire at hok ⊢
  by_cases h : duration.tv_sec = 0 ∨ zone_id = "" ∨ locker_id = ""
  · rw [if_pos h] at hok; simp [EINVAL] at hok
  · rw [if_neg h] at hok ⊢
    cases hl : w.table (family, shard_id) with
    | none => simp
    | some lease =>
      rw [hl] at hok
      simp only at hok ⊢
      by_cases hlt : w.now < lease.expiresAt
      · rw [if_pos hlt] at hok; simp [EBUSY] at hok
      · rw [if_neg hlt]; simp

/-- Two Locks on the same shard of the log of a family, the first successful:
the second is refused with Busy while the first lease runs and succeeds once
it has expired. -/
theorem lock_twice (family : Family) (env : Env) (argsA argsB : Args) (w0 : LeaseWorld)
    (t1 : Nat) (dA dB : Int)
    (hfirst : (lock_execute env (leaseLog family) argsA w0).http_ret = 0)
    (hdA : env.strict_strtol (argsA.get "length") = some dA)
    (hposA : 0 < dA) (hmaxA : dA < 2147483647)
    (hshard : argsB.get "id" = argsA.get "id")
    (hdB : env.strict_strtol (argsB.get "length") = some dB)
    (hposB : 0 < dB) (hmaxB : dB < 2147483647)
    (hlenB : argsB.get "length" ≠ "")
    (hlockerB : argsB.get "locker-id" ≠ "") (hzoneB : argsB.get "zone-id" ≠ "") :
    (t1 < w0.now + dA.toNat →
      (lock_execute env (leaseLog family) argsB
          { (lock_execute env (leaseLog family) argsA w0).store with now := t1 }).http_ret
        = -EBUSY
      ∧ (lock_execute env (leaseLog family) argsB
          { (lock_execute env (leaseLog family) argsA w0).store with now := t1 }).store.table
        = (lock_execute env (leaseLog family) argsA w0).store.table)
    ∧ (w0.now + dA.toNat ≤ t1 →
      (lock_execute env (leaseLog family) argsB
          { (lock_execute env (leaseLog family) argsA w0).store with now := t1 }).http_ret
        = 0) := by
  obtain ⟨v, d, hid, hlen, hlocker, hzone, hv, hd, hdur⟩ :=
    lock_execute_zero env (leaseLog family) argsA w0 hfirst
  rw [hdA] at hd
  cases hd
  have huA : toUnsigned dA = dA.toNat := toUnsigned_of_int_range dA (by omega) (by omega)
  have huB : toUnsigned dB = dB.toNat := toUnsigned_of_int_range dB (by omega) (by omega)
  have hA := lock_execute_valid env (leaseLog family) argsA w0 v dA hid hlen hlocker hzone hv
    hdA hdur
  rw [hA] at hfirst ⊢
  simp only [leaseLog] at hfirst ⊢
  obtain ⟨htab, _⟩ := acquire_success family w0 (toUnsigned v) ⟨toUnsigned dA, 0⟩
    (argsA.get "zone-id") (argsA.get "locker-id") hfirst
  generalize (LeaseManager.acquire family w0 (toUnsigned v) ⟨toUnsigned dA, 0⟩
    (argsA.get "zone-id") (argsA.get "locker-id")).2 = w1 at htab ⊢
  have hB := lock_execute_valid env (leaseLog family) argsB { w1 with now := t1 } v dB
    (by rw [hshard]; exact hid) hlenB hlockerB hzoneB (by rw [hshard]; exact hv) hdB
    (by rw [huB]; omega)
  simp only [leaseLog] at hB
  rw [hB]
  have hheld := acquire_held family { w1 with now := t1 } (toUnsigned v) ⟨toUnsigned dB, 0⟩
    (argsB.get "zone-id") (argsB.get "locker-id")
    ⟨argsA.get "zone-id", argsA.get "locker-id", w0.now + toUnsigned dA⟩
    (by simp only [huB]; omega) hzoneB hlockerB htab
  simp only [huA] at hheld
  constructor
  · intro hlt
    rw [hheld.1 hlt]
    exact ⟨rfl, rfl⟩
  · intro hle
    exact hheld.2 hle

/-! ## Cap of one List call -/

/-- Claim C1, evaluated at its failing input: a List with max-entries 2 on a
store of three entries that appends at most the requested number of entries
per call (and at most one).  The loop subtracts the size of the whole
accumulated list from `max_entries`, which wraps from 1 to 4294967295 on the
second pass, so a third call is made and the operation ends holding three
entries, more than the two it was asked for, in the metadata and in the data
log alike. -/
theorem C1_cap_exceeded_after_wrap :
    (∀ pos k es, ∃ batch, ((pagedMetaLog 3 1).list_entries pos k es).entries = es ++ batch
        ∧ batch.length ≤ k)
    ∧ (∀ pos shard st et k es marker, ∃ batch,
        ((pagedDataLog 3 1).list_entries pos shard st et k es marker).entries = es ++ batch
        ∧ batch.length ≤ k)
    ∧ (RGWOp_MDLog_List.execute stdEnv (pagedMetaLog 3 1) cappedListRequest 0 3).finished = true
    ∧ (RGWOp_MDLog_List.execute stdEnv (pagedMetaLog 3 1) cappedListRequest 0 3).http_ret = 0
    ∧ (RGWOp_MDLog_List.execute stdEnv (pagedMetaLog 3 1) cappedListRequest 0 3).calls
      = [MDLogCall.init_list_entries 0 ⟨0, 0⟩ ⟨0, 0⟩ "", MDLogCall.list_entries 2,
         MDLogCall.list_entries 1, MDLogCall.list_entries 4294967295]
    ∧ (RGWOp_MDLog_List.execute stdEnv (pagedMetaLog 3 1) cappedListRequest 0 3).entries
      = [0, 1, 2]
    ∧ (RGWOp_DATALog_List.execute stdEnv (pagedDataLog 3 1) cappedListRequest 0 3).finished
      = true
    ∧ (RGWOp_DATALog_List.execute stdEnv (pagedDataLog 3 1) cappedListRequest 0 3).http_ret = 0
    ∧ (RGWOp_DATALog_List.execute stdEnv (pagedDataLog 3 1) cappedListRequest 0 3).calls
      = [DataLogCall.list_entries 0 ⟨0, 0⟩ ⟨0, 0⟩ 2 "", DataLogCall.list_entries 0 ⟨0, 0⟩ ⟨0, 0⟩ 1 "",
         DataLogCall.list_entries 0 ⟨0, 0⟩ ⟨0, 0⟩ 4294967295 ""]
    ∧ (RGWOp_DATALog_List.execute stdEnv (pagedDataLog 3 1) cappedListRequest 0 3).entries
      = [0, 1, 2] := by
  refine ⟨fun pos k es => pagedMetaLog_appends 3 1 pos k es,
    fun pos shard st et k es marker => pagedDataLog_appends 3 1 pos shard k st et es marker,
    ?_, ?_, ?_, ?_, ?_, ?_, ?_, ?_⟩ <;> decide

/-- Claim C2 fails as stated: with no max-entries argument, a shard of 2500
entries served in batches of at most 1000 is returned whole by one List,
which ends successfully holding more than 1000 entries. -/
theorem C2_counterexample_whole_shard_returned :
    (RGWOp_MDLog_List.execute stdEnv (pagedMetaLog 2500 1000) plainListRequest 0 3).finished
        = true
    ∧ (RGWOp_MDLog_List.execute stdEnv (pagedMetaLog 2500 1000) plainListRequest 0 3).http_ret
        = 0
    ∧ 1000 < (RGWOp_MDLog_List.execute stdEnv (pagedMetaLog 2500 1000)
        plainListRequest 0 3).entries.length
    ∧ (RGWOp_DATALog_List.execute stdEnv (pagedDataLog 2500 1000) plainListRequest 0 3).finished
        = true
    ∧ 1000 < (RGWOp_DATALog_List.execute stdEnv (pagedDataLog 2500 1000)
        plainListRequest 0 3).entries.length := by
  have h0 : stdEnv.strict_strtol (Args.get plainListRequest "id") = some 0 := by decide
  have h1 : Args.get plainListRequest "max-entries" = "" := by decide
  have h2 : Args.get plainListRequest "start-time" = "" := by decide
  have h3 : Args.get plainListRequest "end-time" = "" := by decide
  have h4 : Args.get plainListRequest "marker" = "" := by decide
  simp only [RGWOp_MDLog_List.execute, RGWOp_DATALog_List.execute, h0, h1, h2, h3, h4,
    parse_date_str]
  simp [list_loop, list_step, list_start, pagedMetaLog, pagedDataLog, data_list_call,
    LOG_CLASS_LIST_MAX_ENTRIES]

/-- Claim C2, amended: for every metadata or data List without max-entries
argument and every store, every `list_entries` call asks for exactly 1000
entries, and the loop has left only when the store returned a negative status
or reported `truncated = false`; the 1000 bounds each store batch, not the
whole invocation. -/
theorem C2_default_is_per_batch {σ E : Type} (env : Env) (meta_log : RGWMetadataLog σ E)
    (data_log : RGWDataChangesLog σ E) (args : Args) (store : σ) (fuel : Nat)
    (habsent : args.get "max-entries" = "") :
    ((∀ c ∈ (RGWOp_MDLog_List.execute env meta_log args store fuel).calls,
        ∀ k, c = MDLogCall.list_entries k → k = 1000)
      ∧ ((RGWOp_MDLog_List.execute env meta_log args store fuel).finished = true →
          (RGWOp_MDLog_List.execute env meta_log args store fuel).http_ret < 0
          ∨ (RGWOp_MDLog_List.execute env meta_log args store fuel).truncated = false))
    ∧ ((∀ c ∈ (RGWOp_DATALog_List.execute env data_log args store fuel).calls,
        ∀ shard_id st et k marker,
          c = DataLogCall.list_entries shard_id st et k marker → k = 1000)
      ∧ ((RGWOp_DATALog_List.execute env data_log args store fuel).finished = true →
          (RGWOp_DATALog_List.execute env data_log args store fuel).http_ret < 0
          ∨ (RGWOp_DATALog_List.execute env data_log args store fuel).truncated = false)) :=
  ⟨⟨(md_list_unlimited env meta_log args store fuel habsent).2.1,
    (md_list_unlimited env meta_log args store fuel habsent).2.2⟩,
   ⟨(data_list_unlimited env data_log args store fuel habsent).2.1,
    (data_list_unlimited env data_log args store fuel habsent).2.2⟩⟩

/-- Claim C2, amended, on a request for shard 0 without max-entries and a
store of five entries. -/
theorem C2_default_is_per_batch_witness :
    plainListRequest.get "max-entries" = ""
    ∧ (∀ c ∈ (RGWOp_MDLog_List.execute stdEnv (pagedMetaLog 5 2) plainListRequest 0 4).calls,
        ∀ k, c = MDLogCall.list_entries k → k = 1000)
    ∧ (∀ c ∈ (RGWOp_DATALog_List.execute stdEnv (pagedDataLog 5 2) plainListRequest 0 4).calls,
        ∀ shard_id st et k marker,
          c = DataLogCall.list_entries shard_id st et k marker → k = 1000) :=
  ⟨by decide,
   (C2_default_is_per_batch stdEnv (pagedMetaLog 5 2) (pagedDataLog 5 2) plainListRequest 0 4
      (by decide)).1.1,
   (C2_default_is_per_batch stdEnv (pagedMetaLog 5 2) (pagedDataLog 5 2) plainListRequest 0 4
      (by decide)).2.1⟩

/-! ## Pagination of the bucket-index log -/

/-- Claim C3: on a static bucket-index store holding `log`, whose ids are
pairwise distinct and differ from the empty marker that stands for the
beginning, and for every cap of at least 1, the repeated List calls, the
first with the empty marker and each later one with the id of the last entry
streamed by the previous one, until a call streams nothing, stream exactly
`log`: every entry once, in append order.  Each call finishes within one pass
of its loop and `log.length + 1` calls are enough. -/
theorem C3_bilog_pagination_complete (env : Env) (args : Args) (log : List rgw_bi_log_entry)
    (fuel calls : Nat)
    (hbucket : args.get "bucket" ≠ "")
    (hcap : 1 ≤ RGWOp_BILog_List.max_entries env (args.get "max-entries"))
    (hnodup : (log.map (fun e => e.id)).Nodup)
    (hids : ∀ e ∈ log, e.id ≠ "")
    (hfuel : 1 ≤ fuel) (hcalls : log.length + 1 ≤ calls) :
    bilog_paginate env (staticBILog log) args fuel calls () "" = some log := by
  have h := bilog_paginate_static env args fuel hbucket hcap hfuel calls [] log
    (by simpa using hnodup) (by simpa using hids) hcalls
  simpa [lastId] using h

/-- Claim C3 on a log of five entries paged with max-entries 2. -/
theorem C3_bilog_pagination_complete_witness :
    cappedBucketRequest.get "bucket" ≠ ""
    ∧ 1 ≤ RGWOp_BILog_List.max_entries stdEnv (cappedBucketRequest.get "max-entries")
    ∧ (fiveEntries.map (fun e => e.id)).Nodup
    ∧ (∀ e ∈ fiveEntries, e.id ≠ "")
    ∧ bilog_paginate stdEnv (staticBILog fiveEntries) cappedBucketRequest 1 6 () ""
        = some fiveEntries :=
  ⟨by decide, by decide, by decide, by decide,
   C3_bilog_pagination_complete stdEnv cappedBucketRequest fiveEntries 1 6
     (by decide) (by decide) (by decide) (by decide) (by decide) (by decide)⟩

/-- Claim C4: in one bucket-index List with cap `M` on a store that returns at
most what it is asked for, (a) and (b) while the loop has not left, the next
store call asks for `M` minus the number of entries streamed so far, with the
id of the last entry streamed as marker, or the starting marker when nothing
was streamed yet; (c) the entries streamed never exceed `M`, after any pass the
loop has left as soon as the store reported `truncated = false` or the number
streamed reached `M`, and it leaves normally only for one of these two reasons. -/
theorem C4_bilog_single_call {σ B : Type} (env : Env) (S : BILogStore σ B) (args : Args)
    (store : σ) (fuel : Nat)
    (hbucket : args.get "bucket" ≠ "")
    (hinfo : 0 ≤ (S.get_bucket_info store (args.get "bucket")).ret)
    (hstore : ∀ st b m k, (S.list_bi_log_entries st b m k).entries.length ≤ k) :
    ((RGWOp_BILog_List.execute env S args store fuel).finished = false →
      (RGWOp_BILog_List.execute env S args store (fuel + 1)).calls
        = (RGWOp_BILog_List.execute env S args store fuel).calls
          ++ [BILogCall.list_bi_log_entries
                (lastId (RGWOp_BILog_List.execute env S args store fuel).out (args.get "marker"))
                (RGWOp_BILog_List.max_entries env (args.get "max-entries")
                  - (RGWOp_BILog_List.execute env S args store fuel).out.length)])
    ∧ (RGWOp_BILog_List.execute env S args store fuel).out.length
        ≤ RGWOp_BILog_List.max_entries env (args.get "max-entries")
    ∧ (1 ≤ fuel →
        ((RGWOp_BILog_List.execute env S args store fuel).truncated = false
          ∨ (RGWOp_BILog_List.execute env S args store fuel).out.length
              = RGWOp_BILog_List.max_entries env (args.get "max-entries")) →
        (RGWOp_BILog_List.execute env S args store fuel).finished = true)
    ∧ ((RGWOp_BILog_List.execute env S args store fuel).finished = true →
        (RGWOp_BILog_List.execute env S args store fuel).closed = true →
        (RGWOp_BILog_List.execute env S args store fuel).truncated = false
          ∨ (RGWOp_BILog_List.execute env S args store fuel).out.length
              = RGWOp_BILog_List.max_entries env (args.get "max-entries")) := by
  have hinfo' : ¬ (S.get_bucket_info store (args.get "bucket")).ret < 0 := by omega
  have hM := bilog_max_entries_lt env (args.get "max-entries")
  rw [bilog_execute_eq env S args store fuel hbucket hinfo',
    bilog_execute_eq env S args store (fuel + 1) hbucket hinfo']
  generalize RGWOp_BILog_List.max_entries env (args.get "max-entries") = M at hM ⊢
  generalize hs0 : bilog_start (S.get_bucket_info store (args.get "bucket"))
      (args.get "bucket") (args.get "marker") = s0
  have hrun0 : s0.finished = false := by rw [← hs0]; rfl
  have hclosed0 : s0.closed = false := by rw [← hs0]; rfl
  have hinv0 : BILogInv M (args.get "marker") s0 := by
    rw [← hs0]; exact ⟨rfl, Nat.zero_le _, rfl⟩
  -- the property kept by the passes
  generalize (S.get_bucket_info store (args.get "bucket")).bucket_info = bucket
  have hstep : ∀ s : BILogListState σ,
      (BILogInv M (args.get "marker") s ∧ (s.finished = false → s.closed = false)) →
      s.finished = false →
      (BILogInv M (args.get "marker") (bilog_step S bucket M s)
        ∧ ((bilog_step S bucket M s).finished = false →
            (bilog_step S bucket M s).closed = false)) := by
    intro s hs _
    refine ⟨bilog_inv_step S bucket M _ hM hstore s hs.1, ?_⟩
    by_cases h : (S.list_bi_log_entries s.store bucket s.marker
              (toUnsigned ((M : Int) - (s.count : Int)))).ret < 0
    · rw [bilog_step_fail _ _ _ _ h]; intro hf; cases hf
    · rw [bilog_step_ok _ _ _ _ h]; intro hf; exact hf
  have hP := bilog_loop_induct S bucket M _ hstep fuel s0 ⟨hinv0, fun _ => hclosed0⟩ hrun0
  obtain ⟨⟨h1, h2, h3⟩, _⟩ := hP
  refine ⟨?_, h2, ?_, ?_⟩
  · intro hnf
    rw [bilog_loop_succ S bucket M fuel s0 hnf, bilog_step_calls, h3, h1,
      toUnsigned_natCast_sub M _ h2 hM]
  · intro hfuel
    obtain ⟨n, rfl⟩ : ∃ n, fuel = n + 1 := ⟨fuel - 1, by omega⟩
    obtain ⟨s', ⟨hi, _⟩, _, heq⟩ :=
      bilog_loop_last S bucket M _ hstep n s0 ⟨hinv0, fun _ => hclosed0⟩ hrun0
    have hi' := bilog_inv_step S bucket M _ hM hstore s' hi
    rw [heq] at h1 h2 ⊢
    by_cases h : (S.list_bi_log_entries s'.store bucket s'.marker
              (toUnsigned ((M : Int) - (s'.count : Int)))).ret < 0
    · rw [bilog_step_fail _ _ _ _ h]; intro _; rfl
    · rw [bilog_step_ok _ _ _ _ h] at h1 h2 ⊢
      simp only at h1 h2 ⊢
      rintro (ht | hl)
      · simp [ht]
      · rw [h1, hl]; simp
  · intro hfin hcl
    cases fuel with
    | zero => simp only [bilog_loop] at hfin; rw [hrun0] at hfin; cases hfin
    | succ n =>
      obtain ⟨s', ⟨hi, hc⟩, hrun, heq⟩ :=
        bilog_loop_last S bucket M _ hstep n s0 ⟨hinv0, fun _ => hclosed0⟩ hrun0
      rw [heq] at h1 h2 hcl ⊢
      by_cases h : (S.list_bi_log_entries s'.store bucket s'.marker
                (toUnsigned ((M : Int) - (s'.count : Int)))).ret < 0
      · rw [bilog_step_fail _ _ _ _ h] at hcl
        simp only at hcl
        rw [hc hrun] at hcl; cases hcl
      · rw [bilog_step_ok _ _ _ _ h] at h1 h2 hcl ⊢
        simp only at h1 h2 hcl ⊢
        rw [h1] at hcl
        simp only [Bool.not_eq_true', Bool.and_eq_false_imp, decide_eq_false_iff_not] at hcl
        by_cases ht : (S.list_bi_log_entries s'.store bucket s'.marker
                (toUnsigned ((M : Int) - (s'.count : Int)))).truncated = true
        · right
          have := hcl ht
          omega
        · left; simpa using ht

/-- Claim C4 on a static store of five entries and a request with max-entries
2: the first call asks for 2 entries from the beginning. -/
theorem C4_bilog_single_call_witness :
    cappedBucketRequest.get "bucket" ≠ ""
    ∧ 0 ≤ ((staticBILog fiveEntries).get_bucket_info () (cappedBucketRequest.get "bucket")).ret
    ∧ (∀ st b m k, ((staticBILog fiveEntries).list_bi_log_entries st b m k).entries.length ≤ k)
    ∧ (RGWOp_BILog_List.execute stdEnv (staticBILog fiveEntries) cappedBucketRequest () 0).finished
        = false
    ∧ (RGWOp_BILog_List.execute stdEnv (staticBILog fiveEntries) cappedBucketRequest () 1).calls
        = [BILogCall.get_bucket_info "b", BILogCall.list_bi_log_entries "" 2]
    ∧ (RGWOp_BILog_List.execute stdEnv (staticBILog fiveEntries) cappedBucketRequest () 1).out.length
        ≤ RGWOp_BILog_List.max_entries stdEnv (cappedBucketRequest.get "max-entries") :=
  ⟨by decide, by decide, staticBILog_at_most fiveEntries, by decide,
   ((C4_bilog_single_call stdEnv (staticBILog fiveEntries) cappedBucketRequest () 0
      (by decide) (by decide) (staticBILog_at_most fiveEntries)).1 (by decide)).trans
      (by decide),
   (C4_bilog_single_call stdEnv (staticBILog fiveEntries) cappedBucketRequest () 1
      (by decide) (by decide) (staticBILog_at_most fiveEntries)).2.1⟩

/-! ## Leases -/

/-- Claim C5: for the metadata and for the data log, after a successful Lock
with a positive duration `dA` made at time `w0.now`, a well-formed Lock on
the same shard by any zone and locker made at a time `t1` before
`w0.now + dA` ends with the Busy status and leaves the lease table as it was,
and one made at or after `w0.now + dA` succeeds. -/
theorem C5_lease_mutual_exclusion (env : Env) (argsA argsB : Args) (w0 : LeaseWorld)
    (t1 : Nat) (dA dB : Int)
    (hdA : env.strict_strtol (argsA.get "length") = some dA)
    (hposA : 0 < dA) (hmaxA : dA < 2147483647)
    (hshard : argsB.get "id" = argsA.get "id")
    (hdB : env.strict_strtol (argsB.get "length") = some dB)
    (hposB : 0 < dB) (hmaxB : dB < 2147483647)
    (hlenB : argsB.get "length" ≠ "")
    (hlockerB : argsB.get "locker-id" ≠ "") (hzoneB : argsB.get "zone-id" ≠ "") :
    ((RGWOp_MDLog_Lock.execute env (leaseLog Family.metadata) argsA w0).http_ret = 0 →
      (t1 < w0.now + dA.toNat →
        (RGWOp_MDLog_Lock.execute env (leaseLog Family.metadata) argsB
          { (RGWOp_MDLog_Lock.execute env (leaseLog Family.metadata) argsA w0).store
              with now := t1 }).http_ret = -EBUSY
        ∧ (RGWOp_MDLog_Lock.execute env (leaseLog Family.metadata) argsB
          { (RGWOp_MDLog_Lock.execute env (leaseLog Family.metadata) argsA w0).store
              with now := t1 }).store.table
          = (RGWOp_MDLog_Lock.execute env (leaseLog Family.metadata) argsA w0).store.table)
      ∧ (w0.now + dA.toNat ≤ t1 →
        (RGWOp_MDLog_Lock.execute env (leaseLog Family.metadata) argsB
          { (RGWOp_MDLog_Lock.execute env (leaseLog Family.metadata) argsA w0).store
              with now := t1 }).http_ret = 0))
    ∧ ((RGWOp_DATALog_Lock.execute env (leaseLog Family.data) argsA w0).http_ret = 0 →
      (t1 < w0.now + dA.toNat →
        (RGWOp_DATALog_Lock.execute env (leaseLog Family.data) argsB
          { (RGWOp_DATALog_Lock.execute env (leaseLog Family.data) argsA w0).store
              with now := t1 }).http_ret = -EBUSY
        ∧ (RGWOp_DATALog_Lock.execute env (leaseLog Family.data) argsB
          { (RGWOp_DATALog_Lock.execute env (leaseLog Family.data) argsA w0).store
              with now := t1 }).store.table
          = (RGWOp_DATALog_Lock.execute env (leaseLog Family.data) argsA w0).store.table)
      ∧ (w0.now + dA.toNat ≤ t1 →
        (RGWOp_DATALog_Lock.execute env (leaseLog Family.data) argsB
          { (RGWOp_DATALog_Lock.execute env (leaseLog Family.data) argsA w0).store
              with now := t1 }).http_ret = 0)) :=
  ⟨fun h => lock_twice Family.metadata env argsA argsB w0 t1 dA dB h hdA hposA hmaxA hshard
      hdB hposB hmaxB hlenB hlockerB hzoneB,
   fun h => lock_twice Family.data env argsA argsB w0 t1 dA dB h hdA hposA hmaxA hshard
      hdB hposB hmaxB hlenB hlockerB hzoneB⟩

/-- Claim C5 on a 60 second lease taken at time 100: a second Lock is refused
at time 159 and succeeds at time 160. -/
theorem C5_lease_mutual_exclusion_witness :
    (RGWOp_MDLog_Lock.execute stdEnv (leaseLog Family.metadata) lockRequestA emptyLeases).http_ret
        = 0
    ∧ (RGWOp_MDLog_Lock.execute stdEnv (leaseLog Family.metadata) lockRequestB
        { (RGWOp_MDLog_Lock.execute stdEnv (leaseLog Family.metadata) lockRequestA
            emptyLeases).store with now := 159 }).http_ret = -EBUSY
    ∧ (RGWOp_MDLog_Lock.execute stdEnv (leaseLog Family.metadata) lockRequestB
        { (RGWOp_MDLog_Lock.execute stdEnv (leaseLog Family.metadata) lockRequestA
            emptyLeases).store with now := 160 }).http_ret = 0
    ∧ (RGWOp_DATALog_Lock.execute stdEnv (leaseLog Family.data) lockRequestB
        { (RGWOp_DATALog_Lock.execute stdEnv (leaseLog Family.data) lockRequestA
            emptyLeases).store with now := 159 }).http_ret = -EBUSY :=
  ⟨by decide,
   ((C5_lease_mutual_exclusion stdEnv lockRequestA lockRequestB emptyLeases 159 60 60
      (by decide) (by decide) (by decide) (by decide) (by decide) (by decide) (by decide)
      (by decide) (by decide) (by decide)).1 (by decide)).1 (by decide) |>.1,
   ((C5_lease_mutual_exclusion stdEnv lockRequestA lockRequestB emptyLeases 160 60 60
      (by decide) (by decide) (by decide) (by decide) (by decide) (by decide) (by decide)
      (by decide) (by decide) (by decide)).1 (by decide)).2 (by decide),
   ((C5_lease_mutual_exclusion stdEnv lockRequestA lockRequestB emptyLeases 159 60 60
      (by decide) (by decide) (by decide) (by decide) (by decide) (by decide) (by decide)
      (by decide) (by decide) (by decide)).2 (by decide)).1 (by decide) |>.1⟩

/-- Claim C6, evaluated at its failing input: a Lock whose length is `-5`.
The parsed value is cast to `unsigned` before the test `dur <= 0`, so it
passes as 4294967291 and `lock_exclusive` is called with that duration; the
status of the operation is whatever the store returns, for the metadata and
for the data log. -/
theorem C6_negative_length_reaches_store {σ : Type} (log : LeaseStore σ) (store : σ) :
    stdEnv.strict_strtol (lockRequestNegative.get "length") = some (-5)
    ∧ (RGWOp_MDLog_Lock.execute stdEnv log lockRequestNegative store).calls
        = [LeaseCall.lock_exclusive 3 ⟨4294967291, 0⟩ "za" "la"]
    ∧ (RGWOp_MDLog_Lock.execute stdEnv log lockRequestNegative store).http_ret
        = (log.lock_exclusive store 3 ⟨4294967291, 0⟩ "za" "la").1
    ∧ (RGWOp_DATALog_Lock.execute stdEnv log lockRequestNegative store).calls
        = [LeaseCall.lock_exclusive 3 ⟨4294967291, 0⟩ "za" "la"]
    ∧ (RGWOp_DATALog_Lock.execute stdEnv log lockRequestNegative store).http_ret
        = (log.lock_exclusive store 3 ⟨4294967291, 0⟩ "za" "la").1 := by
  have h := lock_execute_valid stdEnv log lockRequestNegative store 3 (-5)
    (by decide) (by decide) (by decide) (by decide) (by decide) (by decide) (by decide)
  have h3 : toUnsigned 3 = 3 := by decide
  have h5 : toUnsigned (-5) = 4294967291 := by decide
  have hz : lockRequestNegative.get "zone-id" = "za" := by decide
  have hl : lockRequestNegative.get "locker-id" = "la" := by decide
  rw [h3, h5, hz, hl] at h
  refine ⟨by decide, ?_, ?_, ?_, ?_⟩ <;>
    simp only [RGWOp_MDLog_Lock.execute, RGWOp_DATALog_Lock.execute, h]

/-! ## Validation of the List parameters -/

/-- Claim C7: a metadata or data List checks the shard id, the start-time, the
end-time and the max-entries in this order; the first of them that fails to
parse ends `execute` with `-EINVAL`, no entries and no store call, and the
parsers have been called on the parameters up to the failing one only. -/
theorem C7_validation_order {σ E : Type} (env : Env) (meta_log : RGWMetadataLog σ E)
    (data_log : RGWDataChangesLog σ E) (args : Args) (store : σ) (fuel : Nat) :
    (env.strict_strtol (args.get "id") = none →
      RejectedAfter (RGWOp_MDLog_List.execute env meta_log args store fuel)
        [ParserCall.strict_strtol (args.get "id")]
      ∧ RejectedAfter (RGWOp_DATALog_List.execute env data_log args store fuel)
        [ParserCall.strict_strtol (args.get "id")])
    ∧ (env.strict_strtol (args.get "id") ≠ none →
       args.get "start-time" ≠ "" → env.parse_date (args.get "start-time") = none →
      RejectedAfter (RGWOp_MDLog_List.execute env meta_log args store fuel)
        [ParserCall.strict_strtol (args.get "id"), ParserCall.parse_date (args.get "start-time")]
      ∧ RejectedAfter (RGWOp_DATALog_List.execute env data_log args store fuel)
        [ParserCall.strict_strtol (args.get "id"), ParserCall.parse_date (args.get "start-time")])
    ∧ (env.strict_strtol (args.get "id") ≠ none →
       (args.get "start-time" = "" ∨ env.parse_date (args.get "start-time") ≠ none) →
       args.get "end-time" ≠ "" → env.parse_date (args.get "end-time") = none →
      RejectedAfter (RGWOp_MDLog_List.execute env meta_log args store fuel)
        ([ParserCall.strict_strtol (args.get "id")] ++ parse_date_calls (args.get "start-time")
          ++ [ParserCall.parse_date (args.get "end-time")])
      ∧ RejectedAfter (RGWOp_DATALog_List.execute env data_log args store fuel)
        ([ParserCall.strict_strtol (args.get "id")] ++ parse_date_calls (args.get "start-time")
          ++ [ParserCall.parse_date (args.get "end-time")]))
    ∧ (env.strict_strtol (args.get "id") ≠ none →
       (args.get "start-time" = "" ∨ env.parse_date (args.get "start-time") ≠ none) →
       (args.get "end-time" = "" ∨ env.parse_date (args.get "end-time") ≠ none) →
       args.get "max-entries" ≠ "" → env.strict_strtol (args.get "max-entries") = none →
      RejectedAfter (RGWOp_MDLog_List.execute env meta_log args store fuel)
        ([ParserCall.strict_strtol (args.get "id")] ++ parse_date_calls (args.get "start-time")
          ++ parse_date_calls (args.get "end-time")
          ++ [ParserCall.strict_strtol (args.get "max-entries")])
      ∧ RejectedAfter (RGWOp_DATALog_List.execute env data_log args store fuel)
        ([ParserCall.strict_strtol (args.get "id")] ++ parse_date_calls (args.get "start-time")
          ++ parse_date_calls (args.get "end-time")
          ++ [ParserCall.strict_strtol (args.get "max-entries")])) := by
  have hok : ∀ str : String, (str = "" ∨ env.parse_date str ≠ none) →
      ¬ (parse_date_str env str ⟨0, 0⟩).1 < 0 := by
    intro str h hneg
    obtain ⟨h1, h2⟩ := (parse_date_str_neg env str _).mp hneg
    rcases h with h | h
    · exact h1 h
    · exact h h2
  have hbad : ∀ str : String, str ≠ "" → env.parse_date str = none →
      (parse_date_str env str ⟨0, 0⟩).1 < 0 :=
    fun str h1 h2 => (parse_date_str_neg env str _).mpr ⟨h1, h2⟩
  refine ⟨?_, ?_, ?_, ?_⟩
  · intro hid
    unfold RGWOp_MDLog_List.execute RGWOp_DATALog_List.execute
    simp only [hid]
    exact ⟨list_invalid_rejected _ _, list_invalid_rejected _ _⟩
  · intro hid hst hpst
    obtain ⟨v, hv⟩ := Option.ne_none_iff_exists'.mp hid
    unfold RGWOp_MDLog_List.execute RGWOp_DATALog_List.execute
    simp only [hv, if_pos (hbad _ hst hpst), parse_date_calls, if_neg hst]
    exact ⟨list_invalid_rejected _ _, list_invalid_rejected _ _⟩
  · intro hid hst het hpet
    obtain ⟨v, hv⟩ := Option.ne_none_iff_exists'.mp hid
    unfold RGWOp_MDLog_List.execute RGWOp_DATALog_List.execute
    simp only [hv, if_neg (hok _ hst), if_pos (hbad _ het hpet)]
    have : parse_date_calls (args.get "end-time")
        = [ParserCall.parse_date (args.get "end-time")] := by
      simp [parse_date_calls, het]
    rw [this]
    exact ⟨list_invalid_rejected _ _, list_invalid_rejected _ _⟩
  · intro hid hst het hme hpme
    obtain ⟨v, hv⟩ := Option.ne_none_iff_exists'.mp hid
    unfold RGWOp_MDLog_List.execute RGWOp_DATALog_List.execute
    simp only [hv, if_neg (hok _ hst), if_neg (hok _ het), if_neg hme, hpme]
    exact ⟨list_invalid_rejected _ _, list_invalid_rejected _ _⟩

/-- Claim C7 on a request whose id and start-time are both malformed: the
request is rejected after the parse of the id, and the date parser is never
called. -/
theorem C7_validation_order_witness :
    stdEnv.strict_strtol (badIdAndStartRequest.get "id") = none
    ∧ stdEnv.parse_date (badIdAndStartRequest.get "start-time") = none
    ∧ RejectedAfter
        (RGWOp_MDLog_List.execute stdEnv (pagedMetaLog 3 1) badIdAndStartRequest 0 3)
        [ParserCall.strict_strtol "x"]
    ∧ RejectedAfter
        (RGWOp_DATALog_List.execute stdEnv (pagedDataLog 3 1) badIdAndStartRequest 0 3)
        [ParserCall.strict_strtol "x"] :=
  ⟨by decide, by decide,
   ((C7_validation_order stdEnv (pagedMetaLog 3 1) (pagedDataLog 3 1) badIdAndStartRequest
      0 3).1 (by decide)).1,
   ((C7_validation_order stdEnv (pagedMetaLog 3 1) (pagedDataLog 3 1) badIdAndStartRequest
      0 3).1 (by decide)).2⟩

/-- Claim C8 fails as stated: a metadata or data List whose max-entries is
`abc` ends with `-EINVAL` without a store call, although the same request
without max-entries succeeds. -/
theorem C8_counterexample_unparseable_rejected :
    stdEnv.strict_strtol (badCapListRequest.get "max-entries") = none
    ∧ (RGWOp_MDLog_List.execute stdEnv (pagedMetaLog 3 1) badCapListRequest 0 3).http_ret
        = -EINVAL
    ∧ (RGWOp_MDLog_List.execute stdEnv (pagedMetaLog 3 1) badCapListRequest 0 3).calls = []
    ∧ (RGWOp_MDLog_List.execute stdEnv (pagedMetaLog 3 1) plainListRequest 0 3).http_ret = 0
    ∧ (RGWOp_DATALog_List.execute stdEnv (pagedDataLog 3 1) badCapListRequest 0 3).http_ret
        = -EINVAL
    ∧ (RGWOp_DATALog_List.execute stdEnv (pagedDataLog 3 1) badCapListRequest 0 3).calls = []
    ∧ (RGWOp_DATALog_List.execute stdEnv (pagedDataLog 3 1) plainListRequest 0 3).http_ret
        = 0 := by
  refine ⟨?_, ?_, ?_, ?_, ?_, ?_, ?_⟩ <;> decide

/-- Claim C8, amended: a bucket-index List whose max-entries string
`strict_strtol` rejects (an absent parameter gives the empty string) uses the
cap 1000 and its first store call asks for 1000 entries; a metadata or data
List whose max-entries is absent passes validation with request size 1000;
a metadata or data List whose non-empty max-entries `strict_strtol` rejects
ends with `-EINVAL` before any store call. -/
theorem C8_max_entries_fallback {σ τ B E : Type} (env : Env) (meta_log : RGWMetadataLog σ E)
    (data_log : RGWDataChangesLog σ E) (S : BILogStore τ B) (args : Args) (store : σ)
    (bstore : τ) (fuel : Nat) :
    (env.strict_strtol (args.get "max-entries") = none →
      RGWOp_BILog_List.max_entries env (args.get "max-entries") = 1000
      ∧ (args.get "bucket" ≠ "" → 0 ≤ (S.get_bucket_info bstore (args.get "bucket")).ret →
          (RGWOp_BILog_List.execute env S args bstore 1).calls
            = [BILogCall.get_bucket_info (args.get "bucket"),
               BILogCall.list_bi_log_entries (args.get "marker") 1000]))
    ∧ (args.get "max-entries" = "" → env.strict_strtol (args.get "id") ≠ none →
       (args.get "start-time" = "" ∨ env.parse_date (args.get "start-time") ≠ none) →
       (args.get "end-time" = "" ∨ env.parse_date (args.get "end-time") ≠ none) →
      ((RGWOp_MDLog_List.execute env meta_log args store 0).finished = false
        ∧ (RGWOp_MDLog_List.execute env meta_log args store 0).http_ret = 0
        ∧ (RGWOp_MDLog_List.execute env meta_log args store fuel).max_entries = 1000)
      ∧ ((RGWOp_DATALog_List.execute env data_log args store 0).finished = false
        ∧ (RGWOp_DATALog_List.execute env data_log args store 0).http_ret = 0
        ∧ (RGWOp_DATALog_List.execute env data_log args store fuel).max_entries = 1000))
    ∧ (args.get "max-entries" ≠ "" → env.strict_strtol (args.get "max-entries") = none →
       env.strict_strtol (args.get "id") ≠ none →
       (args.get "start-time" = "" ∨ env.parse_date (args.get "start-time") ≠ none) →
       (args.get "end-time" = "" ∨ env.parse_date (args.get "end-time") ≠ none) →
      RejectedAfter (RGWOp_MDLog_List.execute env meta_log args store fuel)
        ([ParserCall.strict_strtol (args.get "id")] ++ parse_date_calls (args.get "start-time")
          ++ parse_date_calls (args.get "end-time")
          ++ [ParserCall.strict_strtol (args.get "max-entries")])
      ∧ RejectedAfter (RGWOp_DATALog_List.execute env data_log args store fuel)
        ([ParserCall.strict_strtol (args.get "id")] ++ parse_date_calls (args.get "start-time")
          ++ parse_date_calls (args.get "end-time")
          ++ [ParserCall.strict_strtol (args.get "max-entries")])) := by
  have hok : ∀ str : String, (str = "" ∨ env.parse_date str ≠ none) →
      ¬ (parse_date_str env str ⟨0, 0⟩).1 < 0 := by
    intro str h hneg
    obtain ⟨h1, h2⟩ := (parse_date_str_neg env str _).mp hneg
    rcases h with h | h
    · exact h1 h
    · exact h h2
  refine ⟨?_, ?_, ?_⟩
  · intro hbad
    have hcap : RGWOp_BILog_List.max_entries env (args.get "max-entries") = 1000 := by
      simp [RGWOp_BILog_List.max_entries, hbad, LOG_CLASS_LIST_MAX_ENTRIES]
    refine ⟨hcap, ?_⟩
    intro hbucket hinfo
    rw [bilog_execute_eq env S args bstore 1 hbucket (by omega), bilog_loop_one,
      bilog_step_calls, hcap]
    have : toUnsigned (((1000 : Nat) : Int) - ((0 : Nat) : Int)) = 1000 := by decide
    simp only [bilog_start, this, List.singleton_append]
  · intro habsent hid hst het
    obtain ⟨v, hv⟩ := Option.ne_none_iff_exists'.mp hid
    refine ⟨⟨?_, ?_, (md_list_unlimited env meta_log args store fuel habsent).1⟩,
      ⟨?_, ?_, (data_list_unlimited env data_log args store fuel habsent).1⟩⟩
    · simp only [RGWOp_MDLog_List.execute, hv, if_neg (hok _ hst), if_neg (hok _ het),
        if_pos habsent, list_loop, list_start]
    · simp only [RGWOp_MDLog_List.execute, hv, if_neg (hok _ hst), if_neg (hok _ het),
        if_pos habsent, list_loop, list_start]
    · simp only [RGWOp_DATALog_List.execute, hv, if_neg (hok _ hst), if_neg (hok _ het),
        if_pos habsent, list_loop, list_start]
    · simp only [RGWOp_DATALog_List.execute, hv, if_neg (hok _ hst), if_neg (hok _ het),
        if_pos habsent, list_loop, list_start]
  · intro hme hpme hid hst het
    obtain ⟨v, hv⟩ := Option.ne_none_iff_exists'.mp hid
    unfold RGWOp_MDLog_List.execute RGWOp_DATALog_List.execute
    simp only [hv, if_neg (hok _ hst), if_neg (hok _ het), if_neg hme, hpme]
    exact ⟨list_invalid_rejected _ _, list_invalid_rejected _ _⟩

/-- Claim C8, amended, on requests without max-entries and with max-entries
`abc`. -/
theorem C8_max_entries_fallback_witness :
    stdEnv.strict_strtol (plainBucketRequest.get "max-entries") = none
    ∧ RGWOp_BILog_List.max_entries stdEnv (plainBucketRequest.get "max-entries") = 1000
    ∧ (RGWOp_MDLog_List.execute stdEnv (pagedMetaLog 3 1) plainListRequest 0 3).max_entries
        = 1000
    ∧ RejectedAfter (RGWOp_MDLog_List.execute stdEnv (pagedMetaLog 3 1) badCapListRequest 0 3)
        [ParserCall.strict_strtol "0", ParserCall.strict_strtol "abc"] :=
  ⟨by decide,
   ((C8_max_entries_fallback stdEnv (pagedMetaLog 3 1) (pagedDataLog 3 1)
      (staticBILog fiveEntries) plainBucketRequest 0 () 3).1 (by decide)).1,
   ((C8_max_entries_fallback stdEnv (pagedMetaLog 3 1) (pagedDataLog 3 1)
      (staticBILog fiveEntries) plainListRequest 0 () 3).2.1 (by decide) (by decide)
      (by decide) (by decide)).1.2.2,
   ((C8_max_entries_fallback stdEnv (pagedMetaLog 3 1) (pagedDataLog 3 1)
      (staticBILog fiveEntries) badCapListRequest 0 () 3).2.2 (by decide) (by decide)
      (by decide) (by decide) (by decide)).1⟩

/-! ## Store failures during a List -/

/-- Claim C9, evaluated at its failing input: a bucket-index List whose store
fails with status `-5`, on the first batch or on the third.  `execute` keeps
the status in a local variable and returns, so `http_ret` is still the 0 of
the bucket lookup, which is also the status already sent with the header. -/
theorem C9_bilog_store_error_not_reported :
    (RGWOp_BILog_List.execute stdEnv scriptedBILog plainBucketRequest
        [⟨-5, [], false⟩] 1).finished = true
    ∧ (RGWOp_BILog_List.execute stdEnv scriptedBILog plainBucketRequest
        [⟨-5, [], false⟩] 1).calls
        = [BILogCall.get_bucket_info "b", BILogCall.list_bi_log_entries "" 1000]
    ∧ (RGWOp_BILog_List.execute stdEnv scriptedBILog plainBucketRequest
        [⟨-5, [], false⟩] 1).http_ret = 0
    ∧ (RGWOp_BILog_List.execute stdEnv scriptedBILog plainBucketRequest
        [⟨-5, [], false⟩] 1).header = some 0
    ∧ (RGWOp_BILog_List.execute stdEnv scriptedBILog plainBucketRequest
        thirdBatchFails 3).finished = true
    ∧ (RGWOp_BILog_List.execute stdEnv scriptedBILog plainBucketRequest
        thirdBatchFails 3).http_ret = 0
    ∧ (RGWOp_BILog_List.execute stdEnv scriptedBILog plainBucketRequest
        thirdBatchFails 3).out = [⟨"a", "1"⟩, ⟨"b", "2"⟩] := by
  refine ⟨?_, ?_, ?_, ?_, ?_, ?_, ?_⟩ <;> decide

/-- Claim C10: when the store fails on batch `n + 1`, a bucket-index List has
streamed exactly the entries of the `n` batches before it, in order, while a
metadata or data List ends with the negative status of that call and its
`send_response` writes no entry. -/
theorem C10_streaming_asymmetry {σ E : Type} (env : Env) (meta_log : RGWMetadataLog σ E)
    (data_log : RGWDataChangesLog σ E) (args : Args) (store : σ) (bargs : Args)
    (pre : List BIBatch) (fail : BIBatch) (rest : List BIBatch) (n fuel : Nat)
    (hfuel : n + 1 ≤ fuel) :
    (bargs.get "bucket" ≠ "" → pre.length = n →
      (∀ b ∈ pre, 0 ≤ b.ret ∧ b.truncated = true) →
      (pre.map (fun b => b.entries.length)).sum
        < RGWOp_BILog_List.max_entries env (bargs.get "max-entries") →
      fail.ret < 0 →
      (RGWOp_BILog_List.execute env scriptedBILog bargs (pre ++ fail :: rest) fuel).finished
          = true
      ∧ (RGWOp_BILog_List.execute env scriptedBILog bargs (pre ++ fail :: rest) fuel).out
          = (pre.map (fun b => b.entries)).flatten)
    ∧ ((RGWOp_MDLog_List.execute env meta_log args store n).finished = false →
      (meta_log.list_entries (RGWOp_MDLog_List.execute env meta_log args store n).store
          (RGWOp_MDLog_List.execute env meta_log args store n).max_entries
          (RGWOp_MDLog_List.execute env meta_log args store n).entries).ret < 0 →
      (RGWOp_MDLog_List.execute env meta_log args store fuel).finished = true
      ∧ (RGWOp_MDLog_List.execute env meta_log args store fuel).http_ret
          = (meta_log.list_entries (RGWOp_MDLog_List.execute env meta_log args store n).store
              (RGWOp_MDLog_List.execute env meta_log args store n).max_entries
              (RGWOp_MDLog_List.execute env meta_log args store n).entries).ret
      ∧ RGWOp_MDLog_List.send_response
          (RGWOp_MDLog_List.execute env meta_log args store fuel) = [])
    ∧ ((RGWOp_DATALog_List.execute env data_log args store n).finished = false →
      (data_log.list_entries (RGWOp_DATALog_List.execute env data_log args store n).store.2
          (list_shard_id env args) (list_start_time env args) (list_end_time env args)
          (RGWOp_DATALog_List.execute env data_log args store n).max_entries
          (RGWOp_DATALog_List.execute env data_log args store n).entries
          (RGWOp_DATALog_List.execute env data_log args store n).store.1).ret < 0 →
      (RGWOp_DATALog_List.execute env data_log args store fuel).finished = true
      ∧ (RGWOp_DATALog_List.execute env data_log args store fuel).http_ret
          = (data_log.list_entries (RGWOp_DATALog_List.execute env data_log args store n).store.2
              (list_shard_id env args) (list_start_time env args) (list_end_time env args)
              (RGWOp_DATALog_List.execute env data_log args store n).max_entries
              (RGWOp_DATALog_List.execute env data_log args store n).entries
              (RGWOp_DATALog_List.execute env data_log args store n).store.1).ret
      ∧ RGWOp_DATALog_List.send_response
          (RGWOp_DATALog_List.execute env data_log args store fuel) = []) := by
  refine ⟨?_, ?_, ?_⟩
  · intro hbucket hlen hpre hsum hfail
    have hM := bilog_max_entries_lt env (bargs.get "max-entries")
    rw [bilog_execute_eq env scriptedBILog bargs _ fuel hbucket (by simp [scriptedBILog])]
    obtain ⟨m, rfl⟩ : ∃ m, fuel = pre.length + 1 + m := ⟨fuel - (n + 1), by omega⟩
    have h := bilog_scripted_fail _ hM fail rest hfail pre m
      (bilog_start (scriptedBILog.get_bucket_info (pre ++ fail :: rest) (bargs.get "bucket"))
        (bargs.get "bucket") (bargs.get "marker")) rfl
      (by simpa [bilog_start] using hsum) hpre
    refine ⟨h.1, ?_⟩
    rw [h.2.1]; simp [bilog_start]
  · intro hrun hfail
    rcases md_list_execute_cases env meta_log args store with ⟨ps, h⟩ | ⟨h0, m, ps, cs, h⟩
    · rw [h n, list_invalid_finished] at hrun; cases hrun
    · rw [h n] at hrun hfail
      rw [h n, h fuel]
      have key := list_loop_fail _ _ _ n fuel _ hrun hfail hfuel
      refine ⟨key.1, key.2.1, ?_⟩
      unfold RGWOp_MDLog_List.send_response
      rw [if_pos (by rw [key.2.1]; exact hfail)]
  · intro hrun hfail
    rcases data_list_execute_cases env data_log args store with ⟨ps, h⟩ | ⟨m, ps, h⟩
    · rw [h n, list_invalid_finished] at hrun; cases hrun
    · rw [h n] at hrun hfail
      rw [h n, h fuel]
      have key := list_loop_fail
        (data_list_call data_log (list_shard_id env args) (list_start_time env args)
          (list_end_time env args)) _ _ n fuel _ hrun hfail hfuel
      refine ⟨key.1, key.2.1, ?_⟩
      unfold RGWOp_DATALog_List.send_response
      rw [if_pos (by rw [key.2.1]; exact hfail)]

/-- Claim C10 on stores that fail on the third batch. -/
theorem C10_streaming_asymmetry_witness :
    (2 + 1 ≤ 3)
    ∧ ((RGWOp_BILog_List.execute stdEnv scriptedBILog plainBucketRequest thirdBatchFails 3).out
        = [⟨"a", "1"⟩, ⟨"b", "2"⟩])
    ∧ (RGWOp_MDLog_List.execute stdEnv (failingMetaLog 2) plainListRequest 0 3).entries = [0, 1]
    ∧ RGWOp_MDLog_List.send_response
        (RGWOp_MDLog_List.execute stdEnv (failingMetaLog 2) plainListRequest 0 3) = []
    ∧ RGWOp_DATALog_List.send_response
        (RGWOp_DATALog_List.execute stdEnv (failingDataLog 2) plainListRequest 0 3) = [] :=
  ⟨by decide,
   ((C10_streaming_asymmetry stdEnv (failingMetaLog 2) (failingDataLog 2) plainListRequest 0
      plainBucketRequest [⟨0, [⟨"a", "1"⟩], true⟩, ⟨0, [⟨"b", "2"⟩], true⟩] ⟨-5, [], false⟩ []
      2 3 (by decide)).1 (by decide) (by decide) (by decide) (by decide) (by decide)).2,
   by decide,
   ((C10_streaming_asymmetry stdEnv (failingMetaLog 2) (failingDataLog 2) plainListRequest 0
      plainBucketRequest [⟨0, [⟨"a", "1"⟩], true⟩, ⟨0, [⟨"b", "2"⟩], true⟩] ⟨-5, [], false⟩ []
      2 3 (by decide)).2.1 (by decide) (by decide)).2.2,
   ((C10_streaming_asymmetry stdEnv (failingMetaLog 2) (failingDataLog 2) plainListRequest 0
      plainBucketRequest [⟨0, [⟨"a", "1"⟩], true⟩, ⟨0, [⟨"b", "2"⟩], true⟩] ⟨-5, [], false⟩ []
      2 3 (by decide)).2.2 (by decide) (by decide)).2.2⟩

/-! ## Time bounds and dispatch -/

/-- Claim C15: `parse_date_str` on the empty string succeeds with the output
at epoch zero; on a non-empty string it returns `-EINVAL` exactly when the
date parser rejects the string, leaving the output as it was, and otherwise
succeeds with the output at the parsed epoch seconds and zero nanoseconds. -/
theorem C15_parse_date_str (env : Env) (inp : String) (out : utime_t) :
    (inp = "" → parse_date_str env inp out = (0, ⟨0, 0⟩))
    ∧ (inp ≠ "" →
        ((parse_date_str env inp out).1 = -EINVAL ↔ env.parse_date inp = none)
        ∧ (env.parse_date inp = none → parse_date_str env inp out = (-EINVAL, out))
        ∧ (∀ epoch, env.parse_date inp = some epoch →
            parse_date_str env inp out = (0, ⟨epoch, 0⟩))) := by
  constructor
  · intro h; simp [parse_date_str, h]
  · intro h
    unfold parse_date_str
    rw [if_neg h]
    cases hp : env.parse_date inp with
    | none => simp
    | some e => simp [EINVAL]

/-- Claim C15 on the empty string, on a date the example parser reads and on
one it rejects. -/
theorem C15_parse_date_str_witness :
    parse_date_str stdEnv "" ⟨7, 7⟩ = (0, ⟨0, 0⟩)
    ∧ parse_date_str stdEnv "1400000000" ⟨7, 7⟩ = (0, ⟨1400000000, 0⟩)
    ∧ parse_date_str stdEnv "yesterday" ⟨7, 7⟩ = (-EINVAL, ⟨7, 7⟩) :=
  ⟨(C15_parse_date_str stdEnv "" ⟨7, 7⟩).1 rfl,
   ((C15_parse_date_str stdEnv "1400000000" ⟨7, 7⟩).2 (by decide)).2.2 1400000000 (by decide),
   ((C15_parse_date_str stdEnv "yesterday" ⟨7, 7⟩).2 (by decide)).2.1 (by decide)⟩

/-- Claim C16: `op_get` selects, for type metadata or data, the List of the
family when an id argument is present and its shard-count query when it is
absent, and the shard-count query ends with status 0 and the configured shard
count of the family; for type bucket-index it selects the bucket-index List
whether or not an id is present. -/
theorem C16_get_dispatch (args : Args) (conf : Conf) :
    (args.lookup "type" = some "metadata" →
      (args.has "id" = true → RGWHandler_Log.op_get args = some RGWOp.MDLog_List)
      ∧ (args.has "id" = false → RGWHandler_Log.op_get args = some RGWOp.MDLog_GetShardsInfo))
    ∧ (args.lookup "type" = some "data" →
      (args.has "id" = true → RGWHandler_Log.op_get args = some RGWOp.DATALog_List)
      ∧ (args.has "id" = false →
          RGWHandler_Log.op_get args = some RGWOp.DATALog_GetShardsInfo))
    ∧ (args.lookup "type" = some "bucket-index" →
      RGWHandler_Log.op_get args = some RGWOp.BILog_List)
    ∧ ((RGWOp_MDLog_GetShardsInfo.execute conf).http_ret = 0
      ∧ (RGWOp_MDLog_GetShardsInfo.execute conf).num_objects = conf.rgw_md_log_max_shards)
    ∧ ((RGWOp_DATALog_GetShardsInfo.execute conf).http_ret = 0
      ∧ (RGWOp_DATALog_GetShardsInfo.execute conf).num_objects
          = conf.rgw_data_log_num_shards) := by
  refine ⟨?_, ?_, ?_, ⟨rfl, rfl⟩, ⟨rfl, rfl⟩⟩
  · intro h
    constructor <;> intro hid <;> simp [RGWHandler_Log.op_get, h, hid]
  · intro h
    constructor <;> intro hid <;> simp [RGWHandler_Log.op_get, h, hid]
  · intro h
    simp [RGWHandler_Log.op_get, h]

/-- Claim C16 on a metadata request without id and a configuration of 64
shards. -/
theorem C16_get_dispatch_witness :
    RGWHandler_Log.op_get metadataCountRequest = some RGWOp.MDLog_GetShardsInfo
    ∧ (RGWOp_MDLog_GetShardsInfo.execute ⟨64, 128⟩).num_objects = 64 :=
  ⟨((C16_get_dispatch metadataCountRequest ⟨64, 128⟩).1 (by decide)).2 (by decide),
   (C16_get_dispatch metadataCountRequest ⟨64, 128⟩).2.2.2.1.2⟩

/-- Claim C17: `op_post` selects the Lock of the metadata or data log exactly
when the type is that family and a lock argument is present, the Unlock of
the family exactly when the type is that family, no lock argument is present
and an unlock argument is; it selects no other operation, the operation it
selects belongs to the family of the type, and it selects none at all in every
other case, in particular for type bucket-index. -/
theorem C17_post_dispatch (args : Args) :
    (RGWHandler_Log.op_post args = some RGWOp.MDLog_Lock
      ↔ args.lookup "type" = some "metadata" ∧ args.has "lock" = true)
    ∧ (RGWHandler_Log.op_post args = some RGWOp.DATALog_Lock
      ↔ args.lookup "type" = some "data" ∧ args.has "lock" = true)
    ∧ (RGWHandler_Log.op_post args = some RGWOp.MDLog_Unlock
      ↔ args.lookup "type" = some "metadata" ∧ args.has "lock" = false
        ∧ args.has "unlock" = true)
    ∧ (RGWHandler_Log.op_post args = some RGWOp.DATALog_Unlock
      ↔ args.lookup "type" = some "data" ∧ args.has "lock" = false
        ∧ args.has "unlock" = true)
    ∧ (∀ op, RGWHandler_Log.op_post args = some op →
        op = RGWOp.MDLog_Lock ∨ op = RGWOp.DATALog_Lock ∨ op = RGWOp.MDLog_Unlock
          ∨ op = RGWOp.DATALog_Unlock)
    ∧ (∀ op, RGWHandler_Log.op_post args = some op →
        (args.lookup "type" = some "metadata" ∧ op.family = Family.metadata)
          ∨ (args.lookup "type" = some "data" ∧ op.family = Family.data))
    ∧ (RGWHandler_Log.op_post args = none
      ↔ ¬ ((args.lookup "type" = some "metadata" ∨ args.lookup "type" = some "data")
            ∧ (args.has "lock" = true ∨ args.has "unlock" = true)))
    ∧ (args.lookup "type" = some "bucket-index" → RGWHandler_Log.op_post args = none) := by
  unfold RGWHandler_Log.op_post
  cases ht : args.lookup "type" with
  | none => simp
  | some t =>
    by_cases hm : t = "metadata"
    · subst hm
      cases hl : args.has "lock" <;> cases hu : args.has "unlock" <;> simp [RGWOp.family]
    · by_cases hd : t = "data"
      · subst hd
        cases hl : args.has "lock" <;> cases hu : args.has "unlock" <;> simp [RGWOp.family]
      · simp [hm, hd]

/-- Claim C17 on a data request with lock and unlock, and on a bucket-index
request with lock. -/
theorem C17_post_dispatch_witness :
    RGWHandler_Log.op_post dataLockUnlockRequest = some RGWOp.DATALog_Lock
    ∧ RGWHandler_Log.op_post bucketLockRequest = none :=
  ⟨(C17_post_dispatch dataLockUnlockRequest).2.1.mpr (by decide),
   (C17_post_dispatch bucketLockRequest).2.2.2.2.2.2.2 (by decide)⟩

/-- Claim C18: when the type argument is absent or is none of `metadata`,
`bucket-index`, `data`, each of `op_get`, `op_delete` and `op_post` returns no
operation; and `op_delete` with one of the three types returns the Delete of
that family. -/
theorem C18_unknown_family (args : Args) :
    ((∀ t, args.lookup "type" = some t → t ≠ "metadata" ∧ t ≠ "bucket-index" ∧ t ≠ "data") →
      RGWHandler_Log.op_get args = none ∧ RGWHandler_Log.op_delete args = none
        ∧ RGWHandler_Log.op_post args = none)
    ∧ (args.lookup "type" = some "metadata" →
        RGWHandler_Log.op_delete args = some RGWOp.MDLog_Delete)
    ∧ (args.lookup "type" = some "bucket-index" →
        RGWHandler_Log.op_delete args = some RGWOp.BILog_Delete)
    ∧ (args.lookup "type" = some "data" →
        RGWHandler_Log.op_delete args = some RGWOp.DATALog_Delete) := by
  refine ⟨?_, ?_, ?_, ?_⟩
  · intro h
    unfold RGWHandler_Log.op_get RGWHandler_Log.op_delete RGWHandler_Log.op_post
    cases ht : args.lookup "type" with
    | none => simp
    | some t =>
      obtain ⟨h1, h2, h3⟩ := h t ht
      simp [h1, h2, h3]
  · intro h; simp [RGWHandler_Log.op_delete, h]
  · intro h; simp [RGWHandler_Log.op_delete, h]
  · intro h; simp [RGWHandler_Log.op_delete, h]

/-- Claim C18 on a request whose type is `Metadata` and on one without
arguments. -/
theorem C18_unknown_family_witness :
    RGWHandler_Log.op_get unknownTypeRequest = none
    ∧ RGWHandler_Log.op_post unknownTypeRequest = none
    ∧ RGWHandler_Log.op_delete [] = none :=
  ⟨((C18_unknown_family unknownTypeRequest).1 (by decide)).1,
   ((C18_unknown_family unknownTypeRequest).1 (by decide)).2.2,
   ((C18_unknown_family []).1 (by decide)).2.1⟩

/-! ## Delete, Unlock and the status of the store -/

/-- A successful date parse passes the check of `parse_date_str`. -/
theorem parse_date_str_some (env : Env) (inp : String) (out : utime_t) (epoch : Nat)
    (hne : inp ≠ "") (h : env.parse_date inp = some epoch) :
    ¬ (parse_date_str env inp out).1 < 0 ∧ (parse_date_str env inp out).2 = ⟨epoch, 0⟩ := by
  unfold parse_date_str
  rw [if_neg hne, h]
  simp

/-- An Unlock whose parameters all validate is one `unlock` call. -/
theorem unlock_execute_valid {σ : Type} (env : Env) (log : LeaseStore σ) (args : Args)
    (store : σ) (v : Int)
    (hid : args.get "id" ≠ "") (hlocker : args.get "locker-id" ≠ "")
    (hzone : args.get "zone-id" ≠ "")
    (hv : env.strict_strtol (args.get "id") = some v) :
    unlock_execute env log args store
      = { http_ret := (log.unlock store (toUnsigned v) (args.get "zone-id")
                        (args.get "locker-id")).1
          store := (log.unlock store (toUnsigned v) (args.get "zone-id")
                        (args.get "locker-id")).2
          calls := [LeaseCall.unlock (toUnsigned v) (args.get "zone-id")
                        (args.get "locker-id")] } := by
  unfold unlock_execute
  have h1 : ¬ (args.get "id" = "" ∨ args.get "locker-id" = "" ∨ args.get "zone-id" = "") := by
    simp [hid, hlocker, hzone]
  simp only [if_neg h1, hv]

/-- A Delete whose parameters all validate is one trim call. -/
theorem delete_execute_valid {σ : Type} (env : Env)
    (trim : σ → Nat → utime_t → utime_t → Int × σ) (args : Args) (store : σ)
    (v : Int) (es ee : Nat)
    (hv : env.strict_strtol (args.get "id") = some v)
    (hst : args.get "start-time" ≠ "") (het : args.get "end-time" ≠ "")
    (hes : env.parse_date (args.get "start-time") = some es)
    (hee : env.parse_date (args.get "end-time") = some ee) :
    delete_execute env trim args store
      = { http_ret := (trim store (toUnsigned v) ⟨es, 0⟩ ⟨ee, 0⟩).1
          store := (trim store (toUnsigned v) ⟨es, 0⟩ ⟨ee, 0⟩).2
          calls := [TrimCall.trim (toUnsigned v) ⟨es, 0⟩ ⟨ee, 0⟩] } := by
  unfold delete_execute
  have h1 : ¬ (args.get "start-time" = "" ∨ args.get "end-time" = "") := by simp [hst, het]
  have h2 := parse_date_str_some env (args.get "start-time") ⟨0, 0⟩ es hst hes
  have h3 := parse_date_str_some env (args.get "end-time") ⟨0, 0⟩ ee het hee
  simp only [hv, if_neg h1, if_neg h2.1, if_neg h3.1, h2.2, h3.2]

/-- A bucket-index Delete whose parameters all validate and whose bucket is
found is the bucket lookup followed by one trim call. -/
theorem bilog_delete_execute_valid {σ B : Type} (S : BITrimStore σ B) (args : Args) (store : σ)
    (hbucket : args.get "bucket" ≠ "") (hstart : args.get "start-marker" ≠ "")
    (hend : args.get "end-marker" ≠ "")
    (hinfo : 0 ≤ (S.get_bucket_info store (args.get "bucket")).ret) :
    RGWOp_BILog_Delete.execute S args store
      = { http_ret := (S.trim_bi_log_entries (S.get_bucket_info store (args.get "bucket")).store
                        (S.get_bucket_info store (args.get "bucket")).bucket_info
                        (args.get "start-marker") (args.get "end-marker")).1
          store := (S.trim_bi_log_entries (S.get_bucket_info store (args.get "bucket")).store
                        (S.get_bucket_info store (args.get "bucket")).bucket_info
                        (args.get "start-marker") (args.get "end-marker")).2
          calls := [BITrimCall.get_bucket_info (args.get "bucket"),
                    BITrimCall.trim_bi_log_entries
                      (S.get_bucket_info store (args.get "bucket")).bucket_info
                      (args.get "start-marker") (args.get "end-marker")] } := by
  unfold RGWOp_BILog_Delete.execute
  have h1 : ¬ (args.get "bucket" = "" ∨ args.get "start-marker" = ""
      ∨ args.get "end-marker" = "") := by simp [hbucket, hstart, hend]
  have h2 : ¬ (S.get_bucket_info store (args.get "bucket")).ret < 0 := by omega
  simp only [if_neg h1, if_neg h2]

/-- Claim C11: when every parameter validates (and, for the bucket-index
Delete, the bucket is found), the metadata and data Delete, Lock and Unlock
and the bucket-index Delete make exactly one call to the store operation,
with the parsed shard id (or the bucket found) and the given time bounds,
duration, zone-id and locker-id, or markers, and `http_ret` is the status
that call returned, whatever it is. -/
theorem C11_store_status_pass_through {σ τ B : Type} (env : Env)
    (trim trim_entries : σ → Nat → utime_t → utime_t → Int × σ)
    (log : LeaseStore σ) (S : BITrimStore τ B) (args : Args) (store : σ) (bstore : τ)
    (v d : Int) (es ee : Nat) :
    (env.strict_strtol (args.get "id") = some v →
      args.get "start-time" ≠ "" → args.get "end-time" ≠ "" →
      env.parse_date (args.get "start-time") = some es →
      env.parse_date (args.get "end-time") = some ee →
      ((RGWOp_MDLog_Delete.execute env trim args store).calls
          = [TrimCall.trim (toUnsigned v) ⟨es, 0⟩ ⟨ee, 0⟩]
        ∧ (RGWOp_MDLog_Delete.execute env trim args store).http_ret
          = (trim store (toUnsigned v) ⟨es, 0⟩ ⟨ee, 0⟩).1)
      ∧ ((RGWOp_DATALog_Delete.execute env trim_entries args store).calls
          = [TrimCall.trim (toUnsigned v) ⟨es, 0⟩ ⟨ee, 0⟩]
        ∧ (RGWOp_DATALog_Delete.execute env trim_entries args store).http_ret
          = (trim_entries store (toUnsigned v) ⟨es, 0⟩ ⟨ee, 0⟩).1))
    ∧ (args.get "id" ≠ "" → args.get "length" ≠ "" → args.get "locker-id" ≠ "" →
      args.get "zone-id" ≠ "" → env.strict_strtol (args.get "id") = some v →
      env.strict_strtol (args.get "length") = some d → 0 < toUnsigned d →
      ((RGWOp_MDLog_Lock.execute env log args store).calls
          = [LeaseCall.lock_exclusive (toUnsigned v) ⟨toUnsigned d, 0⟩ (args.get "zone-id")
              (args.get "locker-id")]
        ∧ (RGWOp_MDLog_Lock.execute env log args store).http_ret
          = (log.lock_exclusive store (toUnsigned v) ⟨toUnsigned d, 0⟩ (args.get "zone-id")
              (args.get "locker-id")).1)
      ∧ ((RGWOp_DATALog_Lock.execute env log args store).calls
          = [LeaseCall.lock_exclusive (toUnsigned v) ⟨toUnsigned d, 0⟩ (args.get "zone-id")
              (args.get "locker-id")]
        ∧ (RGWOp_DATALog_Lock.execute env log args store).http_ret
          = (log.lock_exclusive store (toUnsigned v) ⟨toUnsigned d, 0⟩ (args.get "zone-id")
              (args.get "locker-id")).1))
    ∧ (args.get "id" ≠ "" → args.get "locker-id" ≠ "" → args.get "zone-id" ≠ "" →
      env.strict_strtol (args.get "id") = some v →
      ((RGWOp_MDLog_Unlock.execute env log args store).calls
          = [LeaseCall.unlock (toUnsigned v) (args.get "zone-id") (args.get "locker-id")]
        ∧ (RGWOp_MDLog_Unlock.execute env log args store).http_ret
          = (log.unlock store (toUnsigned v) (args.get "zone-id") (args.get "locker-id")).1)
      ∧ ((RGWOp_DATALog_Unlock.execute env log args store).calls
          = [LeaseCall.unlock (toUnsigned v) (args.get "zone-id") (args.get "locker-id")]
        ∧ (RGWOp_DATALog_Unlock.execute env log args store).http_ret
          = (log.unlock store (toUnsigned v) (args.get "zone-id") (args.get "locker-id")).1))
    ∧ (args.get "bucket" ≠ "" → args.get "start-marker" ≠ "" → args.get "end-marker" ≠ "" →
      0 ≤ (S.get_bucket_info bstore (args.get "bucket")).ret →
      (RGWOp_BILog_Delete.execute S args bstore).calls
          = [BITrimCall.get_bucket_info (args.get "bucket"),
             BITrimCall.trim_bi_log_entries
               (S.get_bucket_info bstore (args.get "bucket")).bucket_info
               (args.get "start-marker") (args.get "end-marker")]
      ∧ (RGWOp_BILog_Delete.execute S args bstore).http_ret
          = (S.trim_bi_log_entries (S.get_bucket_info bstore (args.get "bucket")).store
              (S.get_bucket_info bstore (args.get "bucket")).bucket_info
              (args.get "start-marker") (args.get "end-marker")).1) := by
  refine ⟨?_, ?_, ?_, ?_⟩
  · intro hv hst het hes hee
    simp only [RGWOp_MDLog_Delete.execute, RGWOp_DATALog_Delete.execute,
      delete_execute_valid env _ args store v es ee hv hst het hes hee, and_self]
  · intro hid hlen hlocker hzone hv hd hdur
    simp only [RGWOp_MDLog_Lock.execute, RGWOp_DATALog_Lock.execute,
      lock_execute_valid env log args store v d hid hlen hlocker hzone hv hd hdur, and_self]
  · intro hid hlocker hzone hv
    simp only [RGWOp_MDLog_Unlock.execute, RGWOp_DATALog_Unlock.execute,
      unlock_execute_valid env log args store v hid hlocker hzone hv, and_self]
  · intro hbucket hstart hend hinfo
    simp only [bilog_delete_execute_valid S args bstore hbucket hstart hend hinfo, and_self]

/-- Claim C11 on a Lock that the store refuses with the Busy status, an
Unlock, a Delete and a bucket-index Delete. -/
theorem C11_store_status_pass_through_witness :
    (RGWOp_MDLog_Lock.execute stdEnv busyLeaseStore lockRequestA 0).http_ret = -EBUSY
    ∧ (RGWOp_DATALog_Unlock.execute stdEnv busyLeaseStore unlockRequestA 0).calls
        = [LeaseCall.unlock 3 "za" "la"]
    ∧ (RGWOp_MDLog_Delete.execute stdEnv countingTrim boundedDeleteRequest 0).calls
        = [TrimCall.trim 3 ⟨100, 0⟩ ⟨200, 0⟩]
    ∧ (RGWOp_BILog_Delete.execute oneBucketStore bucketTrimRequest 0).http_ret = 0 :=
  ⟨(((C11_store_status_pass_through stdEnv countingTrim countingTrim busyLeaseStore
        oneBucketStore lockRequestA 0 0 3 60 0 0).2.1 (by decide) (by decide) (by decide)
        (by decide) (by decide) (by decide) (by decide)).1.2).trans rfl,
   (((C11_store_status_pass_through stdEnv countingTrim countingTrim busyLeaseStore
        oneBucketStore unlockRequestA 0 0 3 0 0 0).2.2.1 (by decide) (by decide) (by decide)
        (by decide)).2.1).trans (by decide),
   (((C11_store_status_pass_through stdEnv countingTrim countingTrim busyLeaseStore
        oneBucketStore boundedDeleteRequest 0 0 3 0 100 200).1 (by decide) (by decide)
        (by decide) (by decide) (by decide)).1.1).trans (by decide),
   (((C11_store_status_pass_through stdEnv countingTrim countingTrim busyLeaseStore
        oneBucketStore bucketTrimRequest 0 0 0 0 0 0).2.2.2 (by decide) (by decide)
        (by decide) (by decide)).2).trans rfl⟩

/-! ## The first store call of a List -/

/-- The calls recorded by a pass of the loop: the call of the pass is added. -/
theorem list_step_calls {σ E C : Type} (call : σ → Nat → List E → ListReply σ E)
    (note : σ → Nat → C) (limited : Bool) (s : LogListState σ E C) :
    (list_step call note limited s).calls = s.calls ++ [note s.store s.max_entries] := by
  unfold list_step
  by_cases h : (call s.store s.max_entries s.entries).ret < 0
  · simp only [if_pos h]
  · simp only [if_neg h]

/-- The loop only adds calls to the ones recorded when it started. -/
theorem list_loop_calls_prefix {σ E C : Type} (call : σ → Nat → List E → ListReply σ E)
    (note : σ → Nat → C) (limited : Bool) :
    ∀ (n : Nat) (s : LogListState σ E C),
      ∃ l, (list_loop call note limited n s).calls = s.calls ++ l := by
  intro n
  induction n with
  | zero => intro s; exact ⟨[], by simp [list_loop]⟩
  | succ n ih =>
    intro s
    rw [list_loop_unfold]
    by_cases hf : (list_step call note limited s).finished = true
    · rw [if_pos hf]; exact ⟨_, list_step_calls call note limited s⟩
    · rw [if_neg hf]
      obtain ⟨l, hl⟩ := ih (list_step call note limited s)
      exact ⟨[note s.store s.max_entries] ++ l, by
        rw [hl, list_step_calls, List.append_assoc]⟩

/-- Once at least one pass is allowed, the first call the loop adds is the
call of its starting state. -/
theorem list_loop_first_call {σ E C : Type} (call : σ → Nat → List E → ListReply σ E)
    (note : σ → Nat → C) (limited : Bool) (n : Nat) (s : LogListState σ E C) :
    ∃ l, (list_loop call note limited (n + 1) s).calls
      = s.calls ++ note s.store s.max_entries :: l := by
  rw [list_loop_unfold]
  by_cases hf : (list_step call note limited s).finished = true
  · rw [if_pos hf]; exact ⟨[], list_step_calls call note limited s⟩
  · rw [if_neg hf]
    obtain ⟨l, hl⟩ := list_loop_calls_prefix call note limited n (list_step call note limited s)
    exact ⟨l, by rw [hl, list_step_calls, List.append_assoc]; rfl⟩

/-- The check of `parse_date_str` passes on an empty string and on a string
the date parser accepts. -/
theorem parse_date_str_ok (env : Env) (str : String)
    (h : str = "" ∨ env.parse_date str ≠ none) :
    ¬ (parse_date_str env str ⟨0, 0⟩).1 < 0 := by
  intro hneg
  obtain ⟨h1, h2⟩ := (parse_date_str_neg env str _).mp hneg
  rcases h with h | h
  · exact h1 h
  · exact h h2

/-- A metadata List whose parameters all validate is `init_list_entries` with
the cast shard id and the parsed time bounds, followed by the loop. -/
theorem md_list_execute_valid {σ E : Type} (env : Env) (meta_log : RGWMetadataLog σ E)
    (args : Args) (store : σ) (v : Int)
    (hv : env.strict_strtol (args.get "id") = some v)
    (hst : args.get "start-time" = "" ∨ env.parse_date (args.get "start-time") ≠ none)
    (het : args.get "end-time" = "" ∨ env.parse_date (args.get "end-time") ≠ none)
    (hme : args.get "max-entries" = "" ∨ env.strict_strtol (args.get "max-entries") ≠ none) :
    ∃ m ps, ∀ fuel, RGWOp_MDLog_List.execute env meta_log args store fuel
      = list_loop meta_log.list_entries (fun _ k => MDLogCall.list_entries k)
          (!decide (args.get "max-entries" = "")) fuel
          (list_start
            (meta_log.init_list_entries store (toUnsigned v) (list_start_time env args)
              (list_end_time env args) (args.get "marker"))
            m ps
            [MDLogCall.init_list_entries (toUnsigned v) (list_start_time env args)
              (list_end_time env args) (args.get "marker")]) := by
  unfold RGWOp_MDLog_List.execute list_start_time list_end_time
  simp only [hv, if_neg (parse_date_str_ok env _ hst), if_neg (parse_date_str_ok env _ het)]
  by_cases h3 : args.get "max-entries" = ""
  · simp only [if_pos h3, h3, decide_True, Bool.not_true]
    exact ⟨_, _, fun _ => rfl⟩
  · rcases hme with hme | hme
    · exact absurd hme h3
    · obtain ⟨m, hm⟩ := Option.ne_none_iff_exists'.mp hme
      simp only [if_neg h3, hm, h3, decide_False, Bool.not_false]
      exact ⟨_, _, fun _ => rfl⟩

/-- A data List whose parameters all validate is the loop on the cast shard
id and the parsed time bounds. -/
theorem data_list_execute_valid {σ E : Type} (env : Env) (data_log : RGWDataChangesLog σ E)
    (args : Args) (store : σ) (v : Int)
    (hv : env.strict_strtol (args.get "id") = some v)
    (hst : args.get "start-time" = "" ∨ env.parse_date (args.get "start-time") ≠ none)
    (het : args.get "end-time" = "" ∨ env.parse_date (args.get "end-time") ≠ none)
    (hme : args.get "max-entries" = "" ∨ env.strict_strtol (args.get "max-entries") ≠ none) :
    ∃ m ps, ∀ fuel, RGWOp_DATALog_List.execute env data_log args store fuel
      = list_loop
          (data_list_call data_log (toUnsigned v) (list_start_time env args)
            (list_end_time env args))
          (fun ms k => DataLogCall.list_entries (toUnsigned v) (list_start_time env args)
            (list_end_time env args) k ms.1)
          (!decide (args.get "max-entries" = "")) fuel
          (list_start (args.get "marker", store) m ps []) := by
  unfold RGWOp_DATALog_List.execute list_start_time list_end_time
  simp only [hv, if_neg (parse_date_str_ok env _ hst), if_neg (parse_date_str_ok env _ het)]
  by_cases h3 : args.get "max-entries" = ""
  · simp only [if_pos h3, h3, decide_True, Bool.not_true]
    exact ⟨_, _, fun _ => rfl⟩
  · rcases hme with hme | hme
    · exact absurd hme h3
    · obtain ⟨m, hm⟩ := Option.ne_none_iff_exists'.mp hme
      simp only [if_neg h3, hm, h3, decide_False, Bool.not_false]
      exact ⟨_, _, fun _ => rfl⟩

/-- The first store call of a metadata List whose parameters all validate. -/
theorem md_list_first_call {σ E : Type} (env : Env) (meta_log : RGWMetadataLog σ E)
    (args : Args) (store : σ) (v : Int) (fuel : Nat)
    (hv : env.strict_strtol (args.get "id") = some v)
    (hst : args.get "start-time" = "" ∨ env.parse_date (args.get "start-time") ≠ none)
    (het : args.get "end-time" = "" ∨ env.parse_date (args.get "end-time") ≠ none)
    (hme : args.get "max-entries" = "" ∨ env.strict_strtol (args.get "max-entries") ≠ none) :
    ∃ l, (RGWOp_MDLog_List.execute env meta_log args store fuel).calls
      = MDLogCall.init_list_entries (toUnsigned v) (list_start_time env args)
          (list_end_time env args) (args.get "marker") :: l := by
  obtain ⟨m, ps, h⟩ := md_list_execute_valid env meta_log args store v hv hst het hme
  rw [h fuel]
  obtain ⟨l, hl⟩ := list_loop_calls_prefix meta_log.list_entries
    (fun _ k => MDLogCall.list_entries k) (!decide (args.get "max-entries" = "")) fuel
    (list_start
      (meta_log.init_list_entries store (toUnsigned v) (list_start_time env args)
        (list_end_time env args) (args.get "marker"))
      m ps
      [MDLogCall.init_list_entries (toUnsigned v) (list_start_time env args)
        (list_end_time env args) (args.get "marker")])
  exact ⟨l, by rw [hl]; rfl⟩

/-- The first store call of a data List whose parameters all validate. -/
theorem data_list_first_call {σ E : Type} (env : Env) (data_log : RGWDataChangesLog σ E)
    (args : Args) (store : σ) (v : Int) (fuel : Nat)
    (hv : env.strict_strtol (args.get "id") = some v)
    (hst : args.get "start-time" = "" ∨ env.parse_date (args.get "start-time") ≠ none)
    (het : args.get "end-time" = "" ∨ env.parse_date (args.get "end-time") ≠ none)
    (hme : args.get "max-entries" = "" ∨ env.strict_strtol (args.get "max-entries") ≠ none) :
    ∃ k l, (RGWOp_DATALog_List.execute env data_log args store (fuel + 1)).calls
      = DataLogCall.list_entries (toUnsigned v) (list_start_time env args)
          (list_end_time env args) k (args.get "marker") :: l := by
  obtain ⟨m, ps, h⟩ := data_list_execute_valid env data_log args store v hv hst het hme
  rw [h (fuel + 1)]
  obtain ⟨l, hl⟩ := list_loop_first_call
    (data_list_call data_log (toUnsigned v) (list_start_time env args) (list_end_time env args))
    (fun ms k => DataLogCall.list_entries (toUnsigned v) (list_start_time env args)
      (list_end_time env args) k ms.1)
    (!decide (args.get "max-entries" = "")) fuel
    (list_start (args.get "marker", store) m ps [])
  exact ⟨m, l, by rw [hl]; rfl⟩

/-! ## Required parameters of Delete, Lock and Unlock -/

/-- A Delete with an empty time bound is rejected without a trim call. -/
theorem delete_execute_open {σ : Type} (env : Env)
    (trim : σ → Nat → utime_t → utime_t → Int × σ) (args : Args) (store : σ)
    (h : args.get "start-time" = "" ∨ args.get "end-time" = "") :
    delete_execute env trim args store = { http_ret := -EINVAL, store := store, calls := [] } := by
  unfold delete_execute
  cases hv : env.strict_strtol (args.get "id") with
  | none => simp only [hv]
  | some v => simp only [hv, if_pos h]

/-- Claim C12: a metadata or data Delete in which start-time or end-time is
empty ends with `-EINVAL` and never calls the trim of the store; a metadata
or data List whose other parameters validate takes an empty start-time or
end-time as epoch zero and goes on to the store with it. -/
theorem C12_delete_requires_time_bounds {σ τ E : Type} (env : Env)
    (trim trim_entries : τ → Nat → utime_t → utime_t → Int × τ)
    (meta_log : RGWMetadataLog σ E) (data_log : RGWDataChangesLog σ E) (args : Args)
    (tstore : τ) (store : σ) (v : Int) (fuel : Nat) :
    ((args.get "start-time" = "" ∨ args.get "end-time" = "") →
      ((RGWOp_MDLog_Delete.execute env trim args tstore).http_ret = -EINVAL
        ∧ (RGWOp_MDLog_Delete.execute env trim args tstore).calls = [])
      ∧ ((RGWOp_DATALog_Delete.execute env trim_entries args tstore).http_ret = -EINVAL
        ∧ (RGWOp_DATALog_Delete.execute env trim_entries args tstore).calls = []))
    ∧ (env.strict_strtol (args.get "id") = some v →
      (args.get "start-time" = "" ∨ env.parse_date (args.get "start-time") ≠ none) →
      (args.get "end-time" = "" ∨ env.parse_date (args.get "end-time") ≠ none) →
      (args.get "max-entries" = "" ∨ env.strict_strtol (args.get "max-entries") ≠ none) →
      (args.get "start-time" = "" → list_start_time env args = ⟨0, 0⟩)
      ∧ (args.get "end-time" = "" → list_end_time env args = ⟨0, 0⟩)
      ∧ (∃ l, (RGWOp_MDLog_List.execute env meta_log args store fuel).calls
          = MDLogCall.init_list_entries (toUnsigned v) (list_start_time env args)
              (list_end_time env args) (args.get "marker") :: l)
      ∧ (∃ k l, (RGWOp_DATALog_List.execute env data_log args store (fuel + 1)).calls
          = DataLogCall.list_entries (toUnsigned v) (list_start_time env args)
              (list_end_time env args) k (args.get "marker") :: l)) := by
  constructor
  · intro h
    simp only [RGWOp_MDLog_Delete.execute, RGWOp_DATALog_Delete.execute,
      delete_execute_open env _ args tstore h, and_self]
  · intro hv hst het hme
    refine ⟨?_, ?_, md_list_first_call env meta_log args store v fuel hv hst het hme,
      data_list_first_call env data_log args store v fuel hv hst het hme⟩
    · intro h; simp [list_start_time, parse_date_str, h]
    · intro h; simp [list_end_time, parse_date_str, h]

/-- Claim C12 on a Delete without end-time and a List without time bounds. -/
theorem C12_delete_requires_time_bounds_witness :
    (RGWOp_MDLog_Delete.execute stdEnv countingTrim openDeleteRequest 0).http_ret = -EINVAL
    ∧ (RGWOp_DATALog_Delete.execute stdEnv countingTrim openDeleteRequest 0).calls = []
    ∧ list_start_time stdEnv plainListRequest = ⟨0, 0⟩
    ∧ (∃ l, (RGWOp_MDLog_List.execute stdEnv (pagedMetaLog 3 1) plainListRequest 0 3).calls
        = MDLogCall.init_list_entries (toUnsigned 0) (list_start_time stdEnv plainListRequest)
            (list_end_time stdEnv plainListRequest) (plainListRequest.get "marker") :: l) :=
  ⟨((C12_delete_requires_time_bounds stdEnv countingTrim countingTrim (pagedMetaLog 3 1)
      (pagedDataLog 3 1) openDeleteRequest 0 0 0 3).1 (by decide)).1.1,
   ((C12_delete_requires_time_bounds stdEnv countingTrim countingTrim (pagedMetaLog 3 1)
      (pagedDataLog 3 1) openDeleteRequest 0 0 0 3).1 (by decide)).2.2,
   ((C12_delete_requires_time_bounds stdEnv countingTrim countingTrim (pagedMetaLog 3 1)
      (pagedDataLog 3 1) plainListRequest 0 0 0 3).2 (by decide) (by decide) (by decide)
      (by decide)).1 (by decide),
   ((C12_delete_requires_time_bounds stdEnv countingTrim countingTrim (pagedMetaLog 3 1)
      (pagedDataLog 3 1) plainListRequest 0 0 0 3).2 (by decide) (by decide) (by decide)
      (by decide)).2.2.1⟩

/-- Claim C13: a bucket-index Delete in which bucket, start-marker or
end-marker is empty ends with `-EINVAL` without a bucket lookup or a trim;
when the three are non-empty and the bucket lookup returns a negative status,
that status is the result and the trim is never called. -/
theorem C13_bilog_delete_validation {σ B : Type} (S : BITrimStore σ B) (args : Args)
    (store : σ) :
    ((args.get "bucket" = "" ∨ args.get "start-marker" = "" ∨ args.get "end-marker" = "") →
      (RGWOp_BILog_Delete.execute S args store).http_ret = -EINVAL
      ∧ (RGWOp_BILog_Delete.execute S args store).calls = [])
    ∧ (args.get "bucket" ≠ "" → args.get "start-marker" ≠ "" → args.get "end-marker" ≠ "" →
      (S.get_bucket_info store (args.get "bucket")).ret < 0 →
      (RGWOp_BILog_Delete.execute S args store).http_ret
        = (S.get_bucket_info store (args.get "bucket")).ret
      ∧ (RGWOp_BILog_Delete.execute S args store).calls
        = [BITrimCall.get_bucket_info (args.get "bucket")]) := by
  constructor
  · intro h
    simp only [RGWOp_BILog_Delete.execute, if_pos h, and_self]
  · intro hb hs he hret
    have h1 : ¬ (args.get "bucket" = "" ∨ args.get "start-marker" = ""
        ∨ args.get "end-marker" = "") := by simp [hb, hs, he]
    simp only [RGWOp_BILog_Delete.execute, if_neg h1, if_pos hret, and_self]

/-- Claim C13 on a request without end-marker and on one for an unknown
bucket. -/
theorem C13_bilog_delete_validation_witness :
    (RGWOp_BILog_Delete.execute oneBucketStore openBucketTrimRequest 0).http_ret = -EINVAL
    ∧ (RGWOp_BILog_Delete.execute oneBucketStore unknownBucketTrimRequest 0).http_ret = -2 :=
  ⟨((C13_bilog_delete_validation oneBucketStore openBucketTrimRequest 0).1 (by decide)).1,
   (((C13_bilog_delete_validation oneBucketStore unknownBucketTrimRequest 0).2 (by decide)
      (by decide) (by decide) (by decide)).1).trans (by decide)⟩

/-- Claim C14: a metadata or data Lock or Unlock in which id, locker-id or
zone-id is empty, and a Lock in which length is empty, ends with `-EINVAL`
and never calls the lease store. -/
theorem C14_lock_unlock_required_parameters {σ : Type} (env : Env) (log : LeaseStore σ)
    (args : Args) (store : σ) :
    ((args.get "id" = "" ∨ args.get "locker-id" = "" ∨ args.get "zone-id" = "") →
      ((RGWOp_MDLog_Lock.execute env log args store).http_ret = -EINVAL
        ∧ (RGWOp_MDLog_Lock.execute env log args store).calls = [])
      ∧ ((RGWOp_DATALog_Lock.execute env log args store).http_ret = -EINVAL
        ∧ (RGWOp_DATALog_Lock.execute env log args store).calls = [])
      ∧ ((RGWOp_MDLog_Unlock.execute env log args store).http_ret = -EINVAL
        ∧ (RGWOp_MDLog_Unlock.execute env log args store).calls = [])
      ∧ ((RGWOp_DATALog_Unlock.execute env log args store).http_ret = -EINVAL
        ∧ (RGWOp_DATALog_Unlock.execute env log args store).calls = []))
    ∧ (args.get "length" = "" →
      ((RGWOp_MDLog_Lock.execute env log args store).http_ret = -EINVAL
        ∧ (RGWOp_MDLog_Lock.execute env log args store).calls = [])
      ∧ ((RGWOp_DATALog_Lock.execute env log args store).http_ret = -EINVAL
        ∧ (RGWOp_DATALog_Lock.execute env log args store).calls = [])) := by
  constructor
  · intro h
    have hl : args.get "id" = "" ∨ args.get "length" = "" ∨ args.get "locker-id" = ""
        ∨ args.get "zone-id" = "" := by
      rcases h with h | h | h
      · exact Or.inl h
      · exact Or.inr (Or.inr (Or.inl h))
      · exact Or.inr (Or.inr (Or.inr h))
    simp only [RGWOp_MDLog_Lock.execute, RGWOp_DATALog_Lock.execute,
      RGWOp_MDLog_Unlock.execute, RGWOp_DATALog_Unlock.execute, lock_execute, unlock_execute,
      if_pos hl, if_pos h, and_self]
  · intro h
    have hl : args.get "id" = "" ∨ args.get "length" = "" ∨ args.get "locker-id" = ""
        ∨ args.get "zone-id" = "" := Or.inr (Or.inl h)
    simp only [RGWOp_MDLog_Lock.execute, RGWOp_DATALog_Lock.execute, lock_execute,
      if_pos hl, and_self]

/-- Claim C14 on an Unlock without locker id and a Lock without length. -/
theorem C14_lock_unlock_required_parameters_witness :
    (RGWOp_MDLog_Unlock.execute stdEnv busyLeaseStore anonymousUnlockRequest 0).calls = []
    ∧ (RGWOp_DATALog_Lock.execute stdEnv busyLeaseStore openLockRequest 0).http_ret = -EINVAL :=
  ⟨((C14_lock_unlock_required_parameters stdEnv busyLeaseStore anonymousUnlockRequest 0).1
      (by decide)).2.2.1.2,
   ((C14_lock_unlock_required_parameters stdEnv busyLeaseStore openLockRequest 0).2
      (by decide)).2.1⟩

/-! ## Conversion of the shard id -/

/-- The cast to `unsigned` is the value modulo `2^32`. -/
theorem toUnsigned_cast (v : Int) : ((toUnsigned v : Nat) : Int) = v % 4294967296 := by
  unfold toUnsigned
  exact Int.toNat_of_nonneg (Int.emod_nonneg _ (by decide))

/-- The cast to `unsigned` of a negative `int` adds `2^32`. -/
theorem toUnsigned_neg (v : Int) (h0 : v < 0) (h1 : -2147483648 ≤ v) :
    ((toUnsigned v : Nat) : Int) = v + 4294967296 := by
  rw [toUnsigned_cast]
  omega

/-- Claim C20: in the metadata and data List, Delete, Lock and Unlock, an id
that the strict parser reads as the signed 32-bit integer `v` is not a reason
to reject the request, and the shard id handed to the store is `v` modulo
`2^32`: `v` itself when it is not negative and `v + 2^32` when it is. -/
theorem C20_shard_id_conversion {σ τ υ E : Type} (env : Env)
    (meta_log : RGWMetadataLog σ E) (data_log : RGWDataChangesLog σ E)
    (trim trim_entries : τ → Nat → utime_t → utime_t → Int × τ) (log : LeaseStore υ)
    (args : Args) (store : σ) (tstore : τ) (lstore : υ) (v d : Int) (es ee fuel : Nat)
    (hv : env.strict_strtol (args.get "id") = some v)
    (hmin : -2147483648 ≤ v) (hmax : v ≤ 2147483647)
    (hempty : env.strict_strtol "" = none) :
    (((toUnsigned v : Nat) : Int) = v % 4294967296
      ∧ (0 ≤ v → ((toUnsigned v : Nat) : Int) = v)
      ∧ (v < 0 → ((toUnsigned v : Nat) : Int) = v + 4294967296))
    ∧ ((args.get "start-time" = "" ∨ env.parse_date (args.get "start-time") ≠ none) →
      (args.get "end-time" = "" ∨ env.parse_date (args.get "end-time") ≠ none) →
      (args.get "max-entries" = "" ∨ env.strict_strtol (args.get "max-entries") ≠ none) →
      (∃ l, (RGWOp_MDLog_List.execute env meta_log args store fuel).calls
          = MDLogCall.init_list_entries (toUnsigned v) (list_start_time env args)
              (list_end_time env args) (args.get "marker") :: l)
      ∧ (∃ k l, (RGWOp_DATALog_List.execute env data_log args store (fuel + 1)).calls
          = DataLogCall.list_entries (toUnsigned v) (list_start_time env args)
              (list_end_time env args) k (args.get "marker") :: l))
    ∧ (args.get "start-time" ≠ "" → args.get "end-time" ≠ "" →
      env.parse_date (args.get "start-time") = some es →
      env.parse_date (args.get "end-time") = some ee →
      (RGWOp_MDLog_Delete.execute env trim args tstore).calls
          = [TrimCall.trim (toUnsigned v) ⟨es, 0⟩ ⟨ee, 0⟩]
      ∧ (RGWOp_DATALog_Delete.execute env trim_entries args tstore).calls
          = [TrimCall.trim (toUnsigned v) ⟨es, 0⟩ ⟨ee, 0⟩])
    ∧ (args.get "length" ≠ "" → args.get "locker-id" ≠ "" → args.get "zone-id" ≠ "" →
      env.strict_strtol (args.get "length") = some d → 0 < toUnsigned d →
      (RGWOp_MDLog_Lock.execute env log args lstore).calls
          = [LeaseCall.lock_exclusive (toUnsigned v) ⟨toUnsigned d, 0⟩ (args.get "zone-id")
              (args.get "locker-id")]
      ∧ (RGWOp_DATALog_Lock.execute env log args lstore).calls
          = [LeaseCall.lock_exclusive (toUnsigned v) ⟨toUnsigned d, 0⟩ (args.get "zone-id")
              (args.get "locker-id")])
    ∧ (args.get "locker-id" ≠ "" → args.get "zone-id" ≠ "" →
      (RGWOp_MDLog_Unlock.execute env log args lstore).calls
          = [LeaseCall.unlock (toUnsigned v) (args.get "zone-id") (args.get "locker-id")]
      ∧ (RGWOp_DATALog_Unlock.execute env log args lstore).calls
          = [LeaseCall.unlock (toUnsigned v) (args.get "zone-id") (args.get "locker-id")]) := by
  have hid : args.get "id" ≠ "" := by
    intro h
    rw [h, hempty] at hv
    cases hv
  refine ⟨⟨toUnsigned_cast v, ?_, fun h => toUnsigned_neg v h hmin⟩, ?_, ?_, ?_, ?_⟩
  · intro h
    rw [toUnsigned_cast]
    omega
  · intro hst het hme
    exact ⟨md_list_first_call env meta_log args store v fuel hv hst het hme,
      data_list_first_call env data_log args store v fuel hv hst het hme⟩
  · intro hst het hes hee
    simp only [RGWOp_MDLog_Delete.execute, RGWOp_DATALog_Delete.execute,
      delete_execute_valid env _ args tstore v es ee hv hst het hes hee, and_self]
  · intro hlen hlocker hzone hd hdur
    simp only [RGWOp_MDLog_Lock.execute, RGWOp_DATALog_Lock.execute,
      lock_execute_valid env log args lstore v d hid hlen hlocker hzone hv hd hdur, and_self]
  · intro hlocker hzone
    simp only [RGWOp_MDLog_Unlock.execute, RGWOp_DATALog_Unlock.execute,
      unlock_execute_valid env log args lstore v hid hlocker hzone hv, and_self]

/-- Claim C20 on the id `-1`: the Unlock reaches the store with shard id
4294967295. -/
theorem C20_shard_id_conversion_witness :
    stdEnv.strict_strtol (negativeShardUnlockRequest.get "id") = some (-1)
    ∧ stdEnv.strict_strtol "" = none
    ∧ toUnsigned (-1) = 4294967295
    ∧ (RGWOp_DATALog_Unlock.execute stdEnv busyLeaseStore negativeShardUnlockRequest 0).calls
        = [LeaseCall.unlock 4294967295 "za" "la"] :=
  ⟨by decide, by decide, by decide,
   (((C20_shard_id_conversion stdEnv (pagedMetaLog 3 1) (pagedDataLog 3 1) countingTrim
      countingTrim busyLeaseStore negativeShardUnlockRequest 0 0 0 (-1) 0 0 0 0
      (by decide) (by decide) (by decide) (by decide)).2.2.2.2 (by decide) (by decide)).2).trans
      (by decide)⟩

/-! ## Termination of the bucket-index List -/

/-- Once the bucket-index loop has left, more allowed passes change nothing. -/
theorem bilog_loop_stable {σ B : Type} (S : BILogStore σ B) (bucket : B) (M : Nat) :
    ∀ (n m : Nat) (s : BILogListState σ),
      (bilog_loop S bucket M (n + 1) s).finished = true →
      bilog_loop S bucket M (n + 1 + m) s = bilog_loop S bucket M (n + 1) s := by
  intro n
  induction n with
  | zero =>
    intro m s hs
    rw [bilog_loop_one] at hs ⊢
    rw [show 0 + 1 + m = m + 1 by omega, bilog_loop_unfold, if_pos hs]
  | succ n ih =>
    intro m s hs
    rw [show n + 1 + 1 + m = (n + 1 + m) + 1 by omega, bilog_loop_unfold]
    rw [bilog_loop_unfold] at hs ⊢
    by_cases hf : (bilog_step S bucket M s).finished = true
    · simp only [if_pos hf]
    · simp only [if_neg hf] at hs ⊢
      exact ih m _ hs

/-- The bucket-index loop adds at most one call for each allowed pass. -/
theorem bilog_loop_calls {σ B : Type} (S : BILogStore σ B) (bucket : B) (M : Nat) :
    ∀ (n : Nat) (s : BILogListState σ),
      ∃ l, (bilog_loop S bucket M n s).calls = s.calls ++ l ∧ l.length ≤ n := by
  intro n
  induction n with
  | zero => intro s; exact ⟨[], by simp [bilog_loop], Nat.le_refl _⟩
  | succ n ih =>
    intro s
    rw [bilog_loop_unfold]
    by_cases hf : (bilog_step S bucket M s).finished = true
    · rw [if_pos hf]
      exact ⟨_, bilog_step_calls S bucket M s, by simp⟩
    · rw [if_neg hf]
      obtain ⟨l, hl, hlen⟩ := ih (bilog_step S bucket M s)
      refine ⟨[BILogCall.list_bi_log_entries s.marker
          (toUnsigned ((M : Int) - (s.count : Int)))] ++ l, ?_, ?_⟩
      · rw [hl, bilog_step_calls, List.append_assoc]
      · simp only [List.singleton_append, List.length_cons]; omega

/-- What a pass of the bucket-index loop gives, from a state in which fewer
than the cap entries are counted and all of them streamed, on a store whose
truncated answers hold at least one entry and at most the number asked for:
either the loop leaves, or the store reported `truncated` and the count, still
the number of entries streamed, has grown and is still below the cap. -/
theorem bilog_step_progress {σ B : Type} (S : BILogStore σ B) (bucket : B) (M : Nat)
    (hM : M < 4294967296)
    (hstore : ∀ st b m k, 1 ≤ k → ¬ (S.list_bi_log_entries st b m k).ret < 0 →
      (S.list_bi_log_entries st b m k).truncated = true →
      1 ≤ (S.list_bi_log_entries st b m k).entries.length
        ∧ (S.list_bi_log_entries st b m k).entries.length ≤ k)
    (s : BILogListState σ) (hlt : s.count < M) (hout : s.count = s.out.length)
    (hclosed : s.closed = false) :
    ((bilog_step S bucket M s).finished = false →
      (bilog_step S bucket M s).truncated = true
      ∧ s.count + 1 ≤ (bilog_step S bucket M s).count
      ∧ (bilog_step S bucket M s).count < M
      ∧ (bilog_step S bucket M s).count = (bilog_step S bucket M s).out.length
      ∧ (bilog_step S bucket M s).closed = false)
    ∧ ((bilog_step S bucket M s).finished = true → (bilog_step S bucket M s).closed = true →
      (bilog_step S bucket M s).truncated = false
        ∨ (bilog_step S bucket M s).out.length = M) := by
  have hreq : toUnsigned ((M : Int) - (s.count : Int)) = M - s.count :=
    toUnsigned_natCast_sub M _ (Nat.le_of_lt hlt) hM
  by_cases h : (S.list_bi_log_entries s.store bucket s.marker
              (toUnsigned ((M : Int) - (s.count : Int)))).ret < 0
  · rw [bilog_step_fail _ _ _ _ h]
    constructor
    · intro hf; cases hf
    · intro _ hc
      simp only at hc
      rw [hclosed] at hc; cases hc
  · have hs : (S.list_bi_log_entries s.store bucket s.marker
        (toUnsigned ((M : Int) - (s.count : Int)))).truncated = true →
        1 ≤ (S.list_bi_log_entries s.store bucket s.marker
          (toUnsigned ((M : Int) - (s.count : Int)))).entries.length
        ∧ (S.list_bi_log_entries s.store bucket s.marker
          (toUnsigned ((M : Int) - (s.count : Int)))).entries.length ≤ M - s.count := by
      intro ht
      have := hstore s.store bucket s.marker (toUnsigned ((M : Int) - (s.count : Int)))
        (by rw [hreq]; omega) h ht
      exact ⟨this.1, le_of_le_of_eq this.2 hreq⟩
    rw [bilog_step_ok _ _ _ _ h]
    generalize S.list_bi_log_entries s.store bucket s.marker
      (toUnsigned ((M : Int) - (s.count : Int))) = r at h hs ⊢
    simp only [List.length_append]
    by_cases ht : r.truncated = true
    · obtain ⟨h1, h2⟩ := hs ht
      have hc : (s.count + r.entries.length) % 4294967296 = s.count + r.entries.length :=
        Nat.mod_eq_of_lt (by omega)
      rw [hc, ht]
      constructor
      · intro hf
        simp only [Bool.true_and, Bool.not_eq_false', decide_eq_true_eq] at hf
        exact ⟨rfl, by omega, hf, by omega, by simpa using hf⟩
      · intro hf _
        simp only [Bool.true_and, Bool.not_eq_true', decide_eq_false_iff_not] at hf
        right; omega
    · have ht' : r.truncated = false := by simpa using ht
      rw [ht']
      constructor
      · intro hf; simp at hf
      · intro _ _; left; rfl


/-- The state of the bucket-index loop after `n` allowed passes, on a store
whose truncated answers hold at least one entry and at most the number asked
for: while the loop has not left, at least `n` entries are counted, fewer than
the cap, and all of them streamed; after a pass, the loop goes on only if the
store reported `truncated`, and has left normally only if the store reported
`truncated = false` or the entries streamed have reached the cap. -/
theorem bilog_loop_progress {σ B : Type} (S : BILogStore σ B) (bucket : B) (M : Nat)
    (hM : M < 4294967296)
    (hstore : ∀ st b m k, 1 ≤ k → ¬ (S.list_bi_log_entries st b m k).ret < 0 →
      (S.list_bi_log_entries st b m k).truncated = true →
      1 ≤ (S.list_bi_log_entries st b m k).entries.length
        ∧ (S.list_bi_log_entries st b m k).entries.length ≤ k)
    (s0 : BILogListState σ) (hrun : s0.finished = false) (hcount : s0.count = 0)
    (hout : s0.out = []) (hclosed : s0.closed = false) (hcap : 1 ≤ M) :
    ∀ n : Nat,
      ((bilog_loop S bucket M n s0).finished = false →
        n ≤ (bilog_loop S bucket M n s0).count
        ∧ (bilog_loop S bucket M n s0).count < M
        ∧ (bilog_loop S bucket M n s0).count = (bilog_loop S bucket M n s0).out.length
        ∧ (bilog_loop S bucket M n s0).closed = false)
      ∧ (1 ≤ n →
        ((bilog_loop S bucket M n s0).finished = false →
          (bilog_loop S bucket M n s0).truncated = true)
        ∧ ((bilog_loop S bucket M n s0).finished = true →
            (bilog_loop S bucket M n s0).closed = true →
            (bilog_loop S bucket M n s0).truncated = false
              ∨ (bilog_loop S bucket M n s0).out.length = M)) := by
  intro n
  induction n with
  | zero =>
    refine ⟨fun _ => ?_, fun h => absurd h (by decide)⟩
    simp only [bilog_loop]
    exact ⟨Nat.le_of_eq hcount.symm, by omega, by rw [hcount, hout]; rfl, hclosed⟩
  | succ n ih =>
    by_cases hf : (bilog_loop S bucket M n s0).finished = true
    · have hn : 1 ≤ n := by
        cases n with
        | zero => simp only [bilog_loop] at hf; rw [hrun] at hf; cases hf
        | succ k => omega
      obtain ⟨k, rfl⟩ : ∃ k, n = k + 1 := ⟨n - 1, by omega⟩
      have hst := bilog_loop_stable S bucket M k 1 s0 hf
      rw [hst]
      refine ⟨fun h => ?_, fun _ => ih.2 hn⟩
      rw [hf] at h; cases h
    · have hnf : (bilog_loop S bucket M n s0).finished = false := by simpa using hf
      obtain ⟨h1, h2, h3, h4⟩ := ih.1 hnf
      rw [bilog_loop_succ S bucket M n s0 hnf]
      have hp := bilog_step_progress S bucket M hM hstore _ h2 h3 h4
      refine ⟨fun h => ?_, fun _ => ⟨fun h => (hp.1 h).1, hp.2⟩⟩
      obtain ⟨_, q1, q2, q3, q4⟩ := hp.1 h
      exact ⟨by omega, q2, q3, q4⟩

/-- A truncated answer of a static store to a request for at least one entry
holds at least one entry and at most the number asked for. -/
theorem staticBILog_progress (log : List rgw_bi_log_entry) (st : Unit) (b : Unit) (m : String)
    (k : Nat) (hk : 1 ≤ k) (_h : ¬ ((staticBILog log).list_bi_log_entries st b m k).ret < 0)
    (ht : ((staticBILog log).list_bi_log_entries st b m k).truncated = true) :
    1 ≤ ((staticBILog log).list_bi_log_entries st b m k).entries.length
      ∧ ((staticBILog log).list_bi_log_entries st b m k).entries.length ≤ k := by
  simp only [staticBILog, decide_eq_true_eq] at ht
  simp only [staticBILog, List.length_take]
  omega

/-- At least one allowed pass of the bucket-index loop adds at least one
call, and no more calls than passes allowed. -/
theorem bilog_loop_calls_pos {σ B : Type} (S : BILogStore σ B) (bucket : B) (M : Nat)
    (n : Nat) (s : BILogListState σ) :
    ∃ l, (bilog_loop S bucket M (n + 1) s).calls = s.calls ++ l ∧ 1 ≤ l.length
      ∧ l.length ≤ n + 1 := by
  rw [bilog_loop_unfold]
  by_cases hf : (bilog_step S bucket M s).finished = true
  · rw [if_pos hf]
    exact ⟨_, bilog_step_calls S bucket M s, by simp, by simp⟩
  · rw [if_neg hf]
    obtain ⟨l, hl, hlen⟩ := bilog_loop_calls S bucket M n (bilog_step S bucket M s)
    refine ⟨[BILogCall.list_bi_log_entries s.marker
        (toUnsigned ((M : Int) - (s.count : Int)))] ++ l, ?_, ?_, ?_⟩
    · rw [hl, bilog_step_calls, List.append_assoc]
    · simp
    · simp only [List.singleton_append, List.length_cons]; omega

/-- A pass of the bucket-index loop from a state in which fewer than the cap
entries are counted and all of them streamed, on a store whose successful
truncated answers hold at most the number of entries asked for: the request
asks for the cap minus the entries streamed, and the loop leaves exactly when
the call fails, the store reports `truncated = false`, or the entries streamed
reach the cap. -/
theorem bilog_step_exact {σ B : Type} (S : BILogStore σ B) (bucket : B) (M : Nat)
    (hM : M < 4294967296)
    (hstore : ∀ st b m k, 1 ≤ k → ¬ (S.list_bi_log_entries st b m k).ret < 0 →
      (S.list_bi_log_entries st b m k).truncated = true →
      1 ≤ (S.list_bi_log_entries st b m k).entries.length
        ∧ (S.list_bi_log_entries st b m k).entries.length ≤ k)
    (s : BILogListState σ) (hlt : s.count < M) (hout : s.count = s.out.length) :
    (bilog_step S bucket M s).calls
        = s.calls ++ [BILogCall.list_bi_log_entries s.marker (M - s.out.length)]
    ∧ ((bilog_step S bucket M s).finished = true ↔
        ((S.list_bi_log_entries s.store bucket s.marker (M - s.out.length)).ret < 0
          ∨ (S.list_bi_log_entries s.store bucket s.marker (M - s.out.length)).truncated = false
          ∨ M ≤ s.out.length
              + (S.list_bi_log_entries s.store bucket s.marker
                  (M - s.out.length)).entries.length))
    ∧ (¬ (S.list_bi_log_entries s.store bucket s.marker (M - s.out.length)).ret < 0 →
        (bilog_step S bucket M s).out
          = s.out ++ (S.list_bi_log_entries s.store bucket s.marker
              (M - s.out.length)).entries)
    ∧ ((S.list_bi_log_entries s.store bucket s.marker (M - s.out.length)).ret < 0 →
        (bilog_step S bucket M s).out = s.out) := by
  have hreq : toUnsigned ((M : Int) - (s.count : Int)) = M - s.out.length := by
    rw [← hout]; exact toUnsigned_natCast_sub M _ (Nat.le_of_lt hlt) hM
  have hk : 1 ≤ M - s.out.length := by omega
  have hs := hstore s.store bucket s.marker (M - s.out.length) hk
  refine ⟨by rw [bilog_step_calls, hreq], ?_, ?_, ?_⟩
  · by_cases h : (S.list_bi_log_entries s.store bucket s.marker (M - s.out.length)).ret < 0
    · rw [bilog_step_fail _ _ _ _ (by rw [hreq]; exact h)]
      simp [h]
    · rw [bilog_step_ok _ _ _ _ (by rw [hreq]; exact h), hreq]
      have hs' := hs h
      generalize S.list_bi_log_entries s.store bucket s.marker (M - s.out.length) = r
        at h hs' ⊢
      by_cases ht : r.truncated = true
      · obtain ⟨h1, h2⟩ := hs' ht
        have hc : (s.count + r.entries.length) % 4294967296 = s.count + r.entries.length :=
          Nat.mod_eq_of_lt (by omega)
        simp only [hc, ht, Bool.true_and, Bool.not_eq_true', decide_eq_false_iff_not, h,
          false_or, Bool.true_eq_false]
        omega
      · have ht' : r.truncated = false := by simpa using ht
        simp [ht']
  · intro h
    rw [bilog_step_ok _ _ _ _ (by rw [hreq]; exact h), hreq]
  · intro h
    rw [bilog_step_fail _ _ _ _ (by rw [hreq]; exact h)]


/-- Claim C19, amended: for every cap `M` of at least 1 and every store whose
successful answers with `truncated = true` hold at least one entry and at
most the number asked for, the loop of the bucket-index List is entered, has
left after at most `M` passes, and makes at least one and at most `M`
requests to the store after the bucket lookup.  Each pass made while the loop
has not left sends one request, for `M` minus the entries streamed so far,
and the loop leaves after it exactly when that request returned a negative
status, or the store reported `truncated = false`, or the entries streamed
have reached `M`. -/
theorem C19_bilog_list_terminates {σ B : Type} (env : Env) (S : BILogStore σ B) (args : Args)
    (store : σ)
    (hbucket : args.get "bucket" ≠ "")
    (hinfo : 0 ≤ (S.get_bucket_info store (args.get "bucket")).ret)
    (hcap : 1 ≤ RGWOp_BILog_List.max_entries env (args.get "max-entries"))
    (hstore : ∀ st b m k, 1 ≤ k → ¬ (S.list_bi_log_entries st b m k).ret < 0 →
      (S.list_bi_log_entries st b m k).truncated = true →
      1 ≤ (S.list_bi_log_entries st b m k).entries.length
        ∧ (S.list_bi_log_entries st b m k).entries.length ≤ k) :
    (RGWOp_BILog_List.execute env S args store 0).finished = false
    ∧ (∀ fuel, RGWOp_BILog_List.max_entries env (args.get "max-entries") ≤ fuel →
      (RGWOp_BILog_List.execute env S args store fuel).finished = true)
    ∧ (∀ fuel, ∃ l, (RGWOp_BILog_List.execute env S args store fuel).calls
        = BILogCall.get_bucket_info (args.get "bucket") :: l
        ∧ l.length ≤ RGWOp_BILog_List.max_entries env (args.get "max-entries")
        ∧ (1 ≤ fuel → 1 ≤ l.length))
    ∧ (∀ n, (RGWOp_BILog_List.execute env S args store n).finished = false →
      (RGWOp_BILog_List.execute env S args store (n + 1)).calls
        = (RGWOp_BILog_List.execute env S args store n).calls
          ++ [BILogCall.list_bi_log_entries
                (RGWOp_BILog_List.execute env S args store n).marker
                (RGWOp_BILog_List.max_entries env (args.get "max-entries")
                  - (RGWOp_BILog_List.execute env S args store n).out.length)]
      ∧ ((RGWOp_BILog_List.execute env S args store (n + 1)).finished = true ↔
          ((S.list_bi_log_entries (RGWOp_BILog_List.execute env S args store n).store
              (S.get_bucket_info store (args.get "bucket")).bucket_info
              (RGWOp_BILog_List.execute env S args store n).marker
              (RGWOp_BILog_List.max_entries env (args.get "max-entries")
                - (RGWOp_BILog_List.execute env S args store n).out.length)).ret < 0
          ∨ (S.list_bi_log_entries (RGWOp_BILog_List.execute env S args store n).store
              (S.get_bucket_info store (args.get "bucket")).bucket_info
              (RGWOp_BILog_List.execute env S args store n).marker
              (RGWOp_BILog_List.max_entries env (args.get "max-entries")
                - (RGWOp_BILog_List.execute env S args store n).out.length)).truncated = false
          ∨ RGWOp_BILog_List.max_entries env (args.get "max-entries")
              ≤ (RGWOp_BILog_List.execute env S args store n).out.length
                + (S.list_bi_log_entries (RGWOp_BILog_List.execute env S args store n).store
                    (S.get_bucket_info store (args.get "bucket")).bucket_info
                    (RGWOp_BILog_List.execute env S args store n).marker
                    (RGWOp_BILog_List.max_entries env (args.get "max-entries")
                      - (RGWOp_BILog_List.execute env S args store n).out.length)).entries.length))
      ∧ (¬ (S.list_bi_log_entries (RGWOp_BILog_List.execute env S args store n).store
              (S.get_bucket_info store (args.get "bucket")).bucket_info
              (RGWOp_BILog_List.execute env S args store n).marker
              (RGWOp_BILog_List.max_entries env (args.get "max-entries")
                - (RGWOp_BILog_List.execute env S args store n).out.length)).ret < 0 →
          (RGWOp_BILog_List.execute env S args store (n + 1)).out
            = (RGWOp_BILog_List.execute env S args store n).out
              ++ (S.list_bi_log_entries (RGWOp_BILog_List.execute env S args store n).store
                  (S.get_bucket_info store (args.get "bucket")).bucket_info
                  (RGWOp_BILog_List.execute env S args store n).marker
                  (RGWOp_BILog_List.max_entries env (args.get "max-entries")
                    - (RGWOp_BILog_List.execute env S args store n).out.length)).entries)
      ∧ ((S.list_bi_log_entries (RGWOp_BILog_List.execute env S args store n).store
              (S.get_bucket_info store (args.get "bucket")).bucket_info
              (RGWOp_BILog_List.execute env S args store n).marker
              (RGWOp_BILog_List.max_entries env (args.get "max-entries")
                - (RGWOp_BILog_List.execute env S args store n).out.length)).ret < 0 →
          (RGWOp_BILog_List.execute env S args store (n + 1)).out
            = (RGWOp_BILog_List.execute env S args store n).out)) := by
  have hM := bilog_max_entries_lt env (args.get "max-entries")
  have heq := fun fuel => bilog_execute_eq env S args store fuel hbucket (by omega)
  have key := bilog_loop_progress S (S.get_bucket_info store (args.get "bucket")).bucket_info
    _ hM hstore
    (bilog_start (S.get_bucket_info store (args.get "bucket")) (args.get "bucket")
      (args.get "marker")) rfl rfl rfl rfl hcap
  have hfin : ∀ fuel, RGWOp_BILog_List.max_entries env (args.get "max-entries") ≤ fuel →
      (RGWOp_BILog_List.execute env S args store fuel).finished = true := by
    intro fuel hfuel
    rw [heq fuel]
    by_contra hnf
    have h := (key fuel).1 (by simpa using hnf)
    omega
  refine ⟨by rw [heq 0]; rfl, hfin, ?_, ?_⟩
  · intro fuel
    cases fuel with
    | zero =>
      rw [heq 0]
      exact ⟨[], rfl, Nat.zero_le _, fun h => absurd h (by decide)⟩
    | succ j =>
      by_cases hle : j + 1 ≤ RGWOp_BILog_List.max_entries env (args.get "max-entries")
      · rw [heq (j + 1)]
        obtain ⟨l, hl, hpos, hlen⟩ := bilog_loop_calls_pos S
          (S.get_bucket_info store (args.get "bucket")).bucket_info
          (RGWOp_BILog_List.max_entries env (args.get "max-entries")) j
          (bilog_start (S.get_bucket_info store (args.get "bucket")) (args.get "bucket")
            (args.get "marker"))
        exact ⟨l, by rw [hl]; rfl, by omega, fun _ => hpos⟩
      · obtain ⟨k, hk⟩ :
            ∃ k, RGWOp_BILog_List.max_entries env (args.get "max-entries") = k + 1 :=
          ⟨RGWOp_BILog_List.max_entries env (args.get "max-entries") - 1, by omega⟩
        obtain ⟨m, hm⟩ : ∃ m, j + 1 = k + 1 + m := ⟨j + 1 - (k + 1), by omega⟩
        have hfk := hfin (k + 1) (by omega)
        rw [heq (k + 1)] at hfk
        have hst := bilog_loop_stable S
          (S.get_bucket_info store (args.get "bucket")).bucket_info
          (RGWOp_BILog_List.max_entries env (args.get "max-entries")) k m _ hfk
        rw [heq (j + 1), hm, hst]
        obtain ⟨l, hl, hpos, hlen⟩ := bilog_loop_calls_pos S
          (S.get_bucket_info store (args.get "bucket")).bucket_info
          (RGWOp_BILog_List.max_entries env (args.get "max-entries")) k
          (bilog_start (S.get_bucket_info store (args.get "bucket")) (args.get "bucket")
            (args.get "marker"))
        exact ⟨l, by rw [hl]; rfl, by omega, fun _ => hpos⟩
  · intro n hnf
    rw [heq n] at hnf ⊢
    rw [heq (n + 1)]
    obtain ⟨_, h2, h3, _⟩ := (key n).1 hnf
    rw [bilog_loop_succ S _ _ n _ hnf]
    exact bilog_step_exact S _ _ hM hstore _ h2 h3

/-- The store `failingBILog` answers `truncated = true` only with one entry
to a request for at least one entry. -/
theorem failingBILog_truncated (good made : Nat) (b : Unit) (m : String) (k : Nat)
    (ht : ((failingBILog good).list_bi_log_entries made b m k).truncated = true) :
    1 ≤ ((failingBILog good).list_bi_log_entries made b m k).entries.length
      ∧ ((failingBILog good).list_bi_log_entries made b m k).entries.length ≤ k := by
  simp only [failingBILog, Bool.not_eq_true', decide_eq_false_iff_not] at ht
  simp only [failingBILog, if_neg ht, List.length_singleton]
  omega

/-- Claim C19 fails as stated: on a store all of whose answers with
`truncated = true` hold exactly one entry, asked for at least one, and whose
second call fails, a List with max-entries 2 ends after that call although
the store reported `truncated = true` and one entry, fewer than 2, has been
streamed. -/
theorem C19_counterexample_store_failure_ends_loop :
    (∀ made b m k, ((failingBILog 1).list_bi_log_entries made b m k).truncated = true →
      1 ≤ ((failingBILog 1).list_bi_log_entries made b m k).entries.length
        ∧ ((failingBILog 1).list_bi_log_entries made b m k).entries.length ≤ k)
    ∧ RGWOp_BILog_List.max_entries stdEnv (cappedBucketRequest.get "max-entries") = 2
    ∧ (RGWOp_BILog_List.execute stdEnv (failingBILog 1) cappedBucketRequest 0 1).finished = false
    ∧ (RGWOp_BILog_List.execute stdEnv (failingBILog 1) cappedBucketRequest 0 2).finished = true
    ∧ (RGWOp_BILog_List.execute stdEnv (failingBILog 1) cappedBucketRequest 0 2).calls
        = [BILogCall.get_bucket_info "b", BILogCall.list_bi_log_entries "" 2,
           BILogCall.list_bi_log_entries "e" 1]
    ∧ (RGWOp_BILog_List.execute stdEnv (failingBILog 1) cappedBucketRequest 0 2).truncated = true
    ∧ (RGWOp_BILog_List.execute stdEnv (failingBILog 1) cappedBucketRequest 0 2).out.length = 1 := by
  refine ⟨fun made b m k => failingBILog_truncated 1 made b m k, ?_, ?_, ?_, ?_, ?_, ?_⟩ <;>
    decide

/-- Claim C19, amended, on a store that serves one entry per request and a
List with max-entries 2: the loop is entered, goes on after its first request
and has left after the second, when two entries are streamed. -/
theorem C19_bilog_list_terminates_witness :
    cappedBucketRequest.get "bucket" ≠ ""
    ∧ 1 ≤ RGWOp_BILog_List.max_entries stdEnv (cappedBucketRequest.get "max-entries")
    ∧ (RGWOp_BILog_List.execute stdEnv (failingBILog 5) cappedBucketRequest 0 0).finished = false
    ∧ (RGWOp_BILog_List.execute stdEnv (failingBILog 5) cappedBucketRequest 0 1).finished = false
    ∧ (RGWOp_BILog_List.execute stdEnv (failingBILog 5) cappedBucketRequest 0 2).finished = true
    ∧ (RGWOp_BILog_List.execute stdEnv (failingBILog 5) cappedBucketRequest 0 2).calls
        = [BILogCall.get_bucket_info "b", BILogCall.list_bi_log_entries "" 2,
           BILogCall.list_bi_log_entries "e" 1] :=
  ⟨by decide, by decide,
   (C19_bilog_list_terminates stdEnv (failingBILog 5) cappedBucketRequest 0
      (by decide) (by decide) (by decide)
      (fun st b m k _ _ ht => failingBILog_truncated 5 st b m k ht)).1,
   by decide,
   (C19_bilog_list_terminates stdEnv (failingBILog 5) cappedBucketRequest 0
      (by decide) (by decide) (by decide)
      (fun st b m k _ _ ht => failingBILog_truncated 5 st b m k ht)).2.1 2 (by decide),
   (((C19_bilog_list_terminates stdEnv (failingBILog 5) cappedBucketRequest 0
      (by decide) (by decide) (by decide)
      (fun st b m k _ _ ht => failingBILog_truncated 5 st b m k ht)).2.2.2 1 (by decide)).1).trans
      (by decide)⟩

end RgwLog
